import Mathlib

/-!
# Verification of the Kyren group-buying core

Shallow embedding of the group-formation and discount-settlement workflow of
the Kyren backend (`app/services/group_manager.py`, `app/services/bale.py`,
`app/db/crud.py`, `app/db/models.py`), with theorems settling the frozen
claims about it.

Modelling conventions:
* The relational store is a `DB` value: lists of products, group buys and
  orders plus fresh-id counters (the database's autoincrement keys).
* Monetary amounts and percentages (Python floats) are rationals `ℚ`.
* Timestamps are naturals; each operation that the source timestamps with
  `datetime.utcnow()` takes an explicit `now` argument.
* Fallible code returns `Except`: an uncaught Python `AttributeError` from
  dereferencing a `None` lookup result is an `Except.error` naming the
  missing entity; gracefully handled failures (such as
  `process_new_order` on an unknown order id) are `Except.ok` results whose
  payload mirrors the returned error dictionary.
* Notifications (`bale_client.send_message`) never affect the store and the
  client swallows every transport exception, so they are not modelled.
-/

/-- `models.DiscountTier`: a `(group_size, discount_percentage)` rule of a
product. -/
structure DiscountTier where
  group_size : Nat
  discount_percentage : ℚ
deriving DecidableEq, Repr

/-- `models.Product` restricted to the fields the core reads. -/
structure Product where
  id : Nat
  price : ℚ
  min_group_size : Nat
  discount_percentage : ℚ
  discount_tiers : List DiscountTier
deriving DecidableEq, Repr

/-- `models.OrderStatus`. -/
inductive OrderStatus where
  | pending
  | confirmed
  | paid
  | shipped
  | delivered
  | cancelled
deriving DecidableEq, Repr

/-- `models.GroupBuy` restricted to the fields the core reads. -/
structure GroupBuy where
  id : Nat
  product_id : Nat
  current_count : Nat
  target_count : Nat
  is_active : Bool
  updated_at : Nat
deriving DecidableEq, Repr

/-- `models.Order` restricted to the fields the core reads. -/
structure Order where
  id : Nat
  buyer_id : Nat
  group_buy_id : Nat
  quantity : Nat
  unit_price : ℚ
  discount_price : Option ℚ
  deposit_amount : ℚ
  status : OrderStatus
  created_at : Nat
deriving DecidableEq, Repr

/-- The relational store. `nextGroupId` / `nextOrderId` are the database's
autoincrement counters for primary keys. -/
structure DB where
  products : List Product
  groups : List GroupBuy
  orders : List Order
  nextGroupId : Nat
  nextOrderId : Nat
deriving DecidableEq, Repr

/-- Errors of the embedding: `productNotFound` models the uncaught
`AttributeError` raised when the join path dereferences a product lookup
that returned `None`; `danglingRef` models the same crash on a dangling
foreign key (an order whose group, or a group whose product, is missing). -/
inductive Err where
  | productNotFound
  | danglingRef
deriving DecidableEq, Repr

/-! ## CRUD layer (`app/db/crud.py`)

Each `get_*` mirrors a `db.query(...).filter(...)` call: `.first()` becomes
`List.find?`, `.all()` becomes `List.filter` (SQLAlchemy returns rows in
storage order for these unordered queries; the list order of `DB` plays
that role). -/

/-- `crud.get_product`. -/
def get_product (db : DB) (product_id : Nat) : Option Product :=
  db.products.find? (fun p => p.id == product_id)

/-- `crud.get_group_buy`. -/
def get_group_buy (db : DB) (group_id : Nat) : Option GroupBuy :=
  db.groups.find? (fun g => g.id == group_id)

/-- `crud.get_active_group_buy`. -/
def get_active_group_buy (db : DB) (product_id : Nat) : Option GroupBuy :=
  db.groups.find? (fun g => g.product_id == product_id && g.is_active)

/-- `crud.get_order`. -/
def get_order (db : DB) (order_id : Nat) : Option Order :=
  db.orders.find? (fun o => o.id == order_id)

/-- `crud.get_orders_by_group`. -/
def get_orders_by_group (db : DB) (group_id : Nat) : List Order :=
  db.orders.filter (fun o => o.group_buy_id == group_id)

/-- `crud.get_incomplete_groups`: active groups below target. -/
def get_incomplete_groups (db : DB) : List GroupBuy :=
  db.groups.filter (fun g => g.is_active && g.current_count < g.target_count)

/-- `crud.get_expired_groups`: active groups below target not updated since
`threshold_date`. -/
def get_expired_groups (db : DB) (threshold_date : Nat) : List GroupBuy :=
  db.groups.filter
    (fun g => g.is_active && g.updated_at < threshold_date && g.current_count < g.target_count)

/-- An ORM in-place mutation of the group row with id `group_id`
(`group.field = value` followed by `db.commit()`). -/
def setGroup (db : DB) (group_id : Nat) (f : GroupBuy → GroupBuy) : DB :=
  { db with groups := db.groups.map (fun g => if g.id == group_id then f g else g) }

/-- An ORM in-place mutation of the order row with id `order_id`. -/
def setOrder (db : DB) (order_id : Nat) (f : Order → Order) : DB :=
  { db with orders := db.orders.map (fun o => if o.id == order_id then f o else o) }

/-- `crud.create_group_buy`: insert a row, the database assigning the next
primary key. Returns the refreshed row's id. -/
def create_group_buy (db : DB) (g : Nat → GroupBuy) : DB × Nat :=
  ({ db with groups := db.groups ++ [g db.nextGroupId], nextGroupId := db.nextGroupId + 1 },
   db.nextGroupId)

/-- `crud.create_order`. -/
def create_order (db : DB) (o : Nat → Order) : DB × Nat :=
  ({ db with orders := db.orders ++ [o db.nextOrderId], nextOrderId := db.nextOrderId + 1 },
   db.nextOrderId)

/-! ## Discount Resolver (`group_manager.get_discount_percentage`) -/

/-- `group_manager.get_discount_percentage`.

The source guards on `product.discount_tiers` being non-empty, filters the
tiers with `tier.group_size <= group_size`, and if any remain sorts them by
`discount_percentage` descending and returns the first percentage — i.e. the
maximum percentage among the qualifying tiers, which is how the selection is
rendered here (`List.max?` is `none` exactly when no tier qualifies, which
also covers the source's outer emptiness guard: no tiers means no qualifying
tiers). Otherwise it falls back to the product default when
`group_size >= product.min_group_size`, else `0.0`. -/
def get_discount_percentage (product : Product) (group_size : Nat) : ℚ :=
  let applicable := product.discount_tiers.filter (fun t => t.group_size ≤ group_size)
  match (applicable.map (fun t => t.discount_percentage)).max? with
  | some d => d
  | none =>
      if group_size ≥ product.min_group_size then product.discount_percentage
      else 0

/-! ## Order Lifecycle Manager (`group_manager.process_new_order`) -/

/-- The return dictionary of `process_new_order`:
`orderNotFound` is `{"status": "error", "message": "Order not found"}`;
`completed` is `{"status": "success", "message": "Group buy completed", ...}`;
`pending` is `{"status": "success", "message": "Added to group buy", ...}`. -/
inductive ProcessResult where
  | orderNotFound
  | completed (group_buy_id : Nat) (discount_percentage : ℚ)
  | pending (group_buy_id : Nat) (current_count : Nat) (target_count : Nat)
deriving DecidableEq, Repr

/-- `group_manager.process_new_order`: called when a buyer's deposit for
`order_id` is paid. Looks up the order (missing → the graceful error
dictionary), increments its group's `current_count`, and if the count now
reaches the target deactivates the group, resolves the discount at the final
count, and finalizes every order currently linked to the group
(`discount_price = unit_price * (1 - d/100)`, `status = CONFIRMED`). -/
def process_new_order (db : DB) (order_id : Nat) (now : Nat) :
    Except Err (DB × ProcessResult) := do
  match get_order db order_id with
  | none => return (db, .orderNotFound)
  | some order =>
    -- `order.group_buy` / `group_buy.product` relationship dereferences
    let some group_buy := get_group_buy db order.group_buy_id | throw .danglingRef
    let some product := get_product db group_buy.product_id | throw .danglingRef
    -- group_buy.current_count += 1; db.commit()
    let newCount := group_buy.current_count + 1
    let db1 := setGroup db group_buy.id
      (fun g => { g with current_count := g.current_count + 1, updated_at := now })
    if newCount ≥ group_buy.target_count then
      -- group_buy.is_active = False
      let db2 := setGroup db1 group_buy.id (fun g => { g with is_active := false })
      let d := get_discount_percentage product newCount
      let finalized := get_orders_by_group db2 group_buy.id
      let db3 := finalized.foldl (fun acc o => setOrder acc o.id (fun od =>
        { od with discount_price := some (od.unit_price * (1 - d / 100)),
                  status := .confirmed })) db2
      return (db3, .completed group_buy.id d)
    else
      return (db1, .pending group_buy.id newCount group_buy.target_count)

/-! ## Group Membership Ledger (`crud.get_or_create_active_group_buy`) and
the join entry point (`bale.process_bale_update`, `join_group:` branch) -/

/-- `crud.get_or_create_active_group_buy`: return the product's active group
if one exists; otherwise create one with `target_count = min_group_size`,
`current_count = 0`, `is_active = True`. When creating, the source
dereferences `product.min_group_size` on the result of `get_product`, which
raises on `None`: that crash is the `productNotFound` error. -/
def get_or_create_active_group_buy (db : DB) (product_id : Nat) (now : Nat) :
    Except Err (DB × GroupBuy) :=
  match get_active_group_buy db product_id with
  | some g => .ok (db, g)
  | none =>
    match get_product db product_id with
    | none => .error .productNotFound
    | some p =>
      let (db1, gid) := create_group_buy db (fun gid =>
        { id := gid, product_id := product_id, target_count := p.min_group_size,
          current_count := 0, is_active := true, updated_at := now })
      .ok (db1, { id := gid, product_id := product_id, target_count := p.min_group_size,
                  current_count := 0, is_active := true, updated_at := now })

/-- The `join_group:` callback branch of `bale.process_bale_update`: get or
create the active group, re-fetch the product (`product.price` on a `None`
lookup raises — the `productNotFound` error), and create a PENDING order with
`unit_price = product.price` and a 10% deposit. Returns the new order's id.
`process_new_order` is *not* called here; it runs later, when the deposit is
paid. -/
def join_group (db : DB) (product_id buyer_id : Nat) (now : Nat) :
    Except Err (DB × Nat) := do
  let (db1, group_buy) ← get_or_create_active_group_buy db product_id now
  let some product := get_product db1 product_id | throw .productNotFound
  let deposit := product.price * (1 / 10)
  let (db2, oid) := create_order db1 (fun oid =>
    { id := oid, buyer_id := buyer_id, group_buy_id := group_buy.id, quantity := 1,
      unit_price := product.price, discount_price := none, deposit_amount := deposit,
      status := .pending, created_at := now })
  return (db2, oid)

/-! ## Rearrangement Engine (`group_manager.rearrange_incomplete_groups`) -/

/-- Python's `list.sort(key=lambda x: x.created_at)` is the stable ascending
sort by `created_at`. A stable sort's output is uniquely determined by its
input, so any stable realization is extensionally the source's sort; here it
is a stable insertion: an element is placed after every already-sorted
element whose key is `≤` its own, preserving the relative order of equal
keys. -/
def insertByCreated (o : Order) : List Order → List Order
  | [] => [o]
  | x :: xs => if o.created_at ≤ x.created_at then o :: x :: xs else x :: insertByCreated o xs

/-- See `insertByCreated`: `all_orders.sort(key=lambda x: x.created_at)`. -/
def sortByCreated (l : List Order) : List Order :=
  l.foldr insertByCreated []

/-- The key order of Python's `product_groups` dict: product ids in order of
first appearance in the incomplete-groups list. -/
def dedupFirst : List Nat → List Nat → List Nat
  | [], _ => []
  | x :: xs, seen => if x ∈ seen then dedupFirst xs seen else x :: dedupFirst xs (x :: seen)

/-- One entry of the `results` list of `rearrange_incomplete_groups`:
`completedGroup` is the `{"product_id", "new_group_id", "order_count",
"discount_percentage"}` dictionary, `remainderGroup` the `{"product_id",
"new_active_group_id", "current_count", "target_count"}` one. -/
inductive RearrangeOutcome where
  | completedGroup (product_id new_group_id order_count : Nat) (discount_percentage : ℚ)
  | remainderGroup (product_id new_active_group_id current_count target_count : Nat)
deriving DecidableEq, Repr

/-- The return dictionary of `rearrange_incomplete_groups`: `noIncomplete` is
`{"status": "success", "message": "No incomplete groups to rearrange"}`,
`rearranged` carries the `results` list. -/
inductive RearrangeResult where
  | noIncomplete
  | rearranged (results : List RearrangeOutcome)
deriving DecidableEq, Repr

/-- The `for i in range(complete_groups_possible)` loop: each iteration
creates an inactive group with `target_count = current_count = n`, takes the
slice `all_orders[i*n : i*n + n]` of the sorted list (successive
`take n`/`drop n` chunks are exactly those slices), and reassigns each of its
orders to the new group with `status = CONFIRMED` and
`discount_price = unit_price * (1 - d/100)`. The source recomputes
`d = get_discount_percentage(product, n)` each iteration with identical
arguments; the constant value is passed in. The counter argument is the
number of iterations left. -/
def assignFullGroups (pid n : Nat) (d : ℚ) (now : Nat) :
    DB → List Order → Nat → DB × List RearrangeOutcome
  | db, _, 0 => (db, [])
  | db, sortedOrders, k + 1 =>
    let (db1, gid) := create_group_buy db (fun gid =>
      { id := gid, product_id := pid, target_count := n, current_count := n,
        is_active := false, updated_at := now })
    let chunk := sortedOrders.take n
    let db2 := chunk.foldl (fun acc o => setOrder acc o.id (fun od =>
      { od with group_buy_id := gid, status := .confirmed,
                discount_price := some (od.unit_price * (1 - d / 100)) })) db1
    let (db3, rest) := assignFullGroups pid n d now db2 (sortedOrders.drop n) k
    (db3, .completedGroup pid gid chunk.length d :: rest)

/-- The body of the per-product loop of `rearrange_incomplete_groups`:
`group_ids` are the ids of the product's incomplete groups (the snapshot
taken before the loop). Collects their orders from the current store, sorts
by `created_at`, forms `total / n` complete groups, puts a positive
remainder into one new active group (only `group_buy_id` changes on its
orders), and finally deactivates the contributing groups — all of which
happens only under `if complete_groups_possible > 0`. -/
def processProductRearrange (db : DB) (pid : Nat) (group_ids : List Nat) (now : Nat) :
    Except Err (DB × List RearrangeOutcome) := do
  let some product := get_product db pid | throw .danglingRef
  let all_orders := (group_ids.map (fun gid => get_orders_by_group db gid)).flatten
  let sorted := sortByCreated all_orders
  let n := product.min_group_size
  let total := sorted.length
  let full := total / n
  if full > 0 then
    let d := get_discount_percentage product n
    let (db1, outFull) := assignFullGroups pid n d now db sorted full
    let remainder := total % n
    let (db2, outRem) :=
      if remainder > 0 then
        let (dbA, gid) := create_group_buy db1 (fun gid =>
          { id := gid, product_id := pid, target_count := n, current_count := remainder,
            is_active := true, updated_at := now })
        let remaining := sorted.drop (full * n)
        let dbB := remaining.foldl (fun acc o =>
          setOrder acc o.id (fun od => { od with group_buy_id := gid })) dbA
        (dbB, [RearrangeOutcome.remainderGroup pid gid remainder n])
      else (db1, [])
    -- for group in groups: group.is_active = False  (onupdate stamps updated_at)
    let db3 := group_ids.foldl (fun acc gid =>
      setGroup acc gid (fun g => { g with is_active := false, updated_at := now })) db2
    return (db3, outFull ++ outRem)
  else
    return (db, [])

/-- `group_manager.rearrange_incomplete_groups`: snapshot the active
incomplete groups, return the no-op message when there are none, otherwise
group them by product (dict insertion order = first appearance) and run the
per-product consolidation, threading the store. -/
def rearrange_incomplete_groups (db : DB) (now : Nat) :
    Except Err (DB × RearrangeResult) := do
  let incomplete := get_incomplete_groups db
  if incomplete.isEmpty then
    return (db, .noIncomplete)
  else
    let pids := dedupFirst (incomplete.map (fun g => g.product_id)) []
    let res ← pids.foldlM (fun (acc : DB × List RearrangeOutcome) pid => do
      let gids := (incomplete.filter (fun g => g.product_id == pid)).map (fun g => g.id)
      let (db', out) ← processProductRearrange acc.1 pid gids now
      return (db', acc.2 ++ out)) (db, [])
    return (res.1, .rearranged res.2)

/-! ## Expiration Sweeper (`group_manager.check_expired_groups`) -/

/-- The staleness threshold of `check_expired_groups`:
`timedelta(days=7)`, in seconds. -/
def expirationSeconds : Nat := 7 * 24 * 60 * 60

/-- The return dictionary of `check_expired_groups`: `noExpired` is
`{"status": "success", "message": "No expired groups"}`, `swept` carries
`expired_groups_count` and the nested `rearrangement_result`. -/
inductive SweepResult where
  | noExpired
  | swept (expired_groups_count : Nat) (rearrangement_result : RearrangeResult)
deriving DecidableEq, Repr

/-- `group_manager.check_expired_groups`: select the active, stale,
below-target groups; if none, return the no-op message *without* invoking
the Rearrangement Engine. Otherwise cancel every order linked to each
expired group, deactivate the group, and afterwards invoke
`rearrange_incomplete_groups` once. -/
def check_expired_groups (db : DB) (now : Nat) : Except Err (DB × SweepResult) := do
  let threshold := now - expirationSeconds
  let expired := get_expired_groups db threshold
  if expired.isEmpty then
    return (db, .noExpired)
  else
    let db1 := expired.foldl (fun acc g =>
      let orders := get_orders_by_group acc g.id
      let acc1 := orders.foldl (fun a o =>
        setOrder a o.id (fun od => { od with status := .cancelled })) acc
      setGroup acc1 g.id (fun gg => { gg with is_active := false, updated_at := now })) db
    let (db2, rr) ← rearrange_incomplete_groups db1 now
    return (db2, .swept expired.length rr)

/-! ## Operation traces

The system's entry points as a step relation on stores, for the invariant
claims quantified over "every sequence of operations". -/

/-- One externally triggered operation: a join callback (order creation), a
deposit-payment processing, a bare ledger get-or-create, a rearrangement
run, or an expiration sweep. -/
inductive Op where
  | joinCreate (product_id buyer_id now : Nat)
  | processOrder (order_id now : Nat)
  | getOrCreate (product_id now : Nat)
  | rearrange (now : Nat)
  | sweep (now : Nat)
deriving DecidableEq, Repr

/-- Run one operation, keeping only the store (the claims about returned
values are stated against the operations directly). -/
def runOp (db : DB) : Op → Except Err DB
  | .joinCreate pid buyer now => (join_group db pid buyer now).map (fun r => r.1)
  | .processOrder oid now => (process_new_order db oid now).map (fun r => r.1)
  | .getOrCreate pid now => (get_or_create_active_group_buy db pid now).map (fun r => r.1)
  | .rearrange now => (rearrange_incomplete_groups db now).map (fun r => r.1)
  | .sweep now => (check_expired_groups db now).map (fun r => r.1)

/-- A store the system starts from: a catalogue of products (each with a
positive `min_group_size` and distinct ids, as the API layer creates them)
and no groups or orders yet. -/
def InitDB (db : DB) : Prop :=
  db.groups = [] ∧ db.orders = [] ∧
  (db.products.map Product.id).Nodup ∧
  ∀ p ∈ db.products, 1 ≤ p.min_group_size

/-- Stores reachable from an initial store by successful operations. -/
inductive Reachable : DB → Prop where
  | init (db : DB) : InitDB db → Reachable db
  | step (db db' : DB) (op : Op) : Reachable db → runOp db op = .ok db' → Reachable db'

/-- An atomic join: the order-creation callback immediately followed by the
processing of that order's deposit (the §4.3 notion of a single join
operation). -/
inductive AtomicStep : DB → DB → Prop where
  | join (db db1 db' : DB) (pid buyer now oid : Nat) :
      join_group db pid buyer now = .ok (db1, oid) →
      runOp db1 (.processOrder oid now) = .ok db' → AtomicStep db db'
  | getOrCreate (db db' : DB) (pid now : Nat) :
      runOp db (.getOrCreate pid now) = .ok db' → AtomicStep db db'
  | rearrange (db db' : DB) (now : Nat) :
      runOp db (.rearrange now) = .ok db' → AtomicStep db db'
  | sweep (db db' : DB) (now : Nat) :
      runOp db (.sweep now) = .ok db' → AtomicStep db db'

/-- Stores reachable when every created order's deposit is processed
atomically with its creation. -/
inductive AtomicReachable : DB → Prop where
  | init (db : DB) : InitDB db → AtomicReachable db
  | step (db db' : DB) : AtomicReachable db → AtomicStep db db' → AtomicReachable db'

/-! ## Basic lemmas about the store operations -/

theorem setOrder_eq_map (db : DB) (i : Nat) (f : Order → Order) :
    setOrder db i f = { db with orders := db.orders.map (fun o => if o.id == i then f o else o) } :=
  rfl

theorem setGroup_eq_map (db : DB) (i : Nat) (f : GroupBuy → GroupBuy) :
    setGroup db i f = { db with groups := db.groups.map (fun g => if g.id == i then f g else g) } :=
  rfl

/-- Folding `setOrder` over a duplicate-free list of ids with an
id-preserving update is a single pointwise map over the order table. -/
theorem foldl_setOrder_eq (upd : Order → Order) (hid : ∀ o, (upd o).id = o.id) :
    ∀ (ids : List Nat), ids.Nodup → ∀ (db : DB),
    ids.foldl (fun acc i => setOrder acc i upd) db
      = { db with orders := db.orders.map (fun o => if o.id ∈ ids then upd o else o) }
  | [], _, db => by simp
  | i :: rest, hnodup, db => by
    have hi : i ∉ rest := (List.nodup_cons.mp hnodup).1
    rw [List.foldl_cons,
      foldl_setOrder_eq upd hid rest (List.nodup_cons.mp hnodup).2 (setOrder db i upd)]
    simp only [setOrder]
    congr 1
    rw [List.map_map]
    apply List.map_congr_left
    intro o _
    by_cases h1 : o.id = i
    · simp only [Function.comp_apply, h1, beq_self_eq_true, if_true]
      have : (upd o).id ∉ rest := by rw [hid o, h1]; exact hi
      simp [this, h1]
    · have : (o.id == i) = false := beq_eq_false_iff_ne.mpr h1
      simp only [Function.comp_apply, this, Bool.false_eq_true, if_false, List.mem_cons]
      by_cases h2 : o.id ∈ rest <;> simp [h1, h2]

/-- Folding `setGroup` over a duplicate-free list of ids with an
id-preserving update is a single pointwise map over the group table. -/
theorem foldl_setGroup_eq (upd : GroupBuy → GroupBuy) (hid : ∀ g, (upd g).id = g.id) :
    ∀ (ids : List Nat), ids.Nodup → ∀ (db : DB),
    ids.foldl (fun acc i => setGroup acc i upd) db
      = { db with groups := db.groups.map (fun g => if g.id ∈ ids then upd g else g) }
  | [], _, db => by simp
  | i :: rest, hnodup, db => by
    have hi : i ∉ rest := (List.nodup_cons.mp hnodup).1
    rw [List.foldl_cons,
      foldl_setGroup_eq upd hid rest (List.nodup_cons.mp hnodup).2 (setGroup db i upd)]
    simp only [setGroup]
    congr 1
    rw [List.map_map]
    apply List.map_congr_left
    intro g _
    by_cases h1 : g.id = i
    · simp only [Function.comp_apply, h1, beq_self_eq_true, if_true]
      have : (upd g).id ∉ rest := by rw [hid g, h1]; exact hi
      simp [this, h1]
    · have : (g.id == i) = false := beq_eq_false_iff_ne.mpr h1
      simp only [Function.comp_apply, this, Bool.false_eq_true, if_false, List.mem_cons]
      by_cases h2 : g.id ∈ rest <;> simp [h1, h2]

/-- Looking an order up in a pointwise-mapped table, when the map preserves
ids, is looking it up and then mapping. -/
theorem get_order_map (db : DB) (f : Order → Order) (hf : ∀ o, (f o).id = o.id) (i : Nat) :
    get_order { db with orders := db.orders.map f } i = (get_order db i).map f := by
  have hpred : ((fun o : Order => o.id == i) ∘ f) = (fun o : Order => o.id == i) := by
    funext o
    simp [Function.comp, hf]
  simp only [get_order, List.find?_map, hpred]

theorem get_group_buy_map (db : DB) (f : GroupBuy → GroupBuy)
    (hf : ∀ g, (f g).id = g.id) (i : Nat) :
    get_group_buy { db with groups := db.groups.map f } i = (get_group_buy db i).map f := by
  have hpred : ((fun g : GroupBuy => g.id == i) ∘ f) = (fun g : GroupBuy => g.id == i) := by
    funext g
    simp [Function.comp, hf]
  simp only [get_group_buy, List.find?_map, hpred]

/-- Generic: in a table whose keys are duplicate-free, `find?` by a member's
key finds exactly that member. -/
theorem find?_key_eq_some_of_mem {α : Type _} (key : α → Nat) :
    ∀ (l : List α), (l.map key).Nodup → ∀ a ∈ l, l.find? (fun x => key x == key a) = some a
  | [], _, a, ha => by cases ha
  | x :: xs, hnodup, a, ha => by
    rcases List.mem_cons.mp ha with rfl | hxs
    · simp [List.find?_cons]
    · have hx : key x ≠ key a := by
        intro he
        exact (List.nodup_cons.mp (by simpa using hnodup)).1
          (he ▸ List.mem_map_of_mem key hxs)
      have hb : (key x == key a) = false := beq_eq_false_iff_ne.mpr hx
      rw [List.find?_cons, hb]
      exact find?_key_eq_some_of_mem key xs (List.nodup_cons.mp (by simpa using hnodup)).2 a hxs

/-- With duplicate-free ids, `get_order` finds exactly the member with the
requested id. -/
theorem get_order_eq_some_iff (db : DB) (hnodup : (db.orders.map Order.id).Nodup)
    (i : Nat) (o : Order) :
    get_order db i = some o ↔ o ∈ db.orders ∧ o.id = i := by
  constructor
  · intro h
    exact ⟨List.mem_of_find?_eq_some h, by simpa using List.find?_some h⟩
  · rintro ⟨hmem, rfl⟩
    exact find?_key_eq_some_of_mem Order.id db.orders hnodup o hmem

theorem get_group_buy_eq_some_iff (db : DB) (hnodup : (db.groups.map GroupBuy.id).Nodup)
    (i : Nat) (g : GroupBuy) :
    get_group_buy db i = some g ↔ g ∈ db.groups ∧ g.id = i := by
  constructor
  · intro h
    exact ⟨List.mem_of_find?_eq_some h, by simpa using List.find?_some h⟩
  · rintro ⟨hmem, rfl⟩
    exact find?_key_eq_some_of_mem GroupBuy.id db.groups hnodup g hmem

/-! ## Fixtures for concrete scenarios -/

/-- The spec's tier example `[(2,5%),(5,15%),(10,10%)]`. -/
def c1Product : Product :=
  { id := 1, price := 0, min_group_size := 1, discount_percentage := 0,
    discount_tiers := [⟨2, 5⟩, ⟨5, 15⟩, ⟨10, 10⟩] }

/-- A store with no rows at all. -/
def emptyDB : DB :=
  { products := [], groups := [], orders := [], nextGroupId := 1, nextOrderId := 1 }

/-- In a store produced by `create_group_buy`, product lookups are
unchanged. -/
theorem get_product_create_group (db : DB) (f : Nat → GroupBuy) (pid : Nat) :
    get_product (create_group_buy db f).1 pid = get_product db pid := rfl

/-! ## C1: the Discount Resolver -/

/-- C1: for every product and group size, `get_discount_percentage` returns
the highest `discount_percentage` among tiers whose `group_size` threshold
is `≤ group_size` when at least one qualifying tier exists (the returned
value is some qualifying tier's percentage and bounds them all — not the
highest-threshold tier's); otherwise the product default when
`group_size ≥ min_group_size`; otherwise `0`. In particular, for tiers
`[(2,5%),(5,15%),(10,10%)]` and `group_size = 10` the result is `15`. It is
a total Lean function, hence without side effects or errors. -/
theorem c1_discount_resolver (p : Product) (gs : Nat) :
    ((∃ t ∈ p.discount_tiers, t.group_size ≤ gs) →
      (∃ t ∈ p.discount_tiers, t.group_size ≤ gs ∧
        t.discount_percentage = get_discount_percentage p gs) ∧
      ∀ t ∈ p.discount_tiers, t.group_size ≤ gs →
        t.discount_percentage ≤ get_discount_percentage p gs) ∧
    ((∀ t ∈ p.discount_tiers, ¬ t.group_size ≤ gs) →
      (p.min_group_size ≤ gs → get_discount_percentage p gs = p.discount_percentage) ∧
      (gs < p.min_group_size → get_discount_percentage p gs = 0)) ∧
    get_discount_percentage c1Product 10 = 15 := by
  refine ⟨?_, ?_, by decide⟩
  · rintro ⟨t0, ht0mem, ht0le⟩
    have hmem0 : t0 ∈ p.discount_tiers.filter (fun t => t.group_size ≤ gs) :=
      List.mem_filter.mpr ⟨ht0mem, by simpa using ht0le⟩
    obtain ⟨d, hd⟩ : ∃ d, ((p.discount_tiers.filter (fun t => t.group_size ≤ gs)).map
        (fun t => t.discount_percentage)).max? = some d := by
      cases hmax : ((p.discount_tiers.filter (fun t => t.group_size ≤ gs)).map
          (fun t => t.discount_percentage)).max? with
      | none =>
        rw [List.max?_eq_none_iff, List.map_eq_nil_iff] at hmax
        rw [hmax] at hmem0
        cases hmem0
      | some d => exact ⟨d, rfl⟩
    have hres : get_discount_percentage p gs = d := by
      simp only [get_discount_percentage, hd]
    obtain ⟨t1, ht1mem, ht1pct⟩ := List.mem_map.mp (List.max?_mem (fun a b => max_choice a b) hd)
    have ht1 := List.mem_filter.mp ht1mem
    refine ⟨⟨t1, ht1.1, by simpa using ht1.2, by rw [hres, ht1pct]⟩, ?_⟩
    intro t htmem htle
    have hbound := (List.max?_le_iff (fun a b c => max_le_iff) hd).mp le_rfl
    rw [hres]
    exact hbound _ (List.mem_map.mpr
      ⟨t, List.mem_filter.mpr ⟨htmem, by simpa using htle⟩, rfl⟩)
  · intro hnone
    have hfilter : p.discount_tiers.filter (fun t => t.group_size ≤ gs) = [] := by
      rw [List.filter_eq_nil_iff]
      intro t ht
      simpa using hnone t ht
    constructor
    · intro h
      simp [get_discount_percentage, hfilter, h]
    · intro h
      simp only [get_discount_percentage, hfilter, List.map_nil, List.max?_nil, ge_iff_le]
      rw [if_neg (by omega)]

theorem c1_discount_resolver_witness :
    (∃ t ∈ c1Product.discount_tiers, t.group_size ≤ 10 ∧
      t.discount_percentage = get_discount_percentage c1Product 10) ∧
    (5 : ℚ) ≤ get_discount_percentage c1Product 10 := by
  have h := (c1_discount_resolver c1Product 10).1 ⟨⟨2, 5⟩, by decide, by decide⟩
  exact ⟨h.1, h.2 ⟨2, 5⟩ (by decide) (by decide)⟩

/-! ## C9: error condition of a join -/

/-- C9: the join callback fails exactly when `product_id` does not resolve
to an existing product, and the failure is the product-lookup error; a join
for an existing product always succeeds. -/
theorem c9_join_notfound (db : DB) (pid buyer now : Nat) :
    (get_product db pid = none →
      join_group db pid buyer now = .error .productNotFound) ∧
    ((join_group db pid buyer now).isOk = true ↔ (get_product db pid).isSome = true) := by
  constructor
  · intro hnone
    cases hact : get_active_group_buy db pid with
    | none =>
      simp [join_group, get_or_create_active_group_buy, hact, hnone, bind, Except.bind]
    | some g =>
      simp [join_group, get_or_create_active_group_buy, hact, hnone, bind, Except.bind,
        throw, throwThe, MonadExceptOf.throw]
  · cases hprod : get_product db pid with
    | none =>
      cases hact : get_active_group_buy db pid with
      | none =>
        simp [join_group, get_or_create_active_group_buy, hact, hprod, Except.isOk,
          Except.toBool, bind, Except.bind]
      | some g =>
        simp [join_group, get_or_create_active_group_buy, hact, hprod, Except.isOk,
          Except.toBool, bind, Except.bind]
    | some p =>
      cases hact : get_active_group_buy db pid with
      | none =>
        have h2 : get_product (create_group_buy db (fun gid =>
            { id := gid, product_id := pid, target_count := p.min_group_size,
              current_count := 0, is_active := true, updated_at := now })).1 pid = some p := by
          rw [get_product_create_group]
          exact hprod
        simp [join_group, get_or_create_active_group_buy, hact, hprod, h2, Except.isOk,
          Except.toBool, bind, Except.bind, pure, Except.pure, create_order]
      | some g =>
        simp [join_group, get_or_create_active_group_buy, hact, hprod, Except.isOk,
          Except.toBool, bind, Except.bind, pure, Except.pure, create_order]

theorem c9_join_notfound_witness :
    get_product emptyDB 7 = none ∧
    join_group emptyDB 7 3 0 = .error .productNotFound :=
  ⟨rfl, (c9_join_notfound emptyDB 7 3 0).1 rfl⟩

/-! ## C10: missing order id is handled gracefully -/

/-- C10: when `order_id` identifies no order, `process_new_order` returns
the `"Order not found"` error dictionary (no exception) and the store is
returned unchanged — no count increment, no status or discount mutation. -/
theorem c10_process_missing_order (db : DB) (oid now : Nat)
    (h : get_order db oid = none) :
    process_new_order db oid now = .ok (db, .orderNotFound) := by
  simp [process_new_order, h, pure, Except.pure]

theorem c10_process_missing_order_witness :
    get_order emptyDB 5 = none ∧
    process_new_order emptyDB 5 0 = .ok (emptyDB, .orderNotFound) :=
  ⟨rfl, c10_process_missing_order emptyDB 5 0 rfl⟩

/-! ## C3: a join that completes the group -/

/-- Folding `setOrder` along a list of orders leaves the group table (and
products and counters) alone. -/
theorem foldl_setOrder_by_id_groups (upd : Order → Order) :
    ∀ (L : List Order) (db : DB),
    (L.foldl (fun acc o => setOrder acc o.id upd) db).groups = db.groups
  | [], _ => rfl
  | _ :: rest, db => foldl_setOrder_by_id_groups upd rest _

/-- The product catalogue after a `setOrder` fold. -/
theorem foldl_setOrder_by_id_products (upd : Order → Order) :
    ∀ (L : List Order) (db : DB),
    (L.foldl (fun acc o => setOrder acc o.id upd) db).products = db.products
  | [], _ => rfl
  | _ :: rest, db => foldl_setOrder_by_id_products upd rest _

/-- The fold `process_new_order` runs over the finalized orders, as a
single map (specialized `foldl_setOrder_eq` after `List.foldl_map`). -/
theorem foldl_setOrder_orders_eq (upd : Order → Order) (hid : ∀ o, (upd o).id = o.id)
    (L : List Order) (hnodup : (L.map Order.id).Nodup) (db : DB) :
    L.foldl (fun acc o => setOrder acc o.id upd) db
      = { db with orders := db.orders.map (fun o => if o.id ∈ L.map Order.id then upd o else o) } := by
  have h1 : L.foldl (fun acc o => setOrder acc o.id upd) db
      = (L.map Order.id).foldl (fun acc i => setOrder acc i upd) db :=
    (List.foldl_map Order.id (fun acc i => setOrder acc i upd) L db).symm
  rw [h1, foldl_setOrder_eq upd hid (L.map Order.id) hnodup db]

/-- A member of a duplicate-free-id order table whose id is among the ids of
a filtered sub-table satisfies the filter. -/
theorem mem_filter_ids_iff (db : DB) (hnodup : (db.orders.map Order.id).Nodup)
    (P : Order → Bool) (o : Order) (ho : o ∈ db.orders) :
    o.id ∈ (db.orders.filter P).map Order.id ↔ P o = true := by
  constructor
  · intro hmem
    obtain ⟨o', ho'mem, ho'id⟩ := List.mem_map.mp hmem
    have h1 := List.mem_filter.mp ho'mem
    have : o' = o := List.inj_on_of_nodup_map hnodup h1.1 ho ho'id
    rw [← this]
    exact h1.2
  · intro hP
    exact List.mem_map.mpr ⟨o, List.mem_filter.mpr ⟨ho, hP⟩, rfl⟩

/-- The product and the empty store for the two-buyer scenario:
`min_group_size = 2`, price `100`, default discount `20%`. -/
def c3DB : DB :=
  { products := [{ id := 1, price := 100, min_group_size := 2, discount_percentage := 20,
                   discount_tiers := [] }],
    groups := [], orders := [], nextGroupId := 1, nextOrderId := 1 }

/-- Two different buyers join sequentially, each deposit processed right
after its join; the run returns the final store and the second join's
processing result. -/
def c3Run : Except Err (DB × ProcessResult) := do
  let (d1, oid1) ← join_group c3DB 1 11 10
  let (d2, _) ← process_new_order d1 oid1 11
  let (d3, oid2) ← join_group d2 1 12 12
  process_new_order d3 oid2 13

/-- Concrete evaluation of the two-buyer run: the second join's processing
returns the completed result with a 20% discount, the single group ends
inactive, and both orders end with the identical
`discount_price = 100 * (1 - 20/100) = 80`. (The expected values are spelled
as the unevaluated arithmetic the code builds, since Batteries makes the `ℚ`
operations irreducible; the closing conjunct evaluates the number.) -/
theorem c3Run_eval :
    (c3Run.map (fun r => (r.2, r.1.groups.map (fun gg => (gg.id, gg.is_active)),
        r.1.orders.map (fun oo => oo.discount_price)))).toOption
      = some (.completed 1 20, [(1, false)],
          [some ((100 : ℚ) * (1 - 20/100)), some ((100 : ℚ) * (1 - 20/100))]) ∧
    (100 : ℚ) * (1 - 20/100) = 80 := ⟨rfl, by norm_num⟩

/-- C3: when processing a join makes `current_count` reach `target_count`,
the group is deactivated, the discount is resolved at the final count, and
every order linked to the group gets
`discount_price = unit_price * (1 - d/100)` and `status = CONFIRMED`
(orders of other groups untouched), with the "Group buy completed" result
returned; and in the concrete two-buyer scenario with `min_group_size = 2`
the second join's processing observes the completed result, both orders have
identical `discount_price = 80`, and the group has `is_active = false`. -/
theorem c3_join_completion (db : DB) (oid now : Nat) (o : Order) (g : GroupBuy) (p : Product)
    (hnodupO : (db.orders.map Order.id).Nodup)
    (ho : get_order db oid = some o)
    (hg : get_group_buy db o.group_buy_id = some g)
    (hp : get_product db g.product_id = some p)
    (hfull : g.target_count ≤ g.current_count + 1) :
    (∃ db', process_new_order db oid now =
        .ok (db', .completed g.id (get_discount_percentage p (g.current_count + 1))) ∧
      get_group_buy db' g.id = some { g with current_count := g.current_count + 1, updated_at := now, is_active := false } ∧
      (∀ o' ∈ db.orders, o'.group_buy_id = g.id →
        get_order db' o'.id = some { o' with status := .confirmed, discount_price := some (o'.unit_price * (1 - get_discount_percentage p (g.current_count + 1) / 100)) }) ∧
      (∀ o' ∈ db.orders, o'.group_buy_id ≠ g.id → get_order db' o'.id = get_order db o'.id)) ∧
    ((c3Run.map (fun r => (r.2, r.1.groups.map (fun gg => (gg.id, gg.is_active)),
        r.1.orders.map (fun oo => oo.discount_price)))).toOption
      = some (.completed 1 20, [(1, false)],
          [some ((100 : ℚ) * (1 - 20/100)), some ((100 : ℚ) * (1 - 20/100))]) ∧
    (100 : ℚ) * (1 - 20/100) = 80) := by
  have hgid : g.id = o.group_buy_id := by simpa using List.find?_some hg
  refine ⟨?_, c3Run_eval⟩
  simp only [process_new_order, ho, hg, hp, ge_iff_le]
  rw [if_pos hfull]
  set d := get_discount_percentage p (g.current_count + 1) with hd
  set upd : Order → Order := fun od =>
    { od with discount_price := some (od.unit_price * (1 - d / 100)),
              status := OrderStatus.confirmed } with hupd
  have hid : ∀ o', (upd o').id = o'.id := fun _ => rfl
  set db1 := setGroup db g.id
    (fun gg => { gg with current_count := gg.current_count + 1, updated_at := now }) with hdb1
  set db2 := setGroup db1 g.id (fun gg => { gg with is_active := false }) with hdb2
  have horders2 : db2.orders = db.orders := rfl
  have hfin : get_orders_by_group db2 g.id = db.orders.filter
      (fun o' => o'.group_buy_id == g.id) := rfl
  have hnodupFin : ((db.orders.filter (fun o' => o'.group_buy_id == g.id)).map
      Order.id).Nodup :=
    List.Nodup.sublist (List.Sublist.map Order.id (List.filter_sublist _)) hnodupO
  have hfold := foldl_setOrder_orders_eq upd hid
    (db.orders.filter (fun o' => o'.group_buy_id == g.id)) hnodupFin db2
  refine ⟨(db.orders.filter (fun o' => o'.group_buy_id == g.id)).foldl
      (fun acc o' => setOrder acc o'.id upd) db2, ?_, ?_, ?_, ?_⟩
  · rw [show get_orders_by_group db2 g.id
        = db.orders.filter (fun o' => o'.group_buy_id == g.id) from rfl]
    rfl
  · -- the group row after completion
    rw [hfold]
    have h1 : get_group_buy { db2 with orders := db2.orders.map (fun o' =>
        if o'.id ∈ (db.orders.filter (fun o'' => o''.group_buy_id == g.id)).map Order.id
        then upd o' else o') } g.id = get_group_buy db2 g.id := rfl
    rw [h1, hdb2, setGroup_eq_map, hdb1, setGroup_eq_map]
    rw [get_group_buy_map _ _ (fun gg => by split <;> rfl),
        get_group_buy_map _ _ (fun gg => by split <;> rfl)]
    rw [← hgid] at hg
    rw [hg]
    simp
  · -- every order linked to the group is finalized
    intro o' ho'mem ho'gid
    rw [hfold]
    rw [get_order_map _ _ (fun oo => by split <;> rfl)]
    have h2 : get_order db2 o'.id = some o' := by
      have : get_order db o'.id = some o' :=
        (get_order_eq_some_iff db hnodupO o'.id o').mpr ⟨ho'mem, rfl⟩
      exact this
    rw [h2]
    have hmem : o'.id ∈ (db.orders.filter (fun o'' => o''.group_buy_id == g.id)).map
        Order.id :=
      (mem_filter_ids_iff db hnodupO _ o' ho'mem).mpr (by simpa using ho'gid)
    simp only [Option.map_some', if_pos hmem]
  · -- orders of other groups are untouched
    intro o' ho'mem ho'gid
    rw [hfold]
    rw [get_order_map _ _ (fun oo => by split <;> rfl)]
    have h2 : get_order db2 o'.id = get_order db o'.id := rfl
    have h3 : get_order db o'.id = some o' :=
      (get_order_eq_some_iff db hnodupO o'.id o').mpr ⟨ho'mem, rfl⟩
    rw [h2, h3]
    have hnotmem : o'.id ∉ (db.orders.filter (fun o'' => o''.group_buy_id == g.id)).map
        Order.id := by
      intro hmem
      exact ho'gid (by simpa using (mem_filter_ids_iff db hnodupO _ o' ho'mem).mp hmem)
    simp only [Option.map_some', if_neg hnotmem]

def c3WitP : Product :=
  { id := 1, price := 100, min_group_size := 2, discount_percentage := 20,
    discount_tiers := [] }

def c3WitG : GroupBuy :=
  { id := 1, product_id := 1, current_count := 1, target_count := 2,
    is_active := true, updated_at := 0 }

def c3WitO : Order :=
  { id := 2, buyer_id := 12, group_buy_id := 1, quantity := 1, unit_price := 100,
    discount_price := none, deposit_amount := 10, status := .pending, created_at := 1 }

def c3WitDB : DB :=
  { products := [c3WitP],
    groups := [c3WitG],
    orders := [{ id := 1, buyer_id := 11, group_buy_id := 1, quantity := 1, unit_price := 100,
                 discount_price := none, deposit_amount := 10, status := .pending,
                 created_at := 0 },
               c3WitO],
    nextGroupId := 2, nextOrderId := 3 }

theorem c3_join_completion_witness :
    ∃ db', process_new_order c3WitDB 2 5 = .ok (db', .completed 1 20) := by
  obtain ⟨db', heq, -, -, -⟩ := (c3_join_completion c3WitDB 2 5 c3WitO c3WitG c3WitP
    (by decide) rfl rfl rfl (by decide)).1
  have h20 : get_discount_percentage c3WitP (c3WitG.current_count + 1) = 20 := by decide
  have hid1 : c3WitG.id = 1 := rfl
  rw [h20, hid1] at heq
  exact ⟨db', heq⟩

/-! ## C5, C7, C8: concrete counterexamples -/

/-- An order of the C5 store: linked to group 1, PENDING, no discount. -/
def c5Order (i ca : Nat) : Order :=
  { id := i, buyer_id := i, group_buy_id := 1, quantity := 1, unit_price := 100,
    discount_price := none, deposit_amount := 10, status := .pending, created_at := ca }

/-- A product with `min_group_size = 4` whose single active incomplete group
holds two orders: `total_orders = 2 < 4 = n`. -/
def c5DB : DB :=
  { products := [{ id := 1, price := 100, min_group_size := 4, discount_percentage := 25,
                   discount_tiers := [] }],
    groups := [{ id := 1, product_id := 1, current_count := 2, target_count := 4,
                 is_active := true, updated_at := 0 }],
    orders := [c5Order 1 5, c5Order 2 6],
    nextGroupId := 2, nextOrderId := 3 }

/-- C5 counterexample: with one active incomplete group holding
`total_orders = 2 < 4 = min_group_size`, rearrangement returns the store
unchanged with an empty outcome list — no new active group is created, no
order is reassigned, and the original incomplete group is *not*
deactivated, contradicting the claim that consolidation still executes. -/
theorem c5_counterexample :
    (get_orders_by_group c5DB 1).length = 2 ∧ (2 : Nat) < 4 ∧
    get_incomplete_groups c5DB = c5DB.groups ∧
    rearrange_incomplete_groups c5DB 1000 = .ok (c5DB, .rearranged []) ∧
    c5DB.groups.map (fun g => (g.id, g.is_active)) = [(1, true)] ∧
    c5DB.nextGroupId = 2 := by
  refine ⟨rfl, by decide, rfl, rfl, rfl, rfl⟩

/-- The product of the C7 run: `min_group_size = 2`, default discount 10%,
one tier `(3, 30%)`, so a second completion at a larger count changes the
resolved discount. -/
def c7DB : DB :=
  { products := [{ id := 1, price := 100, min_group_size := 2, discount_percentage := 10,
                   discount_tiers := [⟨3, 30⟩] }],
    groups := [], orders := [], nextGroupId := 1, nextOrderId := 1 }

/-- Three buyers join; the first two deposits are processed after the third
buyer has already joined the same still-active group, and the third deposit
is processed after the group has completed. Returns the orders'
`discount_price` column right after the second deposit and at the end. -/
def c7Run : Except Err (List (Option ℚ) × List (Option ℚ)) := do
  let (d1, oid1) ← join_group c7DB 1 11 10
  let (d2, oid2) ← join_group d1 1 12 11
  let (d3, _) ← process_new_order d2 oid1 12
  let (d4, oid3) ← join_group d3 1 13 13
  let (d5, _) ← process_new_order d4 oid2 14
  let mid := d5.orders.map (fun o => o.discount_price)
  let (d6, _) ← process_new_order d5 oid3 15
  return (mid, d6.orders.map (fun o => o.discount_price))

/-- C7 counterexample: processing the second deposit completes the group and
assigns every linked order `discount_price = 100 * (1 - 10/100) = 90`;
processing the third deposit (an order that joined before the group
completed) finds the count already at target, finalizes the same group
again, and overwrites every `discount_price` with
`100 * (1 - 30/100) = 70 ≠ 90` — so `discount_price` is assigned twice and
recomputed, and the group completes twice. -/
theorem c7_counterexample :
    c7Run.toOption = some (
      [some ((100 : ℚ) * (1 - 10/100)), some ((100 : ℚ) * (1 - 10/100)),
       some ((100 : ℚ) * (1 - 10/100))],
      [some ((100 : ℚ) * (1 - 30/100)), some ((100 : ℚ) * (1 - 30/100)),
       some ((100 : ℚ) * (1 - 30/100))]) ∧
    ((100 : ℚ) * (1 - 10/100)) ≠ ((100 : ℚ) * (1 - 30/100)) :=
  ⟨rfl, by norm_num⟩

/-- A store with two fresh (non-stale) active incomplete groups of one
product, each holding one order; nothing is expired, but the Rearrangement
Engine would consolidate the two groups. -/
def c8DB : DB :=
  { products := [{ id := 1, price := 100, min_group_size := 2, discount_percentage := 20,
                   discount_tiers := [] }],
    groups := [{ id := 1, product_id := 1, current_count := 1, target_count := 2,
                 is_active := true, updated_at := 0 },
               { id := 2, product_id := 1, current_count := 1, target_count := 2,
                 is_active := true, updated_at := 0 }],
    orders := [{ id := 1, buyer_id := 11, group_buy_id := 1, quantity := 1, unit_price := 100,
                 discount_price := none, deposit_amount := 10, status := .pending,
                 created_at := 3 },
               { id := 2, buyer_id := 12, group_buy_id := 2, quantity := 1, unit_price := 100,
                 discount_price := none, deposit_amount := 10, status := .pending,
                 created_at := 4 }],
    nextGroupId := 3, nextOrderId := 3 }

/-- C8 counterexample: when the sweep selects no expired group it returns
the store unchanged *without* invoking the Rearrangement Engine — had the
engine been invoked once, as the claim demands after processing all (here
zero) expired groups, the two incomplete groups would have been consolidated
and deactivated, so the store would not have been returned unchanged. -/
theorem c8_counterexample :
    get_expired_groups c8DB (100 - expirationSeconds) = [] ∧
    check_expired_groups c8DB 100 = .ok (c8DB, .noExpired) ∧
    c8DB.groups.map (fun g => (g.id, g.is_active)) = [(1, true), (2, true)] ∧
    ((rearrange_incomplete_groups c8DB 100).toOption.map
        (fun r => r.1.groups.map (fun g => (g.id, g.is_active))))
      = some [(1, false), (2, false), (3, false)] :=
  ⟨rfl, rfl, rfl, rfl⟩

/-! ## Properties of the stable sort used by the Rearrangement Engine -/

theorem insertByCreated_perm (o : Order) :
    ∀ l : List Order, (insertByCreated o l).Perm (o :: l)
  | [] => List.Perm.refl _
  | x :: xs => by
    simp only [insertByCreated]
    split
    · exact List.Perm.refl _
    · exact ((insertByCreated_perm o xs).cons x).trans (List.Perm.swap o x xs)

theorem sortByCreated_perm : ∀ l : List Order, (sortByCreated l).Perm l
  | [] => List.Perm.refl _
  | x :: xs => by
    simp only [sortByCreated, List.foldr_cons]
    exact (insertByCreated_perm x _).trans ((sortByCreated_perm xs).cons x)

theorem sortByCreated_length (l : List Order) : (sortByCreated l).length = l.length :=
  (sortByCreated_perm l).length_eq

theorem sortByCreated_ids_nodup (l : List Order) (h : (l.map Order.id).Nodup) :
    ((sortByCreated l).map Order.id).Nodup :=
  (((sortByCreated_perm l).map Order.id).nodup_iff).mpr h

theorem insertByCreated_sorted (o : Order) :
    ∀ l : List Order, l.Pairwise (fun a b => a.created_at ≤ b.created_at) →
      (insertByCreated o l).Pairwise (fun a b => a.created_at ≤ b.created_at)
  | [], _ => List.pairwise_singleton _ o
  | x :: xs, h => by
    simp only [insertByCreated]
    rcases List.pairwise_cons.mp h with ⟨hx, hxs⟩
    split
    · rename_i hle
      refine List.pairwise_cons.mpr ⟨?_, h⟩
      intro b hb
      rcases List.mem_cons.mp hb with rfl | hbxs
      · exact hle
      · exact le_trans hle (hx b hbxs)
    · rename_i hgt
      refine List.pairwise_cons.mpr ⟨?_, insertByCreated_sorted o xs hxs⟩
      intro b hb
      rcases List.mem_cons.mp ((insertByCreated_perm o xs).mem_iff.mp hb) with rfl | hbxs
      · exact le_of_not_le hgt
      · exact hx b hbxs

theorem sortByCreated_sorted : ∀ l : List Order,
    (sortByCreated l).Pairwise (fun a b => a.created_at ≤ b.created_at)
  | [] => List.Pairwise.nil
  | x :: xs => insertByCreated_sorted x _ (sortByCreated_sorted xs)

/-! ## Postcondition of the full-group assignment loop -/

/-- The row `create_group_buy` inserts for a complete rearranged group. -/
def fullGroupRow (pid n now gid : Nat) : GroupBuy :=
  { id := gid, product_id := pid, target_count := n, current_count := n,
    is_active := false, updated_at := now }

/-- What rearrangement does to an order placed in a complete group. -/
def finalizeOrder (d : ℚ) (gid : Nat) (o : Order) : Order :=
  { o with group_buy_id := gid, status := .confirmed,
           discount_price := some (o.unit_price * (1 - d / 100)) }

theorem assignFullGroups_spec (pid n : Nat) (d : ℚ) (now : Nat) :
    ∀ (k : Nat) (db : DB) (L : List Order), (L.map Order.id).Nodup →
    ∃ F : Order → Order,
      assignFullGroups pid n d now db L k
        = ({ products := db.products,
             groups := db.groups
               ++ (List.range k).map (fun i => fullGroupRow pid n now (db.nextGroupId + i)),
             orders := db.orders.map F,
             nextGroupId := db.nextGroupId + k,
             nextOrderId := db.nextOrderId },
           (List.range k).map (fun i =>
             RearrangeOutcome.completedGroup pid (db.nextGroupId + i)
               ((L.drop (i * n)).take n).length d)) ∧
      (∀ o, (F o).id = o.id) ∧
      (∀ o, o.id ∉ (L.take (k * n)).map Order.id → F o = o) ∧
      (∀ i < k, ∀ o ∈ (L.drop (i * n)).take n, F o = finalizeOrder d (db.nextGroupId + i) o)
  | 0, db, L, _ => by
    refine ⟨id, ?_, fun o => rfl, fun o _ => rfl, fun i hi => absurd hi (Nat.not_lt_zero i)⟩
    simp [assignFullGroups]
  | k + 1, db, L, hnodup => by
    have hsplit : L.map Order.id = (L.take n).map Order.id ++ (L.drop n).map Order.id := by
      rw [← List.map_append, List.take_append_drop]
    have hnodup3 := List.nodup_append.mp (hsplit ▸ hnodup)
    have hnodupTake : ((L.take n).map Order.id).Nodup := hnodup3.1
    have hnodupDrop : ((L.drop n).map Order.id).Nodup := hnodup3.2.1
    have hdisj : ∀ j ∈ (L.take n).map Order.id, j ∉ (L.drop n).map Order.id :=
      fun j hj => hnodup3.2.2 hj
    set upd0 : Order → Order := fun od =>
      { od with group_buy_id := db.nextGroupId, status := .confirmed,
                discount_price := some (od.unit_price * (1 - d / 100)) } with hupd0
    have hupd0id : ∀ o, (upd0 o).id = o.id := fun _ => rfl
    set f0 : Order → Order :=
      fun o => if o.id ∈ (L.take n).map Order.id then upd0 o else o with hf0
    have hf0id : ∀ o, (f0 o).id = o.id := by
      intro o
      simp only [hf0]
      split <;> rfl
    set db1 : DB := { db with groups := db.groups ++ [fullGroupRow pid n now db.nextGroupId],
                              nextGroupId := db.nextGroupId + 1 } with hdb1
    have hunfold : assignFullGroups pid n d now db L (k + 1)
        = ((assignFullGroups pid n d now
              ((L.take n).foldl (fun acc o => setOrder acc o.id upd0) db1) (L.drop n) k).1,
           RearrangeOutcome.completedGroup pid db.nextGroupId (L.take n).length d
             :: (assignFullGroups pid n d now
              ((L.take n).foldl (fun acc o => setOrder acc o.id upd0) db1) (L.drop n) k).2) :=
      rfl
    have hdb2 : (L.take n).foldl (fun acc o => setOrder acc o.id upd0) db1
        = { db1 with orders := db1.orders.map f0 } :=
      foldl_setOrder_orders_eq upd0 hupd0id (L.take n) hnodupTake db1
    rw [hdb2] at hunfold
    obtain ⟨F', hF'eq, hF'id, hF'skip, hF'chunk⟩ :=
      assignFullGroups_spec pid n d now k { db1 with orders := db1.orders.map f0 }
        (L.drop n) hnodupDrop
    refine ⟨fun o => F' (f0 o), ?_, fun o => by rw [hF'id, hf0id], ?_, ?_⟩
    · -- the store equation
      rw [hunfold, hF'eq]
      refine congrArg₂ Prod.mk ?_ ?_
      · show DB.mk db.products
            ((db.groups ++ [fullGroupRow pid n now db.nextGroupId])
              ++ (List.range k).map (fun i => fullGroupRow pid n now (db.nextGroupId + 1 + i)))
            ((db.orders.map f0).map F') (db.nextGroupId + 1 + k) db.nextOrderId = _
        rw [List.map_map, List.append_assoc]
        congr 1
        · rw [List.range_succ_eq_map, List.map_cons, List.map_map, List.singleton_append]
          congr 1
          simp only [List.cons.injEq]
          refine ⟨rfl, ?_⟩
          apply List.map_congr_left
          intro i _
          simp only [Function.comp_apply]
          congr 1
          omega
        · omega
      · show RearrangeOutcome.completedGroup pid db.nextGroupId (L.take n).length d
            :: (List.range k).map (fun i =>
                RearrangeOutcome.completedGroup pid (db.nextGroupId + 1 + i)
                  (((L.drop n).drop (i * n)).take n).length d) = _
        rw [List.range_succ_eq_map, List.map_cons, List.map_map]
        simp only [List.cons.injEq]
        refine ⟨by simp, ?_⟩
        apply List.map_congr_left
        intro i _
        simp only [Function.comp_apply]
        have h1 : db.nextGroupId + 1 + i = db.nextGroupId + (i + 1) := by omega
        have h2 : (L.drop n).drop (i * n) = L.drop ((i + 1) * n) := by
          rw [List.drop_drop]
          congr 1
          ring
        rw [h1, h2]
    · -- orders outside the first k+1 chunks are untouched
      intro o ho
      have hmul : n ≤ (k + 1) * n := by nlinarith
      have hno0 : o.id ∉ (L.take n).map Order.id := by
        intro hmem
        apply ho
        have htt : L.take n = (L.take ((k + 1) * n)).take n := by
          rw [List.take_take, Nat.min_eq_left hmul]
        rw [htt] at hmem
        obtain ⟨o', ho'1, ho'2⟩ := List.mem_map.mp hmem
        exact List.mem_map.mpr ⟨o', (List.take_sublist _ _).mem ho'1, ho'2⟩
      have hnoRest : o.id ∉ ((L.drop n).take (k * n)).map Order.id := by
        intro hmem
        apply ho
        have hdt : (L.drop n).take (k * n) = (L.take ((k + 1) * n)).drop n := by
          rw [List.drop_take]
          congr 1
          have hkn : (k + 1) * n = k * n + n := by ring
          omega
        rw [hdt] at hmem
        obtain ⟨o', ho'1, ho'2⟩ := List.mem_map.mp hmem
        exact List.mem_map.mpr ⟨o', (List.drop_sublist _ _).mem ho'1, ho'2⟩
      have hstay : f0 o = o := by
        simp only [hf0, if_neg hno0]
      show F' (f0 o) = o
      rw [hstay, hF'skip o hnoRest]
    · -- each chunk is finalized into its group
      intro i hi o ho
      match i with
      | 0 =>
        have hmem : o.id ∈ (L.take n).map Order.id := by
          apply List.mem_map.mpr
          refine ⟨o, ?_, rfl⟩
          simpa using ho
        have hf0o : f0 o = upd0 o := by
          simp only [hf0, if_pos hmem]
        show F' (f0 o) = finalizeOrder d (db.nextGroupId + 0) o
        have hskip : (upd0 o).id ∉ ((L.drop n).take (k * n)).map Order.id := by
          rw [hupd0id]
          intro hmem2
          obtain ⟨o', ho'1, ho'2⟩ := List.mem_map.mp hmem2
          exact hdisj o.id hmem
            (List.mem_map.mpr ⟨o', (List.take_sublist _ _).mem ho'1, ho'2⟩)
        rw [hf0o, hF'skip _ hskip]
        rfl
      | j + 1 =>
        have hseg : (L.drop ((j + 1) * n)).take n = ((L.drop n).drop (j * n)).take n := by
          rw [List.drop_drop]
          congr 2
          ring
        have hoseg : o ∈ ((L.drop n).drop (j * n)).take n := hseg ▸ ho
        have hno0 : o.id ∉ (L.take n).map Order.id := by
          intro hmem
          refine hdisj o.id hmem (List.mem_map.mpr ⟨o, ?_, rfl⟩)
          exact (List.drop_sublist _ _).mem ((List.take_sublist _ _).mem hoseg)
        have hf0o : f0 o = o := by
          simp only [hf0, if_neg hno0]
        show F' (f0 o) = finalizeOrder d (db.nextGroupId + (j + 1)) o
        have hj : db.nextGroupId + 1 + j = db.nextGroupId + (j + 1) := by omega
        rw [hf0o, hF'chunk j (by omega) o hoseg]
        show finalizeOrder d (db.nextGroupId + 1 + j) o = finalizeOrder d (db.nextGroupId + (j + 1)) o
        rw [hj]

/-! ## Postcondition of the per-product rearrangement -/

/-- The orders the engine collects for one product: every order of each of
the product's incomplete groups, in group-snapshot order (proof-side name
for the expression inlined in `processProductRearrange`). -/
def collectOrders (db : DB) (gids : List Nat) : List Order :=
  (gids.map (fun gid => get_orders_by_group db gid)).flatten

theorem mem_collectOrders (db : DB) (gids : List Nat) (o : Order) :
    o ∈ collectOrders db gids ↔ o ∈ db.orders ∧ o.group_buy_id ∈ gids := by
  constructor
  · intro h
    obtain ⟨l, hl, hol⟩ := List.mem_flatten.mp h
    obtain ⟨gid, hgid, rfl⟩ := List.mem_map.mp hl
    have h2 := List.mem_filter.mp hol
    have h3 : o.group_buy_id = gid := by simpa using h2.2
    exact ⟨h2.1, h3 ▸ hgid⟩
  · rintro ⟨hmem, hgid⟩
    refine List.mem_flatten.mpr ⟨get_orders_by_group db o.group_buy_id,
      List.mem_map.mpr ⟨o.group_buy_id, hgid, rfl⟩, ?_⟩
    exact List.mem_filter.mpr ⟨hmem, by simp⟩

theorem collectOrders_ids_nodup (db : DB) (hOnodup : (db.orders.map Order.id).Nodup) :
    ∀ gids : List Nat, gids.Nodup → ((collectOrders db gids).map Order.id).Nodup
  | [], _ => List.Pairwise.nil
  | gid :: rest, hnodup => by
    have hrest := collectOrders_ids_nodup db hOnodup rest (List.nodup_cons.mp hnodup).2
    have hstep : collectOrders db (gid :: rest)
        = get_orders_by_group db gid ++ collectOrders db rest := by
      simp [collectOrders]
    rw [hstep, List.map_append, List.nodup_append]
    refine ⟨List.Nodup.sublist (List.Sublist.map Order.id (List.filter_sublist _)) hOnodup,
      hrest, ?_⟩
    intro j hj1 hj2
    obtain ⟨o1, ho1, ho1j⟩ := List.mem_map.mp hj1
    obtain ⟨o2, ho2, ho2j⟩ := List.mem_map.mp hj2
    have hm1 := List.mem_filter.mp ho1
    have hm2 := (mem_collectOrders db rest o2).mp ho2
    have heq : o1 = o2 :=
      List.inj_on_of_nodup_map hOnodup hm1.1 hm2.1 (ho1j.trans ho2j.symm)
    have hg1 : o1.group_buy_id = gid := by simpa using hm1.2
    rw [heq] at hg1
    rw [hg1] at hm2
    exact (List.nodup_cons.mp hnodup).1 hm2.2

/-- The row `create_group_buy` inserts for the remainder group. -/
def remGroupRow (pid n rem now gid : Nat) : GroupBuy :=
  { id := gid, product_id := pid, target_count := n, current_count := rem,
    is_active := true, updated_at := now }

/-- When `total / n = 0` (fewer collected orders than `min_group_size`), the
per-product step does nothing: no group is created or deactivated, no order
reassigned, an empty outcome list is returned. -/
theorem processProductRearrange_skip (db : DB) (pid : Nat) (gids : List Nat) (now : Nat)
    (p : Product) (hp : get_product db pid = some p)
    (hskip : (sortByCreated (collectOrders db gids)).length / p.min_group_size = 0) :
    processProductRearrange db pid gids now = .ok (db, []) := by
  simp only [processProductRearrange, hp, bind, Except.bind, pure, Except.pure]
  rw [show ((gids.map (fun gid => get_orders_by_group db gid)).flatten)
      = collectOrders db gids from rfl]
  rw [hskip]
  simp

/-- Full postcondition of the per-product rearrangement when at least one
complete group can be formed (`0 < full`). The parameters `L, n, full, rem,
d` name the collected sorted orders, the product's `min_group_size`, the
complete-group count, the remainder, and the resolved discount; the store
comes back with the contributing groups deactivated, `full` complete
inactive groups and (for a positive remainder) one active remainder group
appended, and the order table rewritten by a pointwise map `F` that
finalizes the i-th chunk into the i-th new group, moves the remainder into
the remainder group, and fixes everything else. -/
theorem processProductRearrange_spec (db : DB) (pid : Nat) (gids : List Nat) (now : Nat)
    (p : Product) (L : List Order) (n full rem : Nat) (d : ℚ)
    (hp : get_product db pid = some p)
    (hL : L = sortByCreated (collectOrders db gids))
    (hn : n = p.min_group_size)
    (hfullEq : full = L.length / n) (hremEq : rem = L.length % n)
    (hd : d = get_discount_percentage p n)
    (hOnodup : (db.orders.map Order.id).Nodup)
    (hgids : gids.Nodup)
    (hfresh : ∀ i ∈ gids, i < db.nextGroupId)
    (hfull : 0 < full) :
    ∃ F : Order → Order,
      processProductRearrange db pid gids now = .ok
        ({ products := db.products,
           groups := db.groups.map (fun g =>
               if g.id ∈ gids then { g with is_active := false, updated_at := now } else g)
             ++ (List.range full).map (fun i => fullGroupRow pid n now (db.nextGroupId + i))
             ++ (if 0 < rem then [remGroupRow pid n rem now (db.nextGroupId + full)] else []),
           orders := db.orders.map F,
           nextGroupId := db.nextGroupId + full + (if 0 < rem then 1 else 0),
           nextOrderId := db.nextOrderId },
         (List.range full).map (fun i =>
             RearrangeOutcome.completedGroup pid (db.nextGroupId + i) n d)
           ++ (if 0 < rem then
                [RearrangeOutcome.remainderGroup pid (db.nextGroupId + full) rem n] else [])) ∧
      (∀ o, (F o).id = o.id) ∧
      (∀ o, o.id ∉ L.map Order.id → F o = o) ∧
      (∀ i < full, ∀ o ∈ (L.drop (i * n)).take n, F o = finalizeOrder d (db.nextGroupId + i) o) ∧
      (∀ o ∈ L.drop (full * n), F o = { o with group_buy_id := db.nextGroupId + full }) := by
  have hLn : (L.map Order.id).Nodup := by
    rw [hL]
    exact sortByCreated_ids_nodup _ (collectOrders_ids_nodup db hOnodup gids hgids)
  have hn1 : 1 ≤ n := by
    rcases Nat.eq_zero_or_pos n with h0 | h1
    · rw [h0, Nat.div_zero] at hfullEq
      omega
    · exact h1
  have hfullmul : full * n ≤ L.length := by
    rw [hfullEq]
    exact Nat.div_mul_le_self _ _
  have hchunklen : ∀ i < full, ((L.drop (i * n)).take n).length = n := by
    intro i hi
    rw [List.length_take, List.length_drop]
    have : (i + 1) * n ≤ full * n := Nat.mul_le_mul_right n hi
    have h2 : i * n + n ≤ L.length := by
      have h3 : (i + 1) * n = i * n + n := by ring
      omega
    omega
  obtain ⟨F1, hF1eq, hF1id, hF1skip, hF1chunk⟩ :=
    assignFullGroups_spec pid n d now full db L hLn
  -- ids of the remainder segment are disjoint from the first full*n ids
  have hsplitIds : L.map Order.id
      = (L.take (full * n)).map Order.id ++ (L.drop (full * n)).map Order.id := by
    rw [← List.map_append, List.take_append_drop]
  have hnodup3 := List.nodup_append.mp (hsplitIds ▸ hLn)
  have hremNodup : ((L.drop (full * n)).map Order.id).Nodup := hnodup3.2.1
  -- unfold the function body
  simp only [processProductRearrange, hp, bind, Except.bind, pure, Except.pure]
  rw [show (gids.map (fun gid => get_orders_by_group db gid)).flatten
      = collectOrders db gids from rfl, ← hL, ← hn, ← hfullEq, ← hremEq, ← hd]
  rw [if_pos hfull, hF1eq]
  rcases Nat.eq_zero_or_pos rem with hrem0 | hrempos
  · -- no remainder: deactivate and return
    rw [hrem0]
    simp only [Nat.lt_irrefl, if_false, Nat.add_zero]
    have hdeact := foldl_setGroup_eq
      (fun g => { g with is_active := false, updated_at := now }) (fun g => rfl) gids hgids
      { products := db.products,
        groups := db.groups ++ (List.range full).map
          (fun i => fullGroupRow pid n now (db.nextGroupId + i)),
        orders := db.orders.map F1,
        nextGroupId := db.nextGroupId + full,
        nextOrderId := db.nextOrderId }
    rw [hdeact]
    refine ⟨F1, ?_, hF1id, ?_, hF1chunk, ?_⟩
    · simp only [List.map_append]
      have hnew : ((List.range full).map
            (fun i => fullGroupRow pid n now (db.nextGroupId + i))).map
          (fun g => if g.id ∈ gids then { g with is_active := false, updated_at := now }
            else g)
          = (List.range full).map (fun i => fullGroupRow pid n now (db.nextGroupId + i)) := by
        rw [List.map_map]
        apply List.map_congr_left
        intro i hi
        simp only [Function.comp_apply]
        have : db.nextGroupId + i ∉ gids := fun hmem => by
          have := hfresh _ hmem
          omega
        simp only [fullGroupRow, if_neg this]
      rw [hnew]
      refine congrArg Except.ok (congrArg₂ Prod.mk ?_ ?_)
      · simp only [List.append_nil]
      · simp only [List.append_nil]
        apply List.map_congr_left
        intro i hi
        have hlen := hchunklen i (List.mem_range.mp hi)
        rw [hlen]
    · intro o ho
      apply hF1skip
      intro hmem
      apply ho
      obtain ⟨o', ho'1, ho'2⟩ := List.mem_map.mp hmem
      exact List.mem_map.mpr ⟨o', (List.take_sublist _ _).mem ho'1, ho'2⟩
    · intro o ho
      -- rem = 0 means the drop is empty
      have : L.length = full * n := by
        have hdm := Nat.div_add_mod L.length n
        rw [← hfullEq, ← hremEq, hrem0] at hdm
        rw [Nat.mul_comm]
        omega
      rw [List.drop_eq_nil_of_le (by omega)] at ho
      cases ho
  · -- positive remainder: create the remainder group, move the rest, deactivate
    rw [if_pos hrempos]
    set fRem : Order → Order := fun od => { od with group_buy_id := db.nextGroupId + full }
      with hfRem
    have hfRemId : ∀ o, (fRem o).id = o.id := fun _ => rfl
    have hremfold := foldl_setOrder_orders_eq fRem hfRemId (L.drop (full * n)) hremNodup
      { products := db.products,
        groups := (db.groups ++ (List.range full).map
            (fun i => fullGroupRow pid n now (db.nextGroupId + i)))
          ++ [remGroupRow pid n rem now (db.nextGroupId + full)],
        orders := db.orders.map F1,
        nextGroupId := db.nextGroupId + full + 1,
        nextOrderId := db.nextOrderId }
    rw [show (create_group_buy
          { products := db.products,
            groups := db.groups ++ (List.range full).map
              (fun i => fullGroupRow pid n now (db.nextGroupId + i)),
            orders := db.orders.map F1,
            nextGroupId := db.nextGroupId + full,
            nextOrderId := db.nextOrderId }
          (fun gid => { id := gid, product_id := pid, target_count := n, current_count := rem,
                        is_active := true, updated_at := now }))
        = ({ products := db.products,
             groups := (db.groups ++ (List.range full).map
                 (fun i => fullGroupRow pid n now (db.nextGroupId + i)))
               ++ [remGroupRow pid n rem now (db.nextGroupId + full)],
             orders := db.orders.map F1,
             nextGroupId := db.nextGroupId + full + 1,
             nextOrderId := db.nextOrderId }, db.nextGroupId + full) from rfl]
    rw [hremfold]
    have hdeact := foldl_setGroup_eq
      (fun g => { g with is_active := false, updated_at := now }) (fun g => rfl) gids hgids
      { products := db.products,
        groups := (db.groups ++ (List.range full).map
            (fun i => fullGroupRow pid n now (db.nextGroupId + i)))
          ++ [remGroupRow pid n rem now (db.nextGroupId + full)],
        orders := (db.orders.map F1).map (fun o =>
          if o.id ∈ (L.drop (full * n)).map Order.id then fRem o else o),
        nextGroupId := db.nextGroupId + full + 1,
        nextOrderId := db.nextOrderId }
    rw [hdeact]
    set f2 : Order → Order := fun o =>
      if o.id ∈ (L.drop (full * n)).map Order.id then fRem o else o with hf2
    have hf2id : ∀ o, (f2 o).id = o.id := by
      intro o
      simp only [hf2]
      split <;> rfl
    refine ⟨fun o => f2 (F1 o), ?_, fun o => by rw [hf2id, hF1id], ?_, ?_, ?_⟩
    · refine congrArg Except.ok (congrArg₂ Prod.mk ?_ ?_)
      · have hnotin : ∀ i, db.nextGroupId ≤ i → i ∉ gids := by
          intro i hi hmem
          have := hfresh _ hmem
          omega
        simp only [if_pos hrempos]
        simp only [List.map_append, List.map_map, List.append_assoc]
        have hmid : (List.range full).map
            ((fun g : GroupBuy =>
                if g.id ∈ gids then { g with is_active := false, updated_at := now } else g)
              ∘ (fun i => fullGroupRow pid n now (db.nextGroupId + i)))
            = (List.range full).map (fun i => fullGroupRow pid n now (db.nextGroupId + i)) := by
          apply List.map_congr_left
          intro i _
          simp only [Function.comp_apply]
          have hnot : db.nextGroupId + i ∉ gids := hnotin _ (by omega)
          simp only [fullGroupRow, if_neg hnot]
        have hlast : [remGroupRow pid n rem now (db.nextGroupId + full)].map
            (fun g : GroupBuy =>
              if g.id ∈ gids then { g with is_active := false, updated_at := now } else g)
            = [remGroupRow pid n rem now (db.nextGroupId + full)] := by
          simp only [List.map_cons, List.map_nil]
          have hnot : db.nextGroupId + full ∉ gids := hnotin _ (by omega)
          simp only [remGroupRow, if_neg hnot]
        rw [hmid, hlast]
        rfl
      · rw [if_pos hrempos]
        congr 1
        apply List.map_congr_left
        intro i hi
        have hlen := hchunklen i (List.mem_range.mp hi)
        rw [hlen]
    · intro o ho
      have hA : o.id ∉ (L.take (full * n)).map Order.id := by
        intro hmem
        apply ho
        obtain ⟨o', ho'1, ho'2⟩ := List.mem_map.mp hmem
        exact List.mem_map.mpr ⟨o', (List.take_sublist _ _).mem ho'1, ho'2⟩
      have hB : o.id ∉ (L.drop (full * n)).map Order.id := by
        intro hmem
        apply ho
        obtain ⟨o', ho'1, ho'2⟩ := List.mem_map.mp hmem
        exact List.mem_map.mpr ⟨o', (List.drop_sublist _ _).mem ho'1, ho'2⟩
      show f2 (F1 o) = o
      rw [hF1skip o hA]
      simp only [hf2, if_neg hB]
    · intro i hi o ho
      show f2 (F1 o) = finalizeOrder d (db.nextGroupId + i) o
      rw [hF1chunk i hi o ho]
      have hmemTake : o.id ∈ (L.take (full * n)).map Order.id := by
        refine List.mem_map.mpr ⟨o, ?_, rfl⟩
        have h1 : ((L.take (full * n)).drop (i * n)).take n = (L.drop (i * n)).take n := by
          rw [List.drop_take, List.take_take]
          congr 1
          have h3 : (i + 1) * n ≤ full * n := Nat.mul_le_mul_right n hi
          have h4 : (i + 1) * n = i * n + n := by ring
          omega
        rw [← h1] at ho
        exact (List.drop_sublist _ _).mem ((List.take_sublist _ _).mem ho)
      have hB : (finalizeOrder d (db.nextGroupId + i) o).id
          ∉ (L.drop (full * n)).map Order.id := by
        show o.id ∉ _
        intro hmem
        obtain ⟨o', ho'1, ho'2⟩ := List.mem_map.mp hmem
        exact hnodup3.2.2 hmemTake (List.mem_map.mpr ⟨o', ho'1, ho'2⟩)
      simp only [hf2, if_neg hB]
    · intro o ho
      show f2 (F1 o) = fRem o
      have hA : o.id ∉ (L.take (full * n)).map Order.id := by
        intro hmem
        exact hnodup3.2.2 hmem (List.mem_map.mpr ⟨o, ho, rfl⟩)
      rw [hF1skip o hA]
      have hmem : o.id ∈ (L.drop (full * n)).map Order.id := List.mem_map.mpr ⟨o, ho, rfl⟩
      simp only [hf2, if_pos hmem]

/-! ## The product-grouping of the engine and supporting lemmas -/

theorem mem_dedupFirst : ∀ (l seen : List Nat) (x : Nat),
    x ∈ dedupFirst l seen ↔ x ∈ l ∧ x ∉ seen
  | [], seen, x => by simp [dedupFirst]
  | y :: l, seen, x => by
    simp only [dedupFirst]
    split
    · rename_i hy
      rw [mem_dedupFirst l seen x]
      constructor
      · rintro ⟨h1, h2⟩
        exact ⟨List.mem_cons_of_mem y h1, h2⟩
      · rintro ⟨h1, h2⟩
        rcases List.mem_cons.mp h1 with rfl | h3
        · exact absurd hy h2
        · exact ⟨h3, h2⟩
    · rename_i hy
      rw [List.mem_cons, mem_dedupFirst l (y :: seen) x]
      constructor
      · rintro (rfl | ⟨h1, h2⟩)
        · exact ⟨List.mem_cons_self _ _, hy⟩
        · exact ⟨List.mem_cons_of_mem y h1, fun hx => h2 (List.mem_cons_of_mem y hx)⟩
      · rintro ⟨h1, h2⟩
        rcases List.mem_cons.mp h1 with rfl | h3
        · exact Or.inl rfl
        · by_cases hxy : x = y
          · exact Or.inl hxy
          · exact Or.inr ⟨h3, fun hx =>
              hxy (by rcases List.mem_cons.mp hx with h | h; exact h; exact absurd h h2)⟩

theorem dedupFirst_nodup : ∀ (l seen : List Nat), (dedupFirst l seen).Nodup
  | [], _ => List.Pairwise.nil
  | y :: l, seen => by
    simp only [dedupFirst]
    split
    · exact dedupFirst_nodup l seen
    · refine List.nodup_cons.mpr ⟨?_, dedupFirst_nodup l (y :: seen)⟩
      intro hmem
      exact ((mem_dedupFirst l (y :: seen) y).mp hmem).2 (List.mem_cons_self y seen)

/-- The group ids the engine snapshots for one product. -/
def productGids (db0 : DB) (pid : Nat) : List Nat :=
  ((get_incomplete_groups db0).filter (fun g => g.product_id == pid)).map (fun g => g.id)

/-- The sorted order list the engine works on for one product (collected
from the pre-rearrangement store). -/
def productL (db0 : DB) (pid : Nat) : List Order :=
  sortByCreated (collectOrders db0 (productGids db0 pid))

theorem productGids_nodup (db0 : DB) (h : (db0.groups.map GroupBuy.id).Nodup) (pid : Nat) :
    (productGids db0 pid).Nodup := by
  have hsub : ((get_incomplete_groups db0).filter (fun g => g.product_id == pid)).Sublist
      db0.groups :=
    ((List.filter_sublist _).trans (List.filter_sublist _))
  exact List.Nodup.sublist (hsub.map GroupBuy.id) h

theorem productGids_mem (db0 : DB) (pid gid : Nat) :
    gid ∈ productGids db0 pid ↔ ∃ g ∈ db0.groups, g.id = gid ∧ g.product_id = pid ∧
      g.is_active = true ∧ g.current_count < g.target_count := by
  simp only [productGids, List.mem_map, List.mem_filter, get_incomplete_groups]
  constructor
  · rintro ⟨g, ⟨⟨hg, hflt⟩, hpid⟩, rfl⟩
    have h1 : g.is_active = true ∧ g.current_count < g.target_count := by
      constructor
      · have := (Bool.and_eq_true _ _).mp hflt
        exact this.1
      · have := (Bool.and_eq_true _ _).mp hflt
        simpa using this.2
    exact ⟨g, hg, rfl, by simpa using hpid, h1.1, h1.2⟩
  · rintro ⟨g, hg, rfl, hpid, hact, hcnt⟩
    exact ⟨g, ⟨⟨hg, by simp [hact, hcnt]⟩, by simpa using hpid⟩, rfl⟩

/-- Distinct products have disjoint snapshot group-id lists. -/
theorem productGids_disjoint (db0 : DB) (h : (db0.groups.map GroupBuy.id).Nodup)
    (pid1 pid2 : Nat) (hne : pid1 ≠ pid2) (gid : Nat)
    (h1 : gid ∈ productGids db0 pid1) : gid ∉ productGids db0 pid2 := by
  intro h2
  obtain ⟨g1, hg1, rfl, hp1, -, -⟩ := (productGids_mem db0 pid1 gid).mp h1
  obtain ⟨g2, hg2, hid2, hp2, -, -⟩ := (productGids_mem db0 pid2 g1.id).mp h2
  have : g2 = g1 := List.inj_on_of_nodup_map h hg2 hg1 hid2
  rw [this] at hp2
  exact hne (hp1 ▸ hp2 ▸ rfl)

/-- Elements of the engine's sorted order list for a product are exactly the
stored orders linked to the product's snapshot groups. -/
theorem mem_productL (db0 : DB) (pid : Nat) (o : Order) :
    o ∈ productL db0 pid ↔ o ∈ db0.orders ∧ o.group_buy_id ∈ productGids db0 pid := by
  rw [productL, (sortByCreated_perm _).mem_iff, mem_collectOrders]

/-- The sorted order lists of distinct products carry disjoint order ids. -/
theorem productL_ids_disjoint (db0 : DB) (hG : (db0.groups.map GroupBuy.id).Nodup)
    (hO : (db0.orders.map Order.id).Nodup) (pid1 pid2 : Nat) (hne : pid1 ≠ pid2) (j : Nat)
    (h1 : j ∈ (productL db0 pid1).map Order.id) :
    j ∉ (productL db0 pid2).map Order.id := by
  intro h2
  obtain ⟨o1, ho1, rfl⟩ := List.mem_map.mp h1
  obtain ⟨o2, ho2, hid2⟩ := List.mem_map.mp h2
  rw [mem_productL] at ho1 ho2
  have ho12 : o2 = o1 := List.inj_on_of_nodup_map hO ho2.1 ho1.1 hid2
  rw [ho12] at ho2
  exact productGids_disjoint db0 hG pid1 pid2 hne o1.group_buy_id ho1.2 ho2.2

/-- Mapping an order table with a function that moves only rows a predicate
rejects, and fixes the rows it accepts, leaves any filter by that predicate
unchanged. -/
theorem filter_map_fixed (P : Order → Bool) (F : Order → Order) :
    ∀ l : List Order, (∀ o ∈ l, P (F o) = P o) → (∀ o ∈ l, P o = true → F o = o) →
    (l.map F).filter P = l.filter P
  | [], _, _ => rfl
  | o :: l, hPF, hfix => by
    have ih := filter_map_fixed P F l (fun o' h => hPF o' (List.mem_cons_of_mem o h))
      (fun o' h => hfix o' (List.mem_cons_of_mem o h))
    simp only [List.map_cons, List.filter_cons]
    rw [hPF o (List.mem_cons_self o l)]
    by_cases hP : P o = true
    · rw [hP]
      simp only [if_true]
      rw [hfix o (List.mem_cons_self o l) hP, ih]
    · have : P o = false := Bool.eq_false_iff.mpr hP
      rw [this]
      simp only [Bool.false_eq_true, if_false]
      exact ih

/-- Mapping with an id-preserving function keeps the id column. -/
theorem map_ids_of_id_preserving (F : Order → Order) (hF : ∀ o, (F o).id = o.id)
    (l : List Order) : (l.map F).map Order.id = l.map Order.id := by
  rw [List.map_map]
  apply List.map_congr_left
  intro o _
  exact hF o

/-- Mapping with an id-preserving function keeps the group-id column. -/
theorem map_gids_of_id_preserving (F : GroupBuy → GroupBuy) (hF : ∀ g, (F g).id = g.id)
    (l : List GroupBuy) : (l.map F).map GroupBuy.id = l.map GroupBuy.id := by
  rw [List.map_map]
  apply List.map_congr_left
  intro g _
  exact hF g

/-- List-level variant of `get_group_buy_map`. -/
theorem find?_gid_map (f : GroupBuy → GroupBuy) (hf : ∀ g, (f g).id = g.id)
    (l : List GroupBuy) (i : Nat) :
    (l.map f).find? (fun g => g.id == i) = (l.find? (fun g => g.id == i)).map f := by
  have hpred : ((fun g : GroupBuy => g.id == i) ∘ f) = (fun g : GroupBuy => g.id == i) := by
    funext g
    simp [Function.comp, hf]
  rw [List.find?_map, hpred]

/-- List-level variant of `get_order_map`. -/
theorem find?_oid_map (f : Order → Order) (hf : ∀ o, (f o).id = o.id)
    (l : List Order) (i : Nat) :
    (l.map f).find? (fun o => o.id == i) = (l.find? (fun o => o.id == i)).map f := by
  have hpred : ((fun o : Order => o.id == i) ∘ f) = (fun o : Order => o.id == i) := by
    funext o
    simp [Function.comp, hf]
  rw [List.find?_map, hpred]

/-- An element of the first `full * n` entries lies in one of the `full`
chunks of width `n`. -/
theorem mem_take_chunks (L : List Order) (n full : Nat) (hn : 1 ≤ n)
    (hmul : full * n ≤ L.length) (o : Order) (ho : o ∈ L.take (full * n)) :
    ∃ i < full, o ∈ (L.drop (i * n)).take n := by
  obtain ⟨j, hj, hget⟩ := List.getElem_of_mem ho
  rw [List.getElem_take] at hget
  rw [List.length_take] at hj
  have hjlt : j < full * n := lt_of_lt_of_le hj (min_le_left _ _)
  have hjL : j < L.length := lt_of_lt_of_le hj (min_le_right _ _)
  refine ⟨j / n, ?_, ?_⟩
  · exact Nat.div_lt_of_lt_mul (by rwa [Nat.mul_comm] at hjlt)
  · have hmod : j % n < n := Nat.mod_lt j hn
    have hidx : j / n * n + j % n = j := by
      rw [Nat.mul_comm]
      exact Nat.div_add_mod j n
    have hlt2 : j / n * n + j % n < L.length := by omega
    have h1 : ((L.drop (j / n * n)).take n).length = min n (L.length - j / n * n) := by
      rw [List.length_take, List.length_drop]
    have hmem : j % n < ((L.drop (j / n * n)).take n).length := by
      rw [h1]
      omega
    have hval : ((L.drop (j / n * n)).take n)[j % n] = L[j / n * n + j % n] := by
      rw [List.getElem_take, List.getElem_drop]
    rw [← hget]
    have : L[j] = L[j / n * n + j % n] := by
      congr 1
      omega
    rw [this, ← hval]
    exact List.getElem_mem _

/-- The number of complete groups the engine can form for a product
(`complete_groups_possible`), from the pre-run store. -/
def productFull (db0 : DB) (pid : Nat) : Nat :=
  match get_product db0 pid with
  | some p => (productL db0 pid).length / p.min_group_size
  | none => 0

/-- What one rearrangement run does for one product, phrased against the
pre-run store `db0`: nothing when fewer orders than `min_group_size` were
collected; otherwise `full` complete inactive groups at consecutive fresh
ids holding the sorted chunks (finalized), a remainder group when the
division is inexact, and deactivation of every contributing group. -/
def RearrangeEffect (db0 : DB) (now pid : Nat) (p : Product) (db' : DB) : Prop :=
  ((productL db0 pid).length / p.min_group_size = 0 →
    (∀ gid ∈ productGids db0 pid, get_group_buy db' gid = get_group_buy db0 gid) ∧
    (∀ j ∈ (productL db0 pid).map Order.id, get_order db' j = get_order db0 j)) ∧
  (0 < (productL db0 pid).length / p.min_group_size →
    ∃ base, db0.nextGroupId ≤ base ∧
      (∀ i < (productL db0 pid).length / p.min_group_size,
        get_group_buy db' (base + i)
          = some (fullGroupRow pid p.min_group_size now (base + i))) ∧
      (0 < (productL db0 pid).length % p.min_group_size →
        get_group_buy db' (base + (productL db0 pid).length / p.min_group_size)
          = some (remGroupRow pid p.min_group_size
              ((productL db0 pid).length % p.min_group_size) now
              (base + (productL db0 pid).length / p.min_group_size))) ∧
      (∀ gid ∈ productGids db0 pid, ∀ g, get_group_buy db0 gid = some g →
        get_group_buy db' gid = some { g with is_active := false, updated_at := now }) ∧
      (∀ i < (productL db0 pid).length / p.min_group_size,
        ∀ o ∈ ((productL db0 pid).drop (i * p.min_group_size)).take p.min_group_size,
          get_order db' o.id = some (finalizeOrder
            (get_discount_percentage p p.min_group_size) (base + i) o)) ∧
      (∀ o ∈ (productL db0 pid).drop
          ((productL db0 pid).length / p.min_group_size * p.min_group_size),
        get_order db' o.id = some { o with group_buy_id :=
          base + (productL db0 pid).length / p.min_group_size }))

/-- The per-product fold of `rearrange_incomplete_groups`: from any
intermediate store that still agrees with the pre-run store `db0` on the
pending products' rows (and on products, order ids and counters), the fold
succeeds, leaves old rows of untouched products alone, and produces the
`RearrangeEffect` for every processed product. -/
theorem rearrangeFold_spec (db0 : DB) (now : Nat)
    (h0G : (db0.groups.map GroupBuy.id).Nodup)
    (h0O : (db0.orders.map Order.id).Nodup)
    (h0fresh : ∀ g ∈ db0.groups, g.id < db0.nextGroupId) :
    ∀ (pids : List Nat), pids.Nodup →
    (∀ pid ∈ pids, ∃ p, get_product db0 pid = some p) →
    (∀ pid ∈ pids, ∀ p, get_product db0 pid = some p → 1 ≤ p.min_group_size) →
    ∀ (dbk : DB) (acc : List RearrangeOutcome),
    dbk.products = db0.products →
    dbk.nextOrderId = db0.nextOrderId →
    db0.nextGroupId ≤ dbk.nextGroupId →
    (∀ g ∈ dbk.groups, g.id < dbk.nextGroupId) →
    dbk.orders.map Order.id = db0.orders.map Order.id →
    (∀ pid ∈ pids, ∀ gid ∈ productGids db0 pid,
      get_orders_by_group dbk gid = get_orders_by_group db0 gid) →
    (∀ pid ∈ pids, ∀ gid ∈ productGids db0 pid,
      get_group_buy dbk gid = get_group_buy db0 gid) →
    (dbk.groups.map GroupBuy.id).Nodup →
    ∃ db' outs,
      pids.foldlM (fun acc2 pid => do
        let (dbx, out) ← processProductRearrange acc2.1 pid
          (((get_incomplete_groups db0).filter
            (fun g => g.product_id == pid)).map (fun g => g.id)) now
        return (dbx, acc2.2 ++ out)) (dbk, acc) = Except.ok (db', outs) ∧
      db'.products = db0.products ∧
      db'.nextOrderId = db0.nextOrderId ∧
      dbk.nextGroupId ≤ db'.nextGroupId ∧
      (∀ g ∈ db'.groups, g.id < db'.nextGroupId) ∧
      db'.orders.map Order.id = db0.orders.map Order.id ∧
      (∀ gid, gid < dbk.nextGroupId → (∀ pid ∈ pids, gid ∉ productGids db0 pid) →
        get_group_buy db' gid = get_group_buy dbk gid) ∧
      (∀ j, (∀ pid ∈ pids, j ∉ (productL db0 pid).map Order.id) →
        get_order db' j = get_order dbk j) ∧
      (∀ pid ∈ pids, ∀ p, get_product db0 pid = some p →
        RearrangeEffect db0 now pid p db') ∧
      (∃ FO : Order → Order, (∀ o, (FO o).id = o.id) ∧
        db'.orders = dbk.orders.map FO) ∧
      (∃ news : List GroupBuy,
        db'.groups = dbk.groups.map (fun g =>
          if g.id ∈ ((pids.filter (fun q => 0 < productFull db0 q)).map
            (fun q => productGids db0 q)).flatten
          then { g with is_active := false, updated_at := now } else g) ++ news ∧
        (∀ g ∈ news, dbk.nextGroupId ≤ g.id ∧ g.product_id ∈ pids ∧
          0 < productFull db0 g.product_id ∧
          (g.is_active = true → g.current_count < g.target_count) ∧
          (g.is_active = true → ∀ p2, get_product db0 g.product_id = some p2 →
            0 < (productL db0 g.product_id).length % p2.min_group_size ∧
            g.current_count = (productL db0 g.product_id).length % p2.min_group_size ∧
            g.target_count = p2.min_group_size)) ∧
        (∀ pid2, (news.filter
          (fun g => g.product_id == pid2 && g.is_active)).length ≤ 1)) ∧
      (db'.groups.map GroupBuy.id).Nodup
  | [], _, _, _, dbk, acc, h1, h2, h3, h4, h5, _, _, h6 => by
    refine ⟨dbk, acc, rfl, h1, h2, le_refl _, h4, h5, ?_, ?_, ?_, ?_, ?_, h6⟩
    · intro gid _ _
      rfl
    · intro j _
      rfl
    · intro pid hpid
      cases hpid
    · exact ⟨fun o => o, fun o => rfl, by simp⟩
    · refine ⟨[], by simp, ?_, ?_⟩
      · intro g hg
        cases hg
      · intro pid2
        simp
  | pid :: rest, hnodup, hprodAll, hminAll, dbk, acc, hprodEq, hnoid, hgidLe, hfreshK, hids,
    hOG, hGG, hGnodK => by
    obtain ⟨p, hp0⟩ := hprodAll pid (List.mem_cons_self _ _)
    have hpk : get_product dbk pid = some p := by
      rw [get_product, hprodEq]
      exact hp0
    -- the snapshot expression is `productGids db0 pid`
    rw [List.foldlM_cons]
    rw [show (((get_incomplete_groups db0).filter
        (fun g => g.product_id == pid)).map (fun g => g.id)) = productGids db0 pid from rfl]
    set gids := productGids db0 pid with hgidsDef
    have hgidsN : gids.Nodup := productGids_nodup db0 h0G pid
    have hgidsOld : ∀ gid ∈ gids, gid < db0.nextGroupId := by
      intro gid hgid
      obtain ⟨g, hg, rfl, -, -, -⟩ := (productGids_mem db0 pid gid).mp hgid
      exact h0fresh g hg
    have hfreshk2 : ∀ gid ∈ gids, gid < dbk.nextGroupId :=
      fun gid hgid => lt_of_lt_of_le (hgidsOld gid hgid) hgidLe
    have hOnodupk : (dbk.orders.map Order.id).Nodup := hids ▸ h0O
    -- the collected orders agree with the pre-run collection
    have hcollect : collectOrders dbk gids = collectOrders db0 gids := by
      unfold collectOrders
      congr 1
      apply List.map_congr_left
      intro gid hgid
      exact hOG pid (List.mem_cons_self _ _) gid hgid
    have hLk : productL db0 pid = sortByCreated (collectOrders dbk gids) := by
      rw [productL, hcollect]
    -- rows of the collected list are rows of both stores
    have hLrow : ∀ o ∈ productL db0 pid, o ∈ dbk.orders ∧ o ∈ db0.orders := by
      intro o ho
      constructor
      · have : o ∈ collectOrders dbk gids := by
          rw [hcollect]
          exact (sortByCreated_perm _).mem_iff.mp (by rwa [productL] at ho)
        exact ((mem_collectOrders dbk gids o).mp this).1
      · exact ((mem_productL db0 pid o).mp ho).1
    have hLgid : ∀ o ∈ productL db0 pid, o.group_buy_id ∈ gids := by
      intro o ho
      exact ((mem_productL db0 pid o).mp ho).2
    have hLget : ∀ o ∈ productL db0 pid, get_order dbk o.id = some o := by
      intro o ho
      exact (get_order_eq_some_iff dbk hOnodupk o.id o).mpr ⟨(hLrow o ho).1, rfl⟩
    have hLget0 : ∀ o ∈ productL db0 pid, get_order db0 o.id = some o := by
      intro o ho
      exact (get_order_eq_some_iff db0 h0O o.id o).mpr ⟨(hLrow o ho).2, rfl⟩
    -- the row of the current table whose id lies in the collected list is
    -- that collected row
    have hLofRow : ∀ o ∈ dbk.orders, o.id ∈ (productL db0 pid).map Order.id →
        o ∈ productL db0 pid := by
      intro o ho hmem
      obtain ⟨o', ho', hid⟩ := List.mem_map.mp hmem
      have : o' = o := List.inj_on_of_nodup_map hOnodupk (hLrow o' ho').1 ho hid
      rw [← this]
      exact ho'
    rcases Nat.eq_zero_or_pos ((productL db0 pid).length / p.min_group_size) with hz | hpos
    · -- nothing to form for this product: the step is a no-op
      have hstep : processProductRearrange dbk pid gids now = .ok (dbk, []) := by
        apply processProductRearrange_skip dbk pid gids now p hpk
        rw [← hLk]
        exact hz
      obtain ⟨db', outs, hfold, hP1, hP2, hP3, hP4, hP5, hFRG, hFRO, hEff, hFOr, hNewsr,
          hGN⟩ :=
        rearrangeFold_spec db0 now h0G h0O h0fresh rest (List.nodup_cons.mp hnodup).2
          (fun q hq => hprodAll q (List.mem_cons_of_mem _ hq))
          (fun q hq => hminAll q (List.mem_cons_of_mem _ hq)) dbk (acc ++ [])
          hprodEq hnoid hgidLe hfreshK hids
          (fun q hq => hOG q (List.mem_cons_of_mem _ hq))
          (fun q hq => hGG q (List.mem_cons_of_mem _ hq)) hGnodK
      have hcondSkip : (pid :: rest).filter (fun q => 0 < productFull db0 q)
          = rest.filter (fun q => 0 < productFull db0 q) := by
        rw [List.filter_cons]
        simp [productFull, hp0, hz]
      refine ⟨db', outs, ?_, hP1, hP2, hP3, hP4, hP5, ?_, ?_, ?_, hFOr, ?_, hGN⟩
      · rw [hstep]
        simpa [bind, Except.bind, pure, Except.pure] using hfold
      · intro gid hlt havoid
        exact hFRG gid hlt (fun q hq => havoid q (List.mem_cons_of_mem _ hq))
      · intro j havoid
        exact hFRO j (fun q hq => havoid q (List.mem_cons_of_mem _ hq))
      · intro q hq pq hpq
        rcases List.mem_cons.mp hq with rfl | hq2
        · -- the head product: nothing changed for it
          have hpq2 : pq = p := by
            rw [hp0] at hpq
            exact (Option.some.injEq _ _).mp hpq.symm ▸ rfl
          subst hpq2
          constructor
          · intro _
            constructor
            · intro gid hgid
              have h1 : get_group_buy db' gid = get_group_buy dbk gid := by
                apply hFRG gid (hfreshk2 gid hgid)
                intro q' hq' hmem
                exact productGids_disjoint db0 h0G q q' (fun he =>
                  (List.nodup_cons.mp hnodup).1 (he ▸ hq')) gid hgid hmem
              rw [h1]
              exact hGG q (List.mem_cons_self _ _) gid hgid
            · intro j hj
              obtain ⟨o, ho, rfl⟩ := List.mem_map.mp hj
              have h1 : get_order db' o.id = get_order dbk o.id := by
                apply hFRO
                intro q' hq' hmem
                exact productL_ids_disjoint db0 h0G h0O q q' (fun he =>
                  (List.nodup_cons.mp hnodup).1 (he ▸ hq')) o.id
                  (List.mem_map.mpr ⟨o, ho, rfl⟩) hmem
              rw [h1, hLget o ho, hLget0 o ho]
          · intro hcontra
            omega
        · exact hEff q hq2 pq hpq
      · obtain ⟨news, hgEq, hn2, hn3⟩ := hNewsr
        refine ⟨news, ?_, ?_, hn3⟩
        · rw [hcondSkip]
          exact hgEq
        · intro g hg
          obtain ⟨a, b, c, d, e⟩ := hn2 g hg
          exact ⟨a, List.mem_cons_of_mem _ b, c, d, e⟩
    · -- at least one complete group can be formed
      obtain ⟨F, hstep, hFid, hFskip, hFchunk, hFrem⟩ :=
        processProductRearrange_spec dbk pid gids now p
          (productL db0 pid) p.min_group_size
          ((productL db0 pid).length / p.min_group_size)
          ((productL db0 pid).length % p.min_group_size)
          (get_discount_percentage p p.min_group_size)
          hpk hLk rfl rfl rfl rfl hOnodupk hgidsN hfreshk2 hpos
      have hn1 : 1 ≤ p.min_group_size := by
        rcases Nat.eq_zero_or_pos p.min_group_size with h0 | h1
        · rw [h0, Nat.div_zero] at hpos
          omega
        · exact h1
      have hfullmul : (productL db0 pid).length / p.min_group_size * p.min_group_size
          ≤ (productL db0 pid).length := Nat.div_mul_le_self _ _
      -- how the pointwise map treats each stored row
      have hFgid : ∀ o ∈ dbk.orders, F o = o ∨
          (o.group_buy_id ∈ gids ∧ dbk.nextGroupId ≤ (F o).group_buy_id) := by
        intro o ho
        by_cases hmem : o.id ∈ (productL db0 pid).map Order.id
        · right
          have hoL : o ∈ productL db0 pid := hLofRow o ho hmem
          refine ⟨hLgid o hoL, ?_⟩
          have hsplit : o ∈ (productL db0 pid).take
                ((productL db0 pid).length / p.min_group_size * p.min_group_size)
              ∨ o ∈ (productL db0 pid).drop
                ((productL db0 pid).length / p.min_group_size * p.min_group_size) := by
            rcases List.mem_append.mp ((List.take_append_drop
                ((productL db0 pid).length / p.min_group_size * p.min_group_size)
                (productL db0 pid)).symm ▸ hoL) with h | h
            · exact Or.inl h
            · exact Or.inr h
          rcases hsplit with h1 | h2
          · obtain ⟨i, hi, hchunk⟩ := mem_take_chunks _ p.min_group_size
              ((productL db0 pid).length / p.min_group_size) hn1 hfullmul o h1
            rw [hFchunk i hi o hchunk]
            show dbk.nextGroupId ≤ dbk.nextGroupId + i
            omega
          · rw [hFrem o h2]
            show dbk.nextGroupId ≤ dbk.nextGroupId
              + (productL db0 pid).length / p.min_group_size
            omega
        · left
          exact hFskip o hmem
      -- group lookups at ids below the counter and outside this product's
      -- snapshot are untouched by the step
      have hnewNone : ∀ gid', gid' < dbk.nextGroupId →
          ((List.range ((productL db0 pid).length / p.min_group_size)).map
            (fun i => fullGroupRow pid p.min_group_size now (dbk.nextGroupId + i))).find?
              (fun g => g.id == gid') = none := by
        intro gid' hlt
        rw [List.find?_eq_none]
        intro g hg
        obtain ⟨i, -, rfl⟩ := List.mem_map.mp hg
        simp only [fullGroupRow]
        intro hbe
        have := beq_iff_eq.mp hbe
        omega
      have hremNone : ∀ gid', gid' < dbk.nextGroupId →
          ((if 0 < (productL db0 pid).length % p.min_group_size then
            [remGroupRow pid p.min_group_size
              ((productL db0 pid).length % p.min_group_size) now
              (dbk.nextGroupId + (productL db0 pid).length / p.min_group_size)]
            else []).find? (fun g => g.id == gid')) = none := by
        intro gid' hlt
        split
        · rw [List.find?_eq_none]
          intro g hg
          rw [List.mem_singleton] at hg
          subst hg
          simp only [remGroupRow]
          intro hbe
          have := beq_iff_eq.mp hbe
          omega
        · rfl
      have hgbk1 : ∀ gid', gid' < dbk.nextGroupId → gid' ∉ gids →
          get_group_buy
            { products := dbk.products,
              groups := dbk.groups.map (fun g =>
                  if g.id ∈ gids then { g with is_active := false, updated_at := now } else g)
                ++ (List.range ((productL db0 pid).length / p.min_group_size)).map
                  (fun i => fullGroupRow pid p.min_group_size now (dbk.nextGroupId + i))
                ++ (if 0 < (productL db0 pid).length % p.min_group_size then
                    [remGroupRow pid p.min_group_size
                      ((productL db0 pid).length % p.min_group_size) now
                      (dbk.nextGroupId + (productL db0 pid).length / p.min_group_size)]
                   else []),
              orders := dbk.orders.map F,
              nextGroupId := dbk.nextGroupId
                + (productL db0 pid).length / p.min_group_size
                + (if 0 < (productL db0 pid).length % p.min_group_size then 1 else 0),
              nextOrderId := dbk.nextOrderId } gid'
          = get_group_buy dbk gid' := by
        intro gid' hlt hnot
        show (dbk.groups.map (fun g =>
            if g.id ∈ gids then { g with is_active := false, updated_at := now } else g)
          ++ (List.range ((productL db0 pid).length / p.min_group_size)).map
            (fun i => fullGroupRow pid p.min_group_size now (dbk.nextGroupId + i))
          ++ (if 0 < (productL db0 pid).length % p.min_group_size then
              [remGroupRow pid p.min_group_size
                ((productL db0 pid).length % p.min_group_size) now
                (dbk.nextGroupId + (productL db0 pid).length / p.min_group_size)]
             else [])).find? (fun g => g.id == gid') = get_group_buy dbk gid'
        rw [List.find?_append, List.find?_append,
          find?_gid_map (fun g =>
            if g.id ∈ gids then { g with is_active := false, updated_at := now } else g)
            (fun g => by
              show (if g.id ∈ gids then _ else g).id = g.id
              split <;> rfl) dbk.groups gid',
          hnewNone gid' hlt, hremNone gid' hlt]
        cases hc : get_group_buy dbk gid' with
        | none =>
          rw [show dbk.groups.find? (fun g => g.id == gid') = get_group_buy dbk gid' from rfl,
            hc]
          rfl
        | some g =>
          rw [show dbk.groups.find? (fun g => g.id == gid') = get_group_buy dbk gid' from rfl,
            hc]
          have hgid' : g.id = gid' := by simpa using List.find?_some hc
          simp only [Option.map_some', if_neg (hgid' ▸ hnot)]
          rfl
      -- order lookups away from this product's collected ids are untouched
      have hordk1 : ∀ j, j ∉ (productL db0 pid).map Order.id →
          ((dbk.orders.map F).find? (fun o => o.id == j))
            = get_order dbk j := by
        intro j hj
        rw [find?_oid_map F hFid dbk.orders j]
        cases hc : dbk.orders.find? (fun o => o.id == j) with
        | none =>
          rw [show get_order dbk j = dbk.orders.find? (fun o => o.id == j) from rfl, hc]
          rfl
        | some o =>
          have hoid : o.id = j := by simpa using List.find?_some hc
          have : o.id ∉ (productL db0 pid).map Order.id := hoid ▸ hj
          simp only [Option.map_some', hFskip o this]
          rw [show get_order dbk j = dbk.orders.find? (fun o => o.id == j) from rfl, hc]
      -- filters by untouched group ids are untouched
      have hOGk1 : ∀ gid', gid' ∉ gids → gid' < db0.nextGroupId →
          (dbk.orders.map F).filter (fun o => o.group_buy_id == gid')
            = dbk.orders.filter (fun o => o.group_buy_id == gid') := by
        intro gid' hnot hlt
        apply filter_map_fixed _ F dbk.orders
        · intro o ho
          rcases hFgid o ho with heq | ⟨hin, hge⟩
          · rw [heq]
          · have h1 : ((F o).group_buy_id == gid') = false := by
              rw [beq_eq_false_iff_ne]
              intro he
              omega
            have h2 : (o.group_buy_id == gid') = false := by
              rw [beq_eq_false_iff_ne]
              intro he
              exact hnot (he ▸ hin)
            rw [h1, h2]
        · intro o ho hP
          rcases hFgid o ho with heq | ⟨hin, hge⟩
          · exact heq
          · exact absurd (beq_iff_eq.mp hP ▸ hin) hnot
      -- the stepped store's group ids stay duplicate-free
      have hdeactIds : ((dbk.groups.map (fun g => if g.id ∈ gids
          then { g with is_active := false, updated_at := now } else g)).map GroupBuy.id)
          = dbk.groups.map GroupBuy.id :=
        map_gids_of_id_preserving (fun g => if g.id ∈ gids
          then { g with is_active := false, updated_at := now } else g)
          (fun g => by
            show ((if g.id ∈ gids then { g with is_active := false, updated_at := now }
              else g) : GroupBuy).id = g.id
            split <;> rfl) dbk.groups
      have hGnodK1 : ((dbk.groups.map (fun g => if g.id ∈ gids
            then { g with is_active := false, updated_at := now } else g)
          ++ (List.range ((productL db0 pid).length / p.min_group_size)).map
            (fun i => fullGroupRow pid p.min_group_size now (dbk.nextGroupId + i))
          ++ (if 0 < (productL db0 pid).length % p.min_group_size then
              [remGroupRow pid p.min_group_size
                ((productL db0 pid).length % p.min_group_size) now
                (dbk.nextGroupId + (productL db0 pid).length / p.min_group_size)]
             else [])).map GroupBuy.id).Nodup := by
        rw [List.map_append, List.map_append, hdeactIds]
        rw [List.nodup_append, List.nodup_append]
        refine ⟨⟨hGnodK, ?_, ?_⟩, ?_, ?_⟩
        · rw [List.map_map]
          have heq2 : (GroupBuy.id ∘ fun i =>
              fullGroupRow pid p.min_group_size now (dbk.nextGroupId + i))
              = fun i => dbk.nextGroupId + i := rfl
          rw [heq2]
          exact List.Nodup.map (fun a b h => by omega) (List.nodup_range _)
        · intro x hxA hxB
          obtain ⟨g, hg, rfl⟩ := List.mem_map.mp hxA
          have h1 : g.id < dbk.nextGroupId := hfreshK g hg
          obtain ⟨row, hrow, hxid⟩ := List.mem_map.mp hxB
          obtain ⟨i, -, rfl⟩ := List.mem_map.mp hrow
          rw [show (fullGroupRow pid p.min_group_size now
            (dbk.nextGroupId + i)).id = dbk.nextGroupId + i from rfl] at hxid
          omega
        · split
          · simp
          · simp
        · intro x hxAB hxC
          revert hxC
          split
          · intro hxC
            simp only [List.map_cons, List.map_nil, List.mem_singleton] at hxC
            rw [show (remGroupRow pid p.min_group_size
              ((productL db0 pid).length % p.min_group_size) now
              (dbk.nextGroupId + (productL db0 pid).length / p.min_group_size)).id
              = dbk.nextGroupId + (productL db0 pid).length / p.min_group_size from rfl]
              at hxC
            subst hxC
            rcases List.mem_append.mp hxAB with h1 | h2
            · obtain ⟨g, hg, hxid⟩ := List.mem_map.mp h1
              have h3 := hfreshK g hg
              omega
            · obtain ⟨row, hrow, hxid⟩ := List.mem_map.mp h2
              obtain ⟨i, hi, rfl⟩ := List.mem_map.mp hrow
              rw [show (fullGroupRow pid p.min_group_size now
                (dbk.nextGroupId + i)).id = dbk.nextGroupId + i from rfl] at hxid
              have h4 := List.mem_range.mp hi
              omega
          · intro hxC
            simp at hxC
      -- the invariants for the remaining products hold in the stepped store
      obtain ⟨db', outs, hfold, hP1, hP2, hP3, hP4, hP5, hFRG, hFRO, hEff, hFOr, hNewsr,
          hGN⟩ :=
        rearrangeFold_spec db0 now h0G h0O h0fresh rest (List.nodup_cons.mp hnodup).2
          (fun q hq => hprodAll q (List.mem_cons_of_mem _ hq))
          (fun q hq => hminAll q (List.mem_cons_of_mem _ hq))
          { products := dbk.products,
            groups := dbk.groups.map (fun g =>
                if g.id ∈ gids then { g with is_active := false, updated_at := now } else g)
              ++ (List.range ((productL db0 pid).length / p.min_group_size)).map
                (fun i => fullGroupRow pid p.min_group_size now (dbk.nextGroupId + i))
              ++ (if 0 < (productL db0 pid).length % p.min_group_size then
                  [remGroupRow pid p.min_group_size
                    ((productL db0 pid).length % p.min_group_size) now
                    (dbk.nextGroupId + (productL db0 pid).length / p.min_group_size)]
                 else []),
            orders := dbk.orders.map F,
            nextGroupId := dbk.nextGroupId
              + (productL db0 pid).length / p.min_group_size
              + (if 0 < (productL db0 pid).length % p.min_group_size then 1 else 0),
            nextOrderId := dbk.nextOrderId } (acc ++ (List.range
              ((productL db0 pid).length / p.min_group_size)).map (fun i =>
              RearrangeOutcome.completedGroup pid (dbk.nextGroupId + i) p.min_group_size
                (get_discount_percentage p p.min_group_size))
            ++ (if 0 < (productL db0 pid).length % p.min_group_size then
                [RearrangeOutcome.remainderGroup pid
                  (dbk.nextGroupId + (productL db0 pid).length / p.min_group_size)
                  ((productL db0 pid).length % p.min_group_size) p.min_group_size] else []))
          hprodEq hnoid (le_trans hgidLe (le_trans (Nat.le_add_right _ _)
            (Nat.le_add_right _ _)))
          (by
            intro g hg
            rcases List.mem_append.mp hg with hg1 | hg2
            · rcases List.mem_append.mp hg1 with hg3 | hg4
              · obtain ⟨g0, hg0, rfl⟩ := List.mem_map.mp hg3
                have h1 : g0.id < dbk.nextGroupId := hfreshK g0 hg0
                have h2 : ((if g0.id ∈ gids then
                    { g0 with is_active := false, updated_at := now } else g0) : GroupBuy).id
                    = g0.id := by
                  split <;> rfl
                rw [h2]
                show g0.id < dbk.nextGroupId + _ + _
                split <;> omega
              · obtain ⟨i, hi, rfl⟩ := List.mem_map.mp hg4
                have h3 := List.mem_range.mp hi
                show dbk.nextGroupId + i < dbk.nextGroupId + _ + _
                split <;> omega
            · revert hg2
              split
              · rename_i hrem
                intro hg2
                rw [List.mem_singleton] at hg2
                subst hg2
                show dbk.nextGroupId + _ < dbk.nextGroupId + _ + 1
                omega
              · intro hg2
                cases hg2)
          (by
            show (dbk.orders.map F).map Order.id = db0.orders.map Order.id
            rw [map_ids_of_id_preserving F hFid, hids])
          (by
            intro q hq gid hgid
            have hqne : q ≠ pid := fun he => (List.nodup_cons.mp hnodup).1 (he ▸ hq)
            have hnot : gid ∉ gids :=
              productGids_disjoint db0 h0G q pid hqne gid hgid
            have hlt : gid < db0.nextGroupId := by
              obtain ⟨g, hg, rfl, -, -, -⟩ := (productGids_mem db0 q gid).mp hgid
              exact h0fresh g hg
            show (dbk.orders.map F).filter (fun o => o.group_buy_id == gid)
                = get_orders_by_group db0 gid
            rw [hOGk1 gid hnot hlt]
            exact hOG q (List.mem_cons_of_mem _ hq) gid hgid)
          (by
            intro q hq gid hgid
            have hqne : q ≠ pid := fun he => (List.nodup_cons.mp hnodup).1 (he ▸ hq)
            have hnot : gid ∉ gids :=
              productGids_disjoint db0 h0G q pid hqne gid hgid
            have hlt : gid < db0.nextGroupId := by
              obtain ⟨g, hg, rfl, -, -, -⟩ := (productGids_mem db0 q gid).mp hgid
              exact h0fresh g hg
            rw [hgbk1 gid (lt_of_lt_of_le hlt hgidLe) hnot]
            exact hGG q (List.mem_cons_of_mem _ hq) gid hgid)
          hGnodK1
      have hpf : productFull db0 pid = (productL db0 pid).length / p.min_group_size := by
        unfold productFull
        rw [hp0]
      have hcondPos : (pid :: rest).filter (fun q => 0 < productFull db0 q)
          = pid :: rest.filter (fun q => 0 < productFull db0 q) := by
        rw [List.filter_cons]
        simp [hpf, hpos]
      have hrestOld : ∀ gid ∈ ((rest.filter (fun q => 0 < productFull db0 q)).map
          (fun q => productGids db0 q)).flatten, gid < db0.nextGroupId := by
        intro gid hgid
        obtain ⟨l, hl, hgl⟩ := List.mem_flatten.mp hgid
        obtain ⟨q, -, rfl⟩ := List.mem_map.mp hl
        obtain ⟨g, hg, rfl, -, -, -⟩ := (productGids_mem db0 q gid).mp hgl
        exact h0fresh g hg
      refine ⟨db', outs, ?_, hP1, hP2,
        le_trans (le_trans (Nat.le_add_right _ _) (Nat.le_add_right _ _)) hP3, hP4, hP5,
        ?_, ?_, ?_, ?_, ?_, hGN⟩
      · rw [hstep]
        simpa [bind, Except.bind, pure, Except.pure] using hfold
      · -- frame for groups
        intro gid hlt havoid
        rw [hFRG gid (by show gid < dbk.nextGroupId + _ + _; split <;> omega)
          (fun q hq => havoid q (List.mem_cons_of_mem _ hq))]
        exact hgbk1 gid hlt (havoid pid (List.mem_cons_self _ _))
      · -- frame for orders
        intro j havoid
        rw [hFRO j (fun q hq => havoid q (List.mem_cons_of_mem _ hq))]
        exact hordk1 j (havoid pid (List.mem_cons_self _ _))
      · -- effects
        intro q hq pq hpq
        rcases List.mem_cons.mp hq with heq | hq2
        · symm at heq
          subst heq
          have hpq2 : pq = p := by
            rw [hp0] at hpq
            exact (Option.some.inj hpq).symm
          symm at hpq2
          subst hpq2
          constructor
          · intro hcontra
            omega
          · intro _
            refine ⟨dbk.nextGroupId, hgidLe, ?_, ?_, ?_, ?_, ?_⟩
            · -- the new complete groups
              intro i hi
              have havoidR : ∀ q' ∈ rest, dbk.nextGroupId + i ∉ productGids db0 q' := by
                intro q' hq' hmem
                have := hgidsOld  -- ids in any snapshot are below the original counter
                obtain ⟨g, hg, hgid2, -, -, -⟩ := (productGids_mem db0 q' _).mp hmem
                have := h0fresh g hg
                omega
              rw [hFRG _ (by show dbk.nextGroupId + i < dbk.nextGroupId + _ + _; split <;> omega) havoidR]
              show (dbk.groups.map (fun g =>
                  if g.id ∈ gids then { g with is_active := false, updated_at := now } else g)
                ++ (List.range ((productL db0 pid).length / p.min_group_size)).map
                  (fun i => fullGroupRow pid p.min_group_size now (dbk.nextGroupId + i))
                ++ (if 0 < (productL db0 pid).length % p.min_group_size then
                    [remGroupRow pid p.min_group_size
                      ((productL db0 pid).length % p.min_group_size) now
                      (dbk.nextGroupId + (productL db0 pid).length / p.min_group_size)]
                   else [])).find? (fun g => g.id == dbk.nextGroupId + i) = _
              rw [List.find?_append, List.find?_append,
                find?_gid_map _ (fun g => by split <;> rfl) dbk.groups _]
              have hnone1 : dbk.groups.find? (fun g => g.id == dbk.nextGroupId + i) = none := by
                rw [List.find?_eq_none]
                intro g hg
                have := hfreshK g hg
                intro hbe
                have := beq_iff_eq.mp hbe
                omega
              rw [hnone1]
              have hrowmem : fullGroupRow pid p.min_group_size now (dbk.nextGroupId + i)
                  ∈ (List.range ((productL db0 pid).length / p.min_group_size)).map
                    (fun j => fullGroupRow pid p.min_group_size now (dbk.nextGroupId + j)) :=
                List.mem_map.mpr ⟨i, List.mem_range.mpr hi, rfl⟩
              have hrowsN : (((List.range ((productL db0 pid).length / p.min_group_size)).map
                  (fun j => fullGroupRow pid p.min_group_size now (dbk.nextGroupId + j))).map
                    GroupBuy.id).Nodup := by
                rw [List.map_map]
                have heq : (GroupBuy.id ∘ fun j =>
                    fullGroupRow pid p.min_group_size now (dbk.nextGroupId + j))
                    = fun j => dbk.nextGroupId + j := rfl
                rw [heq]
                exact List.Nodup.map (fun a b h => by omega) (List.nodup_range _)
              have hfind := find?_key_eq_some_of_mem GroupBuy.id _ hrowsN _ hrowmem
              simp only [fullGroupRow] at hfind ⊢
              rw [hfind]
              rfl
            · -- the remainder group
              intro hrem
              have havoidR : ∀ q' ∈ rest, dbk.nextGroupId
                  + (productL db0 pid).length / p.min_group_size ∉ productGids db0 q' := by
                intro q' hq' hmem
                obtain ⟨g, hg, hgid2, -, -, -⟩ := (productGids_mem db0 q' _).mp hmem
                have := h0fresh g hg
                omega
              rw [hFRG _ (by show dbk.nextGroupId + _ < dbk.nextGroupId + _ + _; rw [if_pos hrem]; omega) havoidR]
              show (dbk.groups.map (fun g =>
                  if g.id ∈ gids then { g with is_active := false, updated_at := now } else g)
                ++ (List.range ((productL db0 pid).length / p.min_group_size)).map
                  (fun i => fullGroupRow pid p.min_group_size now (dbk.nextGroupId + i))
                ++ (if 0 < (productL db0 pid).length % p.min_group_size then
                    [remGroupRow pid p.min_group_size
                      ((productL db0 pid).length % p.min_group_size) now
                      (dbk.nextGroupId + (productL db0 pid).length / p.min_group_size)]
                   else [])).find? (fun g => g.id
                    == dbk.nextGroupId + (productL db0 pid).length / p.min_group_size) = _
              rw [List.find?_append, List.find?_append,
                find?_gid_map _ (fun g => by split <;> rfl) dbk.groups _]
              have hnone1 : dbk.groups.find? (fun g => g.id
                  == dbk.nextGroupId + (productL db0 pid).length / p.min_group_size)
                  = none := by
                rw [List.find?_eq_none]
                intro g hg
                have := hfreshK g hg
                intro hbe
                have := beq_iff_eq.mp hbe
                omega
              have hnone2 : ((List.range ((productL db0 pid).length / p.min_group_size)).map
                  (fun i => fullGroupRow pid p.min_group_size now
                    (dbk.nextGroupId + i))).find? (fun g => g.id
                    == dbk.nextGroupId + (productL db0 pid).length / p.min_group_size)
                  = none := by
                rw [List.find?_eq_none]
                intro g hg
                obtain ⟨i, hi, rfl⟩ := List.mem_map.mp hg
                have := List.mem_range.mp hi
                simp only [fullGroupRow]
                intro hbe
                have := beq_iff_eq.mp hbe
                omega
              rw [hnone1, hnone2, if_pos hrem]
              simp only [Option.map_none', Option.none_or]
              rw [List.find?_cons]
              have hbe : ((remGroupRow pid p.min_group_size
                  ((productL db0 pid).length % p.min_group_size) now
                  (dbk.nextGroupId + (productL db0 pid).length / p.min_group_size)).id
                  == dbk.nextGroupId + (productL db0 pid).length / p.min_group_size)
                  = true := by
                simp [remGroupRow]
              rw [hbe]
            · -- the contributing groups are deactivated
              intro gid hgid g hg
              have havoidR : ∀ q' ∈ rest, gid ∉ productGids db0 q' := by
                intro q' hq' hmem
                exact productGids_disjoint db0 h0G pid q' (fun he =>
                  (List.nodup_cons.mp hnodup).1 (he ▸ hq')) gid hgid hmem
              have hlt : gid < dbk.nextGroupId := hfreshk2 gid hgid
              rw [hFRG _ (by show gid < dbk.nextGroupId + _ + _; split <;> omega) havoidR]
              show (dbk.groups.map (fun g =>
                  if g.id ∈ gids then { g with is_active := false, updated_at := now } else g)
                ++ (List.range ((productL db0 pid).length / p.min_group_size)).map
                  (fun i => fullGroupRow pid p.min_group_size now (dbk.nextGroupId + i))
                ++ (if 0 < (productL db0 pid).length % p.min_group_size then
                    [remGroupRow pid p.min_group_size
                      ((productL db0 pid).length % p.min_group_size) now
                      (dbk.nextGroupId + (productL db0 pid).length / p.min_group_size)]
                   else [])).find? (fun g => g.id == gid) = _
              rw [List.find?_append, List.find?_append,
                find?_gid_map _ (fun g => by split <;> rfl) dbk.groups _]
              have hck : get_group_buy dbk gid = some g := by
                rw [hGG pid (List.mem_cons_self _ _) gid hgid]
                exact hg
              rw [show dbk.groups.find? (fun g => g.id == gid) = get_group_buy dbk gid
                from rfl, hck]
              have hgid2 : g.id = gid := by simpa using List.find?_some hck
              simp only [Option.map_some']
              rw [if_pos (hgid2 ▸ hgid)]
              rfl
            · -- the finalized chunk orders
              intro i hi o ho
              have hoL : o ∈ productL db0 pid :=
                (List.drop_sublist _ _).mem ((List.take_sublist _ _).mem ho)
              have havoidR : ∀ q' ∈ rest, o.id ∉ (productL db0 q').map Order.id := by
                intro q' hq' hmem
                exact productL_ids_disjoint db0 h0G h0O pid q' (fun he =>
                  (List.nodup_cons.mp hnodup).1 (he ▸ hq')) o.id
                  (List.mem_map.mpr ⟨o, hoL, rfl⟩) hmem
              rw [hFRO _ havoidR]
              show (dbk.orders.map F).find? (fun o2 => o2.id == o.id) = _
              rw [find?_oid_map F hFid dbk.orders o.id]
              rw [show dbk.orders.find? (fun o2 => o2.id == o.id) = get_order dbk o.id
                from rfl, hLget o hoL]
              simp only [Option.map_some']
              rw [hFchunk i hi o ho]
            · -- the remainder orders
              intro o ho
              have hoL : o ∈ productL db0 pid := (List.drop_sublist _ _).mem ho
              have havoidR : ∀ q' ∈ rest, o.id ∉ (productL db0 q').map Order.id := by
                intro q' hq' hmem
                exact productL_ids_disjoint db0 h0G h0O pid q' (fun he =>
                  (List.nodup_cons.mp hnodup).1 (he ▸ hq')) o.id
                  (List.mem_map.mpr ⟨o, hoL, rfl⟩) hmem
              rw [hFRO _ havoidR]
              show (dbk.orders.map F).find? (fun o2 => o2.id == o.id) = _
              rw [find?_oid_map F hFid dbk.orders o.id]
              rw [show dbk.orders.find? (fun o2 => o2.id == o.id) = get_order dbk o.id
                from rfl, hLget o hoL]
              simp only [Option.map_some']
              rw [hFrem o ho]
        · exact hEff q hq2 pq hpq
      · -- the order table is one id-preserving pointwise map
        obtain ⟨FOr, hFOid, hFOeq⟩ := hFOr
        refine ⟨fun o => FOr (F o), fun o => (hFOid (F o)).trans (hFid o), ?_⟩
        have h2 : db'.orders = (dbk.orders.map F).map FOr := hFOeq
        rw [List.map_map] at h2
        exact h2
      · -- the group table decomposes into deactivations plus fresh rows
        obtain ⟨newsR, hgEqR, hn2R, hn3R⟩ := hNewsr
        have hflat : (((pid :: rest).filter (fun q => 0 < productFull db0 q)).map
            (fun q => productGids db0 q)).flatten
            = gids ++ ((rest.filter (fun q => 0 < productFull db0 q)).map
              (fun q => productGids db0 q)).flatten := by
          rw [hcondPos]
          rfl
        have hNewFix : ((List.range ((productL db0 pid).length / p.min_group_size)).map
              (fun i => fullGroupRow pid p.min_group_size now (dbk.nextGroupId + i))
            ++ (if 0 < (productL db0 pid).length % p.min_group_size then
                [remGroupRow pid p.min_group_size
                  ((productL db0 pid).length % p.min_group_size) now
                  (dbk.nextGroupId + (productL db0 pid).length / p.min_group_size)]
               else [])).map (fun g =>
              if g.id ∈ ((rest.filter (fun q => 0 < productFull db0 q)).map
                (fun q => productGids db0 q)).flatten
              then { g with is_active := false, updated_at := now } else g)
            = ((List.range ((productL db0 pid).length / p.min_group_size)).map
              (fun i => fullGroupRow pid p.min_group_size now (dbk.nextGroupId + i))
            ++ (if 0 < (productL db0 pid).length % p.min_group_size then
                [remGroupRow pid p.min_group_size
                  ((productL db0 pid).length % p.min_group_size) now
                  (dbk.nextGroupId + (productL db0 pid).length / p.min_group_size)]
               else [])) := by
          conv_rhs => rw [← List.map_id ((List.range
              ((productL db0 pid).length / p.min_group_size)).map
              (fun i => fullGroupRow pid p.min_group_size now (dbk.nextGroupId + i))
            ++ (if 0 < (productL db0 pid).length % p.min_group_size then
                [remGroupRow pid p.min_group_size
                  ((productL db0 pid).length % p.min_group_size) now
                  (dbk.nextGroupId + (productL db0 pid).length / p.min_group_size)]
               else []))]
          apply List.map_congr_left
          intro g hg
          have hid : dbk.nextGroupId ≤ g.id := by
            rcases List.mem_append.mp hg with h1 | h2
            · obtain ⟨i, -, rfl⟩ := List.mem_map.mp h1
              exact Nat.le_add_right _ _
            · revert h2
              split
              · intro h2
                rw [List.mem_singleton] at h2
                subst h2
                exact Nat.le_add_right _ _
              · intro h2
                cases h2
          exact if_neg (fun hmem =>
            absurd (lt_of_lt_of_le (hrestOld _ hmem) hgidLe) (not_lt.mpr hid))
        refine ⟨((List.range ((productL db0 pid).length / p.min_group_size)).map
              (fun i => fullGroupRow pid p.min_group_size now (dbk.nextGroupId + i))
            ++ (if 0 < (productL db0 pid).length % p.min_group_size then
                [remGroupRow pid p.min_group_size
                  ((productL db0 pid).length % p.min_group_size) now
                  (dbk.nextGroupId + (productL db0 pid).length / p.min_group_size)]
               else [])) ++ newsR, ?_, ?_, ?_⟩
        · have h3 : db'.groups
              = ((dbk.groups.map (fun g => if g.id ∈ gids
                  then { g with is_active := false, updated_at := now } else g)
                ++ (List.range ((productL db0 pid).length / p.min_group_size)).map
                  (fun i => fullGroupRow pid p.min_group_size now (dbk.nextGroupId + i))
                ++ (if 0 < (productL db0 pid).length % p.min_group_size then
                    [remGroupRow pid p.min_group_size
                      ((productL db0 pid).length % p.min_group_size) now
                      (dbk.nextGroupId + (productL db0 pid).length / p.min_group_size)]
                   else [])).map (fun g =>
                  if g.id ∈ ((rest.filter (fun q => 0 < productFull db0 q)).map
                    (fun q => productGids db0 q)).flatten
                  then { g with is_active := false, updated_at := now } else g))
                ++ newsR := hgEqR
          rw [List.append_assoc, List.map_append] at h3
          have hA : (dbk.groups.map (fun g => if g.id ∈ gids
              then { g with is_active := false, updated_at := now } else g)).map (fun g =>
                if g.id ∈ ((rest.filter (fun q => 0 < productFull db0 q)).map
                  (fun q => productGids db0 q)).flatten
                then { g with is_active := false, updated_at := now } else g)
              = dbk.groups.map (fun g =>
                if g.id ∈ (((pid :: rest).filter (fun q => 0 < productFull db0 q)).map
                  (fun q => productGids db0 q)).flatten
                then { g with is_active := false, updated_at := now } else g) := by
            rw [List.map_map]
            apply List.map_congr_left
            intro g _
            simp only [Function.comp]
            by_cases hcg : g.id ∈ gids
            · rw [if_pos hcg]
              rw [show (if g.id ∈ (((pid :: rest).filter
                  (fun q => 0 < productFull db0 q)).map
                  (fun q => productGids db0 q)).flatten
                then ({ g with is_active := false, updated_at := now } : GroupBuy) else g)
                = { g with is_active := false, updated_at := now } from if_pos
                  (by rw [hflat]; exact List.mem_append.mpr (Or.inl hcg))]
              by_cases hcr : g.id ∈ ((rest.filter (fun q => 0 < productFull db0 q)).map
                  (fun q => productGids db0 q)).flatten
              · rw [if_pos (show (({ g with is_active := false, updated_at := now }
                  : GroupBuy)).id ∈ _ from hcr)]
              · rw [if_neg (show ¬(({ g with is_active := false, updated_at := now }
                  : GroupBuy)).id ∈ _ from hcr)]
            · rw [if_neg hcg]
              by_cases hcr : g.id ∈ ((rest.filter (fun q => 0 < productFull db0 q)).map
                  (fun q => productGids db0 q)).flatten
              · rw [if_pos hcr,
                  if_pos (by rw [hflat]; exact List.mem_append.mpr (Or.inr hcr))]
              · rw [if_neg hcr, if_neg (by
                  rw [hflat]; intro hmm
                  rcases List.mem_append.mp hmm with hx | hx
                  · exact hcg hx
                  · exact hcr hx)]
          rw [hA, hNewFix] at h3
          rw [h3]
          simp only [List.append_assoc]
        · intro g hg
          rcases List.mem_append.mp hg with hg1 | hg2
          · rcases List.mem_append.mp hg1 with hg3 | hg4
            · obtain ⟨i, -, rfl⟩ := List.mem_map.mp hg3
              refine ⟨Nat.le_add_right _ _, List.mem_cons_self _ _, ?_, ?_, ?_⟩
              · rw [show (fullGroupRow pid p.min_group_size now
                  (dbk.nextGroupId + i)).product_id = pid from rfl, hpf]
                exact hpos
              · intro hact
                simp [fullGroupRow] at hact
              · intro hact
                simp [fullGroupRow] at hact
            · revert hg4
              split
              · rename_i hrem
                intro hg4
                rw [List.mem_singleton] at hg4
                subst hg4
                refine ⟨Nat.le_add_right _ _, List.mem_cons_self _ _, ?_, ?_, ?_⟩
                · rw [show (remGroupRow pid p.min_group_size
                    ((productL db0 pid).length % p.min_group_size) now
                    (dbk.nextGroupId + (productL db0 pid).length
                      / p.min_group_size)).product_id = pid from rfl, hpf]
                  exact hpos
                · intro _
                  show (productL db0 pid).length % p.min_group_size < p.min_group_size
                  exact Nat.mod_lt _ hn1
                · intro _ p2 hp2
                  rw [show (remGroupRow pid p.min_group_size
                    ((productL db0 pid).length % p.min_group_size) now
                    (dbk.nextGroupId + (productL db0 pid).length
                      / p.min_group_size)).product_id = pid from rfl] at hp2
                  have hp2e : p2 = p := (Option.some.inj (hp0 ▸ hp2)).symm
                  subst hp2e
                  exact ⟨hrem, rfl, rfl⟩
              · intro hg4
                cases hg4
          · obtain ⟨ha, hb, hc, hd, he⟩ := hn2R g hg2
            exact ⟨le_trans (le_trans (Nat.le_add_right _ _) (Nat.le_add_right _ _)) ha,
              List.mem_cons_of_mem _ hb, hc, hd, he⟩
        · intro pid2
          rw [List.filter_append, List.length_append]
          by_cases hpid2 : pid2 = pid
          · subst hpid2
            have hz2 : (newsR.filter
                (fun g => g.product_id == pid2 && g.is_active)).length = 0 := by
              rw [List.length_eq_zero]
              rw [List.filter_eq_nil_iff]
              intro g hg
              obtain ⟨-, hb, -, -, -⟩ := hn2R g hg
              have : g.product_id ≠ pid2 := fun he =>
                (List.nodup_cons.mp hnodup).1 (he ▸ hb)
              simp [this]
            rw [hz2, List.filter_append, List.length_append]
            have hz3 : (((List.range ((productL db0 pid2).length / p.min_group_size)).map
                (fun i => fullGroupRow pid2 p.min_group_size now
                  (dbk.nextGroupId + i))).filter
                (fun g => g.product_id == pid2 && g.is_active)).length = 0 := by
              rw [List.length_eq_zero, List.filter_eq_nil_iff]
              intro g hg
              obtain ⟨i, -, rfl⟩ := List.mem_map.mp hg
              simp [fullGroupRow]
            rw [hz3]
            have hz4 : ((if 0 < (productL db0 pid2).length % p.min_group_size then
                [remGroupRow pid2 p.min_group_size
                  ((productL db0 pid2).length % p.min_group_size) now
                  (dbk.nextGroupId + (productL db0 pid2).length / p.min_group_size)]
               else []).filter
                (fun g => g.product_id == pid2 && g.is_active)).length ≤ 1 := by
              split
              · exact le_trans (List.length_filter_le _ _) (by simp)
              · simp
            omega
          · have hz5 : (((List.range ((productL db0 pid).length / p.min_group_size)).map
                  (fun i => fullGroupRow pid p.min_group_size now (dbk.nextGroupId + i))
                ++ (if 0 < (productL db0 pid).length % p.min_group_size then
                    [remGroupRow pid p.min_group_size
                      ((productL db0 pid).length % p.min_group_size) now
                      (dbk.nextGroupId + (productL db0 pid).length / p.min_group_size)]
                   else [])).filter
                (fun g => g.product_id == pid2 && g.is_active)).length = 0 := by
              rw [List.length_eq_zero, List.filter_eq_nil_iff]
              intro g hg
              have hgp : g.product_id = pid := by
                rcases List.mem_append.mp hg with h1 | h2
                · obtain ⟨i, -, rfl⟩ := List.mem_map.mp h1
                  rfl
                · revert h2
                  split
                  · intro h2
                    rw [List.mem_singleton] at h2
                    subst h2
                    rfl
                  · intro h2
                    cases h2
              have : g.product_id ≠ pid2 := fun he => hpid2 (he.symm.trans hgp)
              simp [this]
            rw [hz5]
            have := hn3R pid2
            omega

/-- The key list of the `product_groups` dictionary built by
`rearrange_incomplete_groups`: product ids of incomplete groups, in order of
first appearance. -/
def rearrangePids (db0 : DB) : List Nat :=
  dedupFirst ((get_incomplete_groups db0).map (fun g => g.product_id)) []

theorem mem_rearrangePids (db0 : DB) (pid : Nat) :
    pid ∈ rearrangePids db0 ↔
      pid ∈ (get_incomplete_groups db0).map (fun g => g.product_id) := by
  rw [rearrangePids, mem_dedupFirst]
  simp

/-- With no active incomplete group, `rearrange_incomplete_groups` is a no-op
returning the "No incomplete groups to rearrange" message. -/
theorem rearrange_incomplete_groups_empty (db : DB) (now : Nat)
    (h : (get_incomplete_groups db).isEmpty = true) :
    rearrange_incomplete_groups db now = Except.ok (db, RearrangeResult.noIncomplete) := by
  unfold rearrange_incomplete_groups
  simp [h, pure, Except.pure]

/-- The top-level run of `rearrange_incomplete_groups` on a well-formed
store with at least one incomplete group: it succeeds, keeps products, order
ids and the order counter, leaves rows of unaffected products untouched, and
realizes `RearrangeEffect` for every product holding an incomplete group. -/
theorem rearrange_run_spec (db0 : DB) (now : Nat)
    (h0G : (db0.groups.map GroupBuy.id).Nodup)
    (h0O : (db0.orders.map Order.id).Nodup)
    (h0fresh : ∀ g ∈ db0.groups, g.id < db0.nextGroupId)
    (hprodAll : ∀ pid ∈ rearrangePids db0, ∃ p, get_product db0 pid = some p)
    (hmin : ∀ p ∈ db0.products, 1 ≤ p.min_group_size)
    (hne : (get_incomplete_groups db0).isEmpty = false) :
    ∃ db' outs,
      rearrange_incomplete_groups db0 now
        = Except.ok (db', RearrangeResult.rearranged outs) ∧
      db'.products = db0.products ∧
      db'.nextOrderId = db0.nextOrderId ∧
      db0.nextGroupId ≤ db'.nextGroupId ∧
      (∀ g ∈ db'.groups, g.id < db'.nextGroupId) ∧
      db'.orders.map Order.id = db0.orders.map Order.id ∧
      (∀ gid, gid < db0.nextGroupId →
        (∀ pid ∈ rearrangePids db0, gid ∉ productGids db0 pid) →
        get_group_buy db' gid = get_group_buy db0 gid) ∧
      (∀ j, (∀ pid ∈ rearrangePids db0, j ∉ (productL db0 pid).map Order.id) →
        get_order db' j = get_order db0 j) ∧
      (∀ pid ∈ rearrangePids db0, ∀ p, get_product db0 pid = some p →
        RearrangeEffect db0 now pid p db') ∧
      (∃ FO : Order → Order, (∀ o, (FO o).id = o.id) ∧
        db'.orders = db0.orders.map FO) ∧
      (∃ news : List GroupBuy,
        db'.groups = db0.groups.map (fun g =>
          if g.id ∈ (((rearrangePids db0).filter (fun q => 0 < productFull db0 q)).map
            (fun q => productGids db0 q)).flatten
          then { g with is_active := false, updated_at := now } else g) ++ news ∧
        (∀ g ∈ news, db0.nextGroupId ≤ g.id ∧ g.product_id ∈ rearrangePids db0 ∧
          0 < productFull db0 g.product_id ∧
          (g.is_active = true → g.current_count < g.target_count) ∧
          (g.is_active = true → ∀ p2, get_product db0 g.product_id = some p2 →
            0 < (productL db0 g.product_id).length % p2.min_group_size ∧
            g.current_count = (productL db0 g.product_id).length % p2.min_group_size ∧
            g.target_count = p2.min_group_size)) ∧
        (∀ pid2, (news.filter
          (fun g => g.product_id == pid2 && g.is_active)).length ≤ 1)) ∧
      (db'.groups.map GroupBuy.id).Nodup := by
  obtain ⟨db', outs, hfold, hP1, hP2, hP3, hP4, hP5, hFRG, hFRO, hEff, hFO, hNews, hGN⟩ :=
    rearrangeFold_spec db0 now h0G h0O h0fresh (rearrangePids db0)
      (dedupFirst_nodup _ _) hprodAll
      (fun pid hpid p hp => hmin p (List.mem_of_find?_eq_some hp))
      db0 [] rfl rfl (le_refl _) h0fresh rfl
      (fun _ _ _ _ => rfl) (fun _ _ _ _ => rfl) h0G
  refine ⟨db', outs, ?_, hP1, hP2, hP3, hP4, hP5, hFRG, hFRO, hEff, hFO, hNews, hGN⟩
  unfold rearrange_incomplete_groups
  simp only [hne, Bool.false_eq_true, if_false]
  show (do
      let res ← (rearrangePids db0).foldlM (fun (acc : DB × List RearrangeOutcome) pid => do
        let (dbx, out) ← processProductRearrange acc.1 pid
          (((get_incomplete_groups db0).filter
            (fun g => g.product_id == pid)).map (fun g => g.id)) now
        return (dbx, acc.2 ++ out)) (db0, [])
      return (res.1, RearrangeResult.rearranged res.2) :
        Except Err (DB × RearrangeResult))
    = Except.ok (db', RearrangeResult.rearranged outs)
  rw [hfold]
  rfl

/-- C2: for a product whose active incomplete groups together hold at least
`min_group_size` orders, `rearrange_incomplete_groups` collects exactly the
orders linked to those groups, sorts them by `created_at` ascending, forms
`total // n` new inactive groups with `target_count = current_count = n` at
consecutive fresh ids, assigns the successive sorted chunks of `n` orders to
them with `status = CONFIRMED` and
`discount_price = unit_price * (1 - d/100)` at the resolver's `d` for group
size `n`, puts the `total % n` leftover orders (when any) in one new active
group with `current_count = total % n` and no discount finalization, and
deactivates every contributing group. -/
theorem c2_rearrange_consolidation (db0 : DB) (now pid : Nat) (p : Product)
    (h0G : (db0.groups.map GroupBuy.id).Nodup)
    (h0O : (db0.orders.map Order.id).Nodup)
    (h0fresh : ∀ g ∈ db0.groups, g.id < db0.nextGroupId)
    (hFK : ∀ q ∈ rearrangePids db0, ∃ p', get_product db0 q = some p')
    (hmin : ∀ p' ∈ db0.products, 1 ≤ p'.min_group_size)
    (hp : get_product db0 pid = some p)
    (hpid : pid ∈ rearrangePids db0)
    (hbig : p.min_group_size ≤ (productL db0 pid).length)
    (hn : 1 ≤ p.min_group_size) :
    ∃ db' outs base,
      rearrange_incomplete_groups db0 now
        = Except.ok (db', RearrangeResult.rearranged outs) ∧
      (productL db0 pid).Perm (collectOrders db0 (productGids db0 pid)) ∧
      (productL db0 pid).Pairwise (fun a b => a.created_at ≤ b.created_at) ∧
      db0.nextGroupId ≤ base ∧
      (∀ i < (productL db0 pid).length / p.min_group_size,
        get_group_buy db' (base + i) = some
          { id := base + i, product_id := pid, current_count := p.min_group_size,
            target_count := p.min_group_size, is_active := false, updated_at := now }) ∧
      (∀ i < (productL db0 pid).length / p.min_group_size,
        ∀ o ∈ ((productL db0 pid).drop (i * p.min_group_size)).take p.min_group_size,
          get_order db' o.id = some { o with
            group_buy_id := base + i,
            status := OrderStatus.confirmed,
            discount_price := some (o.unit_price
              * (1 - get_discount_percentage p p.min_group_size / 100)) }) ∧
      (0 < (productL db0 pid).length % p.min_group_size →
        get_group_buy db' (base + (productL db0 pid).length / p.min_group_size) = some
          { id := base + (productL db0 pid).length / p.min_group_size, product_id := pid,
            current_count := (productL db0 pid).length % p.min_group_size,
            target_count := p.min_group_size, is_active := true, updated_at := now } ∧
        ∀ o ∈ (productL db0 pid).drop
            ((productL db0 pid).length / p.min_group_size * p.min_group_size),
          get_order db' o.id = some { o with
            group_buy_id := base + (productL db0 pid).length / p.min_group_size }) ∧
      (∀ gid ∈ productGids db0 pid, ∀ g, get_group_buy db0 gid = some g →
        get_group_buy db' gid = some { g with is_active := false, updated_at := now }) := by
  have hne : (get_incomplete_groups db0).isEmpty = false := by
    rw [mem_rearrangePids] at hpid
    obtain ⟨g, hg, -⟩ := List.mem_map.mp hpid
    cases hlist : get_incomplete_groups db0 with
    | nil => rw [hlist] at hg; cases hg
    | cons a l => rfl
  have hpid2 : pid ∈ rearrangePids db0 := by
    rw [mem_rearrangePids]
    rw [mem_rearrangePids] at hpid
    exact hpid
  obtain ⟨db', outs, hrun, hP1, hP2, hP3, hP4, hP5, hFRG, hFRO, hEff, -, -, -⟩ :=
    rearrange_run_spec db0 now h0G h0O h0fresh hFK hmin hne
  have heff := hEff pid hpid2 p hp
  have hfull : 0 < (productL db0 pid).length / p.min_group_size :=
    Nat.div_pos hbig (by omega)
  obtain ⟨base, hbase, hG1, hG2, hG3, hO1, hO2⟩ := heff.2 hfull
  refine ⟨db', outs, base, hrun, sortByCreated_perm _, sortByCreated_sorted _, hbase,
    hG1, hO1, ?_, hG3⟩
  intro hrem
  exact ⟨hG2 hrem, hO2⟩

/-- Product of the C2 witness store: `min_group_size = 4`, default 20%. -/
def c2P : Product :=
  { id := 1, price := 100, min_group_size := 4, discount_percentage := 20,
    discount_tiers := [] }

def c2Order (i gid ca : Nat) : Order :=
  { id := i, buyer_id := i, group_buy_id := gid, quantity := 1, unit_price := 100,
    discount_price := none, deposit_amount := 10, status := .pending, created_at := ca }

/-- Ten pending orders spread over three stale incomplete groups of a
product with `min_group_size = 4`. -/
def c2DB : DB :=
  { products := [c2P],
    groups := [{ id := 1, product_id := 1, current_count := 3, target_count := 4,
                 is_active := true, updated_at := 0 },
               { id := 2, product_id := 1, current_count := 3, target_count := 4,
                 is_active := true, updated_at := 0 },
               { id := 3, product_id := 1, current_count := 2, target_count := 4,
                 is_active := true, updated_at := 0 }],
    orders := [c2Order 1 1 10, c2Order 2 1 11, c2Order 3 1 12, c2Order 4 1 13,
               c2Order 5 2 14, c2Order 6 2 15, c2Order 7 2 16, c2Order 8 2 17,
               c2Order 9 3 18, c2Order 10 3 19],
    nextGroupId := 4, nextOrderId := 11 }

theorem c2_rearrange_consolidation_witness :
    (productL c2DB 1).length = 10 ∧ (productL c2DB 1).length / 4 = 2 ∧
    (productL c2DB 1).length % 4 = 2 ∧
    ∃ db' outs, rearrange_incomplete_groups c2DB 999
      = Except.ok (db', RearrangeResult.rearranged outs) := by
  refine ⟨by decide, by decide, by decide, ?_⟩
  obtain ⟨db', outs, base, hrun, -⟩ :=
    c2_rearrange_consolidation c2DB 999 1 c2P (by decide) (by decide) (by decide)
      (by
        intro q hq
        have hpids : rearrangePids c2DB = [1] := by decide
        rw [hpids] at hq
        have : q = 1 := by simpa using hq
        subst this
        exact ⟨c2P, rfl⟩)
      (by decide) rfl (by decide) (by decide) (by decide)
  exact ⟨db', outs, hrun⟩

/-- C5 (amended): for a product whose active incomplete groups together
hold fewer than `min_group_size` orders, rearrangement leaves that
product's rows untouched: the contributing groups keep their stored rows
(in particular they stay active) and the collected orders keep theirs — no
new group is created for the product and nothing is reassigned or
deactivated, because the whole consolidation body is guarded by
`complete_groups_possible > 0`. -/
theorem c5_rearrange_small_total (db0 : DB) (now pid : Nat) (p : Product)
    (h0G : (db0.groups.map GroupBuy.id).Nodup)
    (h0O : (db0.orders.map Order.id).Nodup)
    (h0fresh : ∀ g ∈ db0.groups, g.id < db0.nextGroupId)
    (hFK : ∀ q ∈ rearrangePids db0, ∃ p', get_product db0 q = some p')
    (hmin : ∀ p' ∈ db0.products, 1 ≤ p'.min_group_size)
    (hp : get_product db0 pid = some p)
    (hpid : pid ∈ rearrangePids db0)
    (hsmall : (productL db0 pid).length < p.min_group_size) :
    ∃ db' outs,
      rearrange_incomplete_groups db0 now
        = Except.ok (db', RearrangeResult.rearranged outs) ∧
      (∀ gid ∈ productGids db0 pid, get_group_buy db' gid = get_group_buy db0 gid) ∧
      (∀ j ∈ (productL db0 pid).map Order.id, get_order db' j = get_order db0 j) := by
  have hne : (get_incomplete_groups db0).isEmpty = false := by
    have hpid' := (mem_rearrangePids db0 pid).mp hpid
    obtain ⟨g, hg, -⟩ := List.mem_map.mp hpid'
    cases hlist : get_incomplete_groups db0 with
    | nil => rw [hlist] at hg; cases hg
    | cons a l => rfl
  obtain ⟨db', outs, hrun, -, -, -, -, -, -, -, hEff, -, -, -⟩ :=
    rearrange_run_spec db0 now h0G h0O h0fresh hFK hmin hne
  have heff := hEff pid hpid p hp
  have hzero : (productL db0 pid).length / p.min_group_size = 0 :=
    Nat.div_eq_of_lt hsmall
  obtain ⟨hG, hO⟩ := heff.1 hzero
  exact ⟨db', outs, hrun, hG, hO⟩

/-- The amended C5 statement at the two-order store: the run succeeds and
the single contributing group's row — still active — is untouched. -/
theorem c5_rearrange_small_total_witness :
    (productL c5DB 1).length = 2 ∧ (2 : Nat) < 4 ∧
    ∃ db' outs, rearrange_incomplete_groups c5DB 1000
      = Except.ok (db', RearrangeResult.rearranged outs) ∧
      get_group_buy db' 1 = get_group_buy c5DB 1 := by
  refine ⟨by decide, by decide, ?_⟩
  obtain ⟨db', outs, hrun, hG, -⟩ :=
    c5_rearrange_small_total c5DB 1000 1
      { id := 1, price := 100, min_group_size := 4, discount_percentage := 25,
        discount_tiers := [] }
      (by decide) (by decide) (by decide)
      (by
        intro q hq
        have hpids : rearrangePids c5DB = [1] := by decide
        rw [hpids] at hq
        have : q = 1 := by simpa using hq
        subst this
        exact ⟨_, rfl⟩)
      (by decide) rfl (by decide) (by decide)
  exact ⟨db', outs, hrun, hG 1 (by decide)⟩

/-- The expired-group processing loop of `check_expired_groups`, as one
pointwise map: every order linked to a listed group is cancelled, every
listed group is deactivated. -/
theorem sweepFold_eq (now : Nat) :
    ∀ (gs : List GroupBuy) (db : DB), (db.orders.map Order.id).Nodup →
    gs.foldl (fun acc g =>
      let orders := get_orders_by_group acc g.id
      let acc1 := orders.foldl (fun a o =>
        setOrder a o.id (fun od => { od with status := .cancelled })) acc
      setGroup acc1 g.id (fun gg => { gg with is_active := false, updated_at := now })) db
    = { db with
        orders := db.orders.map (fun o =>
          if o.group_buy_id ∈ gs.map GroupBuy.id
          then { o with status := .cancelled } else o),
        groups := db.groups.map (fun g2 =>
          if g2.id ∈ gs.map GroupBuy.id
          then { g2 with is_active := false, updated_at := now } else g2) }
  | [], db, _ => by
    simp
  | g :: rest, db, hO => by
    rw [List.foldl_cons]
    have hsubO : ((db.orders.filter (fun o => o.group_buy_id == g.id)).map Order.id).Nodup :=
      List.Nodup.sublist ((List.filter_sublist _).map Order.id) hO
    have hstep : (let orders := get_orders_by_group db g.id
        let acc1 := orders.foldl (fun a o =>
          setOrder a o.id (fun od => { od with status := .cancelled })) db
        setGroup acc1 g.id (fun gg => { gg with is_active := false, updated_at := now }))
      = { db with
          orders := db.orders.map (fun o =>
            if o.group_buy_id == g.id then { o with status := .cancelled } else o),
          groups := db.groups.map (fun g2 =>
            if g2.id == g.id then { g2 with is_active := false, updated_at := now }
            else g2) } := by
      show setGroup ((get_orders_by_group db g.id).foldl (fun a o =>
          setOrder a o.id (fun od => { od with status := .cancelled })) db) g.id
          (fun gg => { gg with is_active := false, updated_at := now }) = _
      rw [foldl_setOrder_orders_eq (fun od => { od with status := .cancelled })
        (fun o => rfl) (get_orders_by_group db g.id) hsubO db]
      rw [setGroup_eq_map]
      refine congrArg₂ (fun a b => { db with orders := a, groups := b }) ?_ rfl
      apply List.map_congr_left
      intro o ho
      rw [show get_orders_by_group db g.id
        = db.orders.filter (fun o => o.group_buy_id == g.id) from rfl]
      by_cases hc : o.group_buy_id == g.id
      · rw [if_pos ((mem_filter_ids_iff db hO _ o ho).mpr hc), if_pos hc]
      · rw [if_neg (fun hmem => hc ((mem_filter_ids_iff db hO _ o ho).mp hmem)),
          if_neg hc]
    rw [hstep]
    rw [sweepFold_eq now rest _ (by
      exact (map_ids_of_id_preserving (fun o =>
        if o.group_buy_id == g.id then { o with status := OrderStatus.cancelled } else o)
        (fun o => by
          show ((if o.group_buy_id == g.id
            then ({ o with status := OrderStatus.cancelled } : Order) else o) : Order).id
            = o.id
          split <;> rfl) db.orders).symm ▸ hO)]
    refine congrArg₂ (fun a b => { db with orders := a, groups := b }) ?_ ?_
    · rw [List.map_map]
      apply List.map_congr_left
      intro o _
      show (if ((if o.group_buy_id == g.id
            then { o with status := OrderStatus.cancelled } else o) : Order).group_buy_id
            ∈ rest.map GroupBuy.id
          then { (if o.group_buy_id == g.id
            then { o with status := OrderStatus.cancelled } else o) with
              status := OrderStatus.cancelled }
          else (if o.group_buy_id == g.id
            then { o with status := OrderStatus.cancelled } else o)) = _
      by_cases hc : o.group_buy_id = g.id
      · simp only [beq_iff_eq, if_pos hc]
        have hm : o.group_buy_id ∈ (g :: rest).map GroupBuy.id := by
          rw [hc]
          exact List.mem_cons_self _ _
        rw [if_pos hm]
        split <;> rfl
      · simp only [beq_iff_eq, if_neg hc]
        have hiff : (o.group_buy_id ∈ (g :: rest).map GroupBuy.id)
            ↔ (o.group_buy_id ∈ rest.map GroupBuy.id) := by
          simp only [List.map_cons, List.mem_cons]
          exact or_iff_right hc
        by_cases hm : o.group_buy_id ∈ rest.map GroupBuy.id
        · rw [if_pos hm, if_pos (hiff.mpr hm)]
        · rw [if_neg hm, if_neg (fun h => hm (hiff.mp h))]
    · rw [List.map_map]
      apply List.map_congr_left
      intro g2 _
      show (if ((if g2.id == g.id
            then { g2 with is_active := false, updated_at := now } else g2) : GroupBuy).id
            ∈ rest.map GroupBuy.id
          then { (if g2.id == g.id
            then { g2 with is_active := false, updated_at := now } else g2) with
              is_active := false, updated_at := now }
          else (if g2.id == g.id
            then { g2 with is_active := false, updated_at := now } else g2)) = _
      by_cases hc : g2.id = g.id
      · simp only [beq_iff_eq, if_pos hc]
        have hm : g2.id ∈ (g :: rest).map GroupBuy.id := by
          rw [hc]
          exact List.mem_cons_self _ _
        rw [if_pos hm]
        split <;> rfl
      · simp only [beq_iff_eq, if_neg hc]
        have hiff : (g2.id ∈ (g :: rest).map GroupBuy.id)
            ↔ (g2.id ∈ rest.map GroupBuy.id) := by
          simp only [List.map_cons, List.mem_cons]
          exact or_iff_right hc
        by_cases hm : g2.id ∈ rest.map GroupBuy.id
        · rw [if_pos hm, if_pos (hiff.mpr hm)]
        · rw [if_neg hm, if_neg (fun h => hm (hiff.mp h))]

/-- C8 (amended): the sweep selects exactly the active groups with
`updated_at` older than `now` minus the staleness threshold and
`current_count < target_count`; when at least one group is selected it
cancels every order linked to a selected group, deactivates every selected
group, and then invokes the Rearrangement Engine exactly once on the
resulting store; when nothing is selected it returns the no-op message
*without* invoking the engine. -/
theorem c8_sweep_characterization (db : DB) (now : Nat)
    (hO : (db.orders.map Order.id).Nodup) :
    (∀ g, g ∈ get_expired_groups db (now - expirationSeconds) ↔
      g ∈ db.groups ∧ g.is_active = true ∧ g.updated_at < now - expirationSeconds ∧
        g.current_count < g.target_count) ∧
    ((get_expired_groups db (now - expirationSeconds)).isEmpty = true →
      check_expired_groups db now = Except.ok (db, SweepResult.noExpired)) ∧
    ((get_expired_groups db (now - expirationSeconds)).isEmpty = false →
      check_expired_groups db now
        = (rearrange_incomplete_groups
            { db with
              orders := db.orders.map (fun o =>
                if o.group_buy_id ∈ (get_expired_groups db
                    (now - expirationSeconds)).map GroupBuy.id
                then { o with status := OrderStatus.cancelled } else o),
              groups := db.groups.map (fun g2 =>
                if g2.id ∈ (get_expired_groups db (now - expirationSeconds)).map GroupBuy.id
                then { g2 with is_active := false, updated_at := now } else g2) } now).bind
          (fun r => Except.ok (r.1, SweepResult.swept
            (get_expired_groups db (now - expirationSeconds)).length r.2))) := by
  refine ⟨?_, ?_, ?_⟩
  · intro g
    simp only [get_expired_groups, List.mem_filter, Bool.and_eq_true, decide_eq_true_eq]
    constructor
    · rintro ⟨h1, ⟨h2, h3⟩, h4⟩
      exact ⟨h1, h2, h3, h4⟩
    · rintro ⟨h1, h2, h3, h4⟩
      exact ⟨h1, ⟨h2, h3⟩, h4⟩
  · intro h
    unfold check_expired_groups
    simp [h, pure, Except.pure]
  · intro h
    unfold check_expired_groups
    simp only [h, Bool.false_eq_true, if_false]
    rw [sweepFold_eq now (get_expired_groups db (now - expirationSeconds)) db hO]
    cases hrr : rearrange_incomplete_groups
        { db with
          orders := db.orders.map (fun o =>
            if o.group_buy_id ∈ (get_expired_groups db
                (now - expirationSeconds)).map GroupBuy.id
            then { o with status := OrderStatus.cancelled } else o),
          groups := db.groups.map (fun g2 =>
            if g2.id ∈ (get_expired_groups db (now - expirationSeconds)).map GroupBuy.id
            then { g2 with is_active := false, updated_at := now } else g2) } now with
    | error e => rfl
    | ok r => rfl

/-- The amended C8 statement at a concrete stale store: both fresh-looking
groups of `c8DB` are stale relative to `now = expirationSeconds + 10`, so
the sweep cancels their orders, deactivates them and hands the result to
the Rearrangement Engine once. -/
theorem c8_sweep_characterization_witness :
    (get_expired_groups c8DB (expirationSeconds + 10 - expirationSeconds)).isEmpty
      = false ∧
    check_expired_groups c8DB (expirationSeconds + 10)
      = (rearrange_incomplete_groups
          { c8DB with
            orders := c8DB.orders.map (fun o =>
              if o.group_buy_id ∈ (get_expired_groups c8DB
                  (expirationSeconds + 10 - expirationSeconds)).map GroupBuy.id
              then { o with status := OrderStatus.cancelled } else o),
            groups := c8DB.groups.map (fun g2 =>
              if g2.id ∈ (get_expired_groups c8DB
                  (expirationSeconds + 10 - expirationSeconds)).map GroupBuy.id
              then { g2 with is_active := false, updated_at := expirationSeconds + 10 }
              else g2) } (expirationSeconds + 10)).bind
        (fun r => Except.ok (r.1, SweepResult.swept
          (get_expired_groups c8DB
            (expirationSeconds + 10 - expirationSeconds)).length r.2)) :=
  ⟨by decide,
    (c8_sweep_characterization c8DB (expirationSeconds + 10) (by decide)).2.2 (by decide)⟩

/-- C7 (amended): an order's `discount_price` is written only by an
operation that, in that same call, places the order in a group it
completes: `process_new_order` changes a stored order's `discount_price`
only when it returns the completed result for that order's group — the
order is confirmed at `unit_price * (1 - d/100)` and its group ends
inactive with `target_count ≤ current_count` — and
`rearrange_incomplete_groups` changes it only by confirming the order into
one of the new full groups it creates inactive in the same run. (The value
is *not* write-once: completion can recur on the same group, see the
accompanying counterexample.) -/
theorem c7_discount_assignment :
    (∀ (db : DB) (oid now : Nat) (db' : DB) (res : ProcessResult),
      (db.orders.map Order.id).Nodup →
      process_new_order db oid now = Except.ok (db', res) →
      ∀ j o o', get_order db j = some o → get_order db' j = some o' →
        o'.discount_price ≠ o.discount_price →
        ∃ gid d, res = ProcessResult.completed gid d ∧ o.group_buy_id = gid ∧
          o' = { o with
            status := OrderStatus.confirmed,
            discount_price := some (o.unit_price * (1 - d / 100)) } ∧
          ∃ g', get_group_buy db' gid = some g' ∧ g'.is_active = false ∧
            g'.target_count ≤ g'.current_count) ∧
    (∀ (db : DB) (now : Nat) (db' : DB) (res : RearrangeResult),
      (db.groups.map GroupBuy.id).Nodup →
      (db.orders.map Order.id).Nodup →
      (∀ g ∈ db.groups, g.id < db.nextGroupId) →
      (∀ q ∈ rearrangePids db, ∃ p', get_product db q = some p') →
      (∀ p' ∈ db.products, 1 ≤ p'.min_group_size) →
      rearrange_incomplete_groups db now = Except.ok (db', res) →
      ∀ j o o', get_order db j = some o → get_order db' j = some o' →
        o'.discount_price ≠ o.discount_price →
        ∃ pid p base i, get_product db pid = some p ∧
          o' = { o with
            group_buy_id := base + i,
            status := OrderStatus.confirmed,
            discount_price := some (o.unit_price
              * (1 - get_discount_percentage p p.min_group_size / 100)) } ∧
          get_group_buy db' (base + i) = some
            { id := base + i, product_id := pid, current_count := p.min_group_size,
              target_count := p.min_group_size, is_active := false,
              updated_at := now }) := by
  constructor
  · intro db oid now db' res hO hrun j o o' ho ho' hne
    unfold process_new_order at hrun
    cases hoid : get_order db oid with
    | none =>
      rw [hoid] at hrun
      simp only [pure, Except.pure] at hrun
      rw [Except.ok.injEq, Prod.mk.injEq] at hrun
      obtain ⟨hdb, -⟩ := hrun
      subst hdb
      exact absurd (congrArg Order.discount_price
        (Option.some.inj (ho.symm.trans ho').symm)) hne
    | some order =>
      rw [hoid] at hrun
      simp only [bind, Except.bind, pure, Except.pure] at hrun
      cases hgb : get_group_buy db order.group_buy_id with
      | none =>
        rw [hgb] at hrun
        simp only [throw, throwThe, MonadExceptOf.throw] at hrun
        exact Except.noConfusion hrun
      | some gb =>
        rw [hgb] at hrun
        simp only [] at hrun
        cases hp : get_product db gb.product_id with
        | none =>
          rw [hp] at hrun
          simp only [throw, throwThe, MonadExceptOf.throw] at hrun
          exact Except.noConfusion hrun
        | some p =>
          rw [hp] at hrun
          simp only [] at hrun
          by_cases hcomp : gb.current_count + 1 ≥ gb.target_count
          · rw [if_pos hcomp] at hrun
            rw [Except.ok.injEq, Prod.mk.injEq] at hrun
            obtain ⟨hdb, hres⟩ := hrun
            have hgbid : gb.id = order.group_buy_id := by
              simpa using List.find?_some hgb
            have homem : o ∈ db.orders := List.mem_of_find?_eq_some ho
            have hfin : ((get_orders_by_group
                (setGroup (setGroup db gb.id (fun g =>
                  { g with current_count := g.current_count + 1, updated_at := now }))
                  gb.id (fun g => { g with is_active := false })) gb.id).map
                Order.id).Nodup :=
              List.Nodup.sublist ((List.filter_sublist _).map Order.id) hO
            rw [← hdb] at ho'
            rw [foldl_setOrder_orders_eq (fun od =>
                { od with
                  discount_price := some (od.unit_price
                    * (1 - get_discount_percentage p (gb.current_count + 1) / 100)),
                  status := .confirmed }) (fun o2 => rfl) _ hfin _] at ho'
            rw [get_order_map _ _ (fun o2 => by
              show ((if o2.id ∈ _ then _ else o2) : Order).id = o2.id
              split <;> rfl)] at ho'
            rw [show get_order (setGroup (setGroup db gb.id (fun g =>
                { g with current_count := g.current_count + 1, updated_at := now }))
                gb.id (fun g => { g with is_active := false })) j = get_order db j
              from rfl, ho] at ho'
            simp only [Option.map_some'] at ho'
            by_cases hmem : o.id ∈ (get_orders_by_group (setGroup (setGroup db gb.id
                (fun g =>
                  { g with current_count := g.current_count + 1, updated_at := now }))
                gb.id (fun g => { g with is_active := false })) gb.id).map Order.id
            · have hlink : (o.group_buy_id == gb.id) = true :=
                (mem_filter_ids_iff db hO _ o homem).mp hmem
              refine ⟨gb.id, get_discount_percentage p (gb.current_count + 1),
                hres.symm, beq_iff_eq.mp hlink, ?_, ?_⟩
              · rw [← Option.some.inj ho', if_pos hmem]
              · refine ⟨{ gb with
                    current_count := gb.current_count + 1,
                    updated_at := now,
                    is_active := false }, ?_, rfl, by
                      show gb.target_count ≤ gb.current_count + 1
                      omega⟩
                rw [← hdb]
                rw [show get_group_buy ((get_orders_by_group (setGroup (setGroup db gb.id
                    (fun g =>
                      { g with current_count := g.current_count + 1, updated_at := now }))
                      gb.id (fun g =>
                      { g with is_active := false })) gb.id).foldl (fun acc o2 =>
                    setOrder acc o2.id (fun od =>
                      { od with
                        discount_price := some (od.unit_price
                          * (1 - get_discount_percentage p (gb.current_count + 1) / 100)),
                        status := .confirmed }))
                    (setGroup (setGroup db gb.id (fun g =>
                      { g with current_count := g.current_count + 1, updated_at := now }))
                      gb.id (fun g => { g with is_active := false }))) gb.id
                  = get_group_buy (setGroup (setGroup db gb.id (fun g =>
                      { g with current_count := g.current_count + 1, updated_at := now }))
                      gb.id (fun g => { g with is_active := false })) gb.id from by
                  rw [foldl_setOrder_orders_eq (fun od =>
                      { od with
                        discount_price := some (od.unit_price
                          * (1 - get_discount_percentage p (gb.current_count + 1) / 100)),
                        status := .confirmed }) (fun o2 => rfl) _ hfin _]
                  rfl]
                rw [setGroup_eq_map, setGroup_eq_map]
                rw [get_group_buy_map _ _ (fun g => by
                  show ((if g.id == gb.id then _ else g) : GroupBuy).id = g.id
                  split <;> rfl)]
                rw [get_group_buy_map _ _ (fun g => by
                  show ((if g.id == gb.id then _ else g) : GroupBuy).id = g.id
                  split <;> rfl)]
                rw [hgbid, hgb]
                simp [hgbid]
            · rw [if_neg hmem] at ho'
              exact absurd (congrArg Order.discount_price (Option.some.inj ho'.symm)) hne
          · rw [if_neg hcomp] at hrun
            rw [Except.ok.injEq, Prod.mk.injEq] at hrun
            obtain ⟨hdb, -⟩ := hrun
            rw [← hdb] at ho'
            rw [show get_order (setGroup db gb.id (fun g =>
                { g with current_count := g.current_count + 1, updated_at := now })) j
              = get_order db j from rfl, ho] at ho'
            exact absurd (congrArg Order.discount_price (Option.some.inj ho'.symm)) hne
  · intro db now db' res hG hO hfresh hFK hmin hrun j o o' ho ho' hne
    by_cases hemp : (get_incomplete_groups db).isEmpty
    · rw [rearrange_incomplete_groups_empty db now hemp] at hrun
      rw [Except.ok.injEq, Prod.mk.injEq] at hrun
      obtain ⟨hdb, -⟩ := hrun
      subst hdb
      exact absurd (congrArg Order.discount_price
        (Option.some.inj (ho.symm.trans ho').symm)) hne
    · obtain ⟨db'', outs, hrun2, -, -, -, -, -, -, hFRO, hEff, -, -, -⟩ :=
        rearrange_run_spec db now hG hO hfresh hFK hmin (Bool.eq_false_iff.mpr hemp)
      rw [hrun] at hrun2
      rw [Except.ok.injEq, Prod.mk.injEq] at hrun2
      obtain ⟨hdb, -⟩ := hrun2
      subst hdb
      by_cases hj : ∃ pid ∈ rearrangePids db, j ∈ (productL db pid).map Order.id
      · obtain ⟨pid, hpid, hjmem⟩ := hj
        obtain ⟨p, hp⟩ := hFK pid hpid
        obtain ⟨ox, hoxL, hoxid⟩ := List.mem_map.mp hjmem
        have homem : o ∈ db.orders := List.mem_of_find?_eq_some ho
        have hoid : o.id = j := by simpa using List.find?_some ho
        have hoxdb : ox ∈ db.orders := ((mem_productL db pid ox).mp hoxL).1
        have hoeq : ox = o :=
          List.inj_on_of_nodup_map hO hoxdb homem (hoxid.trans hoid.symm)
        rw [hoeq] at hoxL
        have heff := hEff pid hpid p hp
        by_cases hfull : 0 < (productL db pid).length / p.min_group_size
        · obtain ⟨base, hbase, hG1, hG2, hG3, hO1, hO2⟩ := heff.2 hfull
          have hmul : (productL db pid).length / p.min_group_size * p.min_group_size
              ≤ (productL db pid).length := Nat.div_mul_le_self _ _
          have hn1 : 1 ≤ p.min_group_size := by
            by_contra hc
            have : p.min_group_size = 0 := by omega
            rw [this] at hfull
            simp at hfull
          rw [← List.take_append_drop ((productL db pid).length / p.min_group_size
            * p.min_group_size) (productL db pid)] at hoxL
          rcases List.mem_append.mp hoxL with htk | hdr
          · obtain ⟨i, hif, hchunk⟩ :=
              mem_take_chunks (productL db pid) p.min_group_size
                ((productL db pid).length / p.min_group_size) hn1 hmul o htk
            have := hO1 i hif o hchunk
            rw [hoid] at this
            rw [this] at ho'
            refine ⟨pid, p, base, i, hp, Option.some.inj ho'.symm, hG1 i hif⟩
          · have := hO2 o hdr
            rw [hoid] at this
            rw [this] at ho'
            exact absurd (congrArg Order.discount_price (Option.some.inj ho'.symm)) hne
        · have hzero : (productL db pid).length / p.min_group_size = 0 :=
            Nat.le_zero.mp (Nat.not_lt.mp hfull)
          obtain ⟨-, hOun⟩ := heff.1 hzero
          have := hOun j hjmem
          rw [this, ho] at ho'
          exact absurd (congrArg Order.discount_price (Option.some.inj ho'.symm)) hne
      · push_neg at hj
        have := hFRO j hj
        rw [this, ho] at ho'
        exact absurd (congrArg Order.discount_price (Option.some.inj ho'.symm)) hne

def c7aO (i : Nat) : Order :=
  { id := i, buyer_id := i, group_buy_id := 1, quantity := 1, unit_price := 100,
    discount_price := none, deposit_amount := 10, status := .pending, created_at := i }

/-- A one-short group: processing order 2 completes it. -/
def c7aDB : DB :=
  { products := [{ id := 1, price := 100, min_group_size := 2, discount_percentage := 20,
                   discount_tiers := [] }],
    groups := [{ id := 1, product_id := 1, current_count := 1, target_count := 2,
                 is_active := true, updated_at := 0 }],
    orders := [c7aO 1, c7aO 2],
    nextGroupId := 2, nextOrderId := 3 }

def c7aFinal (i : Nat) : Order :=
  { c7aO i with
    status := .confirmed,
    discount_price := some ((100 : ℚ) * (1 - 20 / 100)) }

def c7aDBend : DB :=
  { products := c7aDB.products,
    groups := [{ id := 1, product_id := 1, current_count := 2, target_count := 2,
                 is_active := false, updated_at := 5 }],
    orders := [c7aFinal 1, c7aFinal 2],
    nextGroupId := 2, nextOrderId := 3 }

/-- The amended C7 statement at the concrete completion run: bystander
order 1's `discount_price` is written by the very call that completes its
group, which ends inactive at full count. -/
theorem c7_discount_assignment_witness :
    ∃ gid d, ProcessResult.completed 1 (20 : ℚ) = ProcessResult.completed gid d ∧
      (c7aO 1).group_buy_id = gid ∧
      c7aFinal 1 = { c7aO 1 with
        status := OrderStatus.confirmed,
        discount_price := some ((c7aO 1).unit_price * (1 - d / 100)) } ∧
      ∃ g', get_group_buy c7aDBend gid = some g' ∧ g'.is_active = false ∧
        g'.target_count ≤ g'.current_count :=
  c7_discount_assignment.1 c7aDB 2 5 c7aDBend (ProcessResult.completed 1 20) (by decide)
    rfl 1 (c7aO 1) (c7aFinal 1) rfl rfl (by simp [c7aFinal, c7aO])

/-! ## The Ledger invariants -/

/-- The store invariants the entry points maintain: a sane catalogue,
duplicate-free fresh primary keys, resolvable group→product references,
active groups strictly below target, and at most one active group per
product. -/
def LedgerInv (db : DB) : Prop :=
  (∀ p ∈ db.products, 1 ≤ p.min_group_size) ∧
  (db.groups.map GroupBuy.id).Nodup ∧
  (∀ g ∈ db.groups, g.id < db.nextGroupId) ∧
  (db.orders.map Order.id).Nodup ∧
  (∀ o ∈ db.orders, o.id < db.nextOrderId) ∧
  (∀ g ∈ db.groups, ∃ p, get_product db g.product_id = some p) ∧
  (∀ g ∈ db.groups, g.is_active = true → g.current_count < g.target_count) ∧
  (∀ g1 ∈ db.groups, ∀ g2 ∈ db.groups, g1.is_active = true → g2.is_active = true →
    g1.product_id = g2.product_id → g1 = g2)

theorem ledger_inv_init (db : DB) (h : InitDB db) : LedgerInv db := by
  obtain ⟨hg, ho, -, hmin⟩ := h
  refine ⟨hmin, ?_, ?_, ?_, ?_, ?_, ?_, ?_⟩
  · rw [hg]
    exact List.Pairwise.nil
  · intro g hgm
    rw [hg] at hgm
    cases hgm
  · rw [ho]
    exact List.Pairwise.nil
  · intro o hom
    rw [ho] at hom
    cases hom
  · intro g hgm
    rw [hg] at hgm
    cases hgm
  · intro g hgm
    rw [hg] at hgm
    cases hgm
  · intro g1 hg1
    rw [hg] at hg1
    cases hg1

/-- `get_or_create_active_group_buy` preserves the Ledger invariants. -/
theorem ledger_inv_getOrCreate (db : DB) (pid now : Nat) (db1 : DB) (g : GroupBuy)
    (hinv : LedgerInv db)
    (h : get_or_create_active_group_buy db pid now = Except.ok (db1, g)) :
    LedgerInv db1 := by
  obtain ⟨hmin, hGN, hGF, hON, hOF, hFK, hAI, hOA⟩ := hinv
  unfold get_or_create_active_group_buy at h
  cases hact : get_active_group_buy db pid with
  | some g0 =>
    rw [hact] at h
    rw [Except.ok.injEq, Prod.mk.injEq] at h
    obtain ⟨hdb, -⟩ := h
    rw [← hdb]
    exact ⟨hmin, hGN, hGF, hON, hOF, hFK, hAI, hOA⟩
  | none =>
    rw [hact] at h
    cases hp : get_product db pid with
    | none =>
      rw [hp] at h
      exact Except.noConfusion h
    | some p =>
      rw [hp] at h
      rw [Except.ok.injEq, Prod.mk.injEq] at h
      obtain ⟨hdb, -⟩ := h
      rw [← hdb]
      have hnoact : ∀ g0 ∈ db.groups,
          ¬(g0.product_id == pid && g0.is_active) = true := by
        rw [← List.find?_eq_none]
        exact hact
      refine ⟨hmin, ?_, ?_, hON, hOF, ?_, ?_, ?_⟩
      · show ((db.groups ++ [_]).map GroupBuy.id).Nodup
        rw [List.map_append, List.nodup_append]
        refine ⟨hGN, by simp, ?_⟩
        intro x hx hx2
        obtain ⟨g0, hg0, rfl⟩ := List.mem_map.mp hx
        have h1 := hGF g0 hg0
        simp at hx2
        omega
      · intro g0 hg0
        show g0.id < db.nextGroupId + 1
        rcases List.mem_append.mp hg0 with h1 | h2
        · exact lt_trans (hGF g0 h1) (Nat.lt_succ_self _)
        · rw [List.mem_singleton] at h2
          subst h2
          exact Nat.lt_succ_self _
      · intro g0 hg0
        rcases List.mem_append.mp hg0 with h1 | h2
        · exact hFK g0 h1
        · rw [List.mem_singleton] at h2
          subst h2
          exact ⟨p, hp⟩
      · intro g0 hg0 hact0
        rcases List.mem_append.mp hg0 with h1 | h2
        · exact hAI g0 h1 hact0
        · rw [List.mem_singleton] at h2
          subst h2
          show 0 < p.min_group_size
          exact hmin p (List.mem_of_find?_eq_some hp)
      · intro g1 hg1 g2 hg2 ha1 ha2 hprod
        rcases List.mem_append.mp hg1 with h1 | h1 <;>
          rcases List.mem_append.mp hg2 with h2 | h2
        · exact hOA g1 h1 g2 h2 ha1 ha2 hprod
        · rw [List.mem_singleton] at h2
          subst h2
          exact absurd (by simp [ha1, hprod]) (hnoact g1 h1)
        · rw [List.mem_singleton] at h1
          subst h1
          exact absurd (by
            simp only [Bool.and_eq_true, beq_iff_eq]
            exact ⟨hprod.symm ▸ rfl, ha2⟩) (hnoact g2 h2)
        · rw [List.mem_singleton] at h1
          rw [List.mem_singleton] at h2
          rw [h1, h2]

/-- `create_order` with a fresh-id row preserves the Ledger invariants. -/
theorem ledger_inv_createOrder (db : DB) (f : Nat → Order)
    (hf : ∀ i, (f i).id = i) (hinv : LedgerInv db) : LedgerInv (create_order db f).1 := by
  obtain ⟨hmin, hGN, hGF, hON, hOF, hFK, hAI, hOA⟩ := hinv
  refine ⟨hmin, hGN, hGF, ?_, ?_, hFK, hAI, hOA⟩
  · show ((db.orders ++ [f db.nextOrderId]).map Order.id).Nodup
    rw [List.map_append, List.nodup_append]
    refine ⟨hON, by simp, ?_⟩
    intro x hx hx2
    obtain ⟨o, ho, rfl⟩ := List.mem_map.mp hx
    have h1 := hOF o ho
    simp [hf] at hx2
    omega
  · intro o ho
    rcases List.mem_append.mp ho with h1 | h2
    · exact lt_trans (hOF o h1) (Nat.lt_succ_self _)
    · rw [List.mem_singleton] at h2
      subst h2
      show (f db.nextOrderId).id < db.nextOrderId + 1
      rw [hf]
      exact Nat.lt_succ_self _

/-- The image of a group table under an id-, product- and (up to
deactivation) activity-preserving pointwise map keeps the Ledger invariants. -/
theorem ledger_inv_group_map (db : DB) (m : GroupBuy → GroupBuy)
    (hid : ∀ g, (m g).id = g.id)
    (hprod : ∀ g, (m g).product_id = g.product_id)
    (hact : ∀ g ∈ db.groups, (m g).is_active = true → m g = g ∨
      ((m g).current_count < (m g).target_count ∧ g.is_active = true))
    (hinv : LedgerInv db) :
    LedgerInv { db with groups := db.groups.map m } := by
  obtain ⟨hmin, hGN, hGF, hON, hOF, hFK, hAI, hOA⟩ := hinv
  refine ⟨hmin, ?_, ?_, hON, hOF, ?_, ?_, ?_⟩
  · show ((db.groups.map m).map GroupBuy.id).Nodup
    rw [map_gids_of_id_preserving m hid]
    exact hGN
  · intro g hg
    obtain ⟨g0, hg0, rfl⟩ := List.mem_map.mp hg
    show (m g0).id < db.nextGroupId
    rw [hid]
    exact hGF g0 hg0
  · intro g hg
    obtain ⟨g0, hg0, rfl⟩ := List.mem_map.mp hg
    obtain ⟨p, hp⟩ := hFK g0 hg0
    exact ⟨p, by rw [hprod]; exact hp⟩
  · intro g hg ha
    obtain ⟨g0, hg0, rfl⟩ := List.mem_map.mp hg
    rcases hact g0 hg0 ha with heq | ⟨hlt, -⟩
    · rw [heq] at ha ⊢
      exact hAI g0 hg0 ha
    · exact hlt
  · intro g1 hg1 g2 hg2 ha1 ha2 hprod12
    obtain ⟨g01, hg01, rfl⟩ := List.mem_map.mp hg1
    obtain ⟨g02, hg02, rfl⟩ := List.mem_map.mp hg2
    have hb1 : g01.is_active = true := by
      rcases hact g01 hg01 ha1 with heq | ⟨-, hb⟩
      · rw [← heq]; exact ha1
      · exact hb
    have hb2 : g02.is_active = true := by
      rcases hact g02 hg02 ha2 with heq | ⟨-, hb⟩
      · rw [← heq]; exact ha2
      · exact hb
    have h12 : g01 = g02 := by
      apply hOA g01 hg01 g02 hg02 hb1 hb2
      rw [← hprod g01, ← hprod g02]
      exact hprod12
    rw [h12]

/-- The image of an order table under an id-preserving pointwise map keeps
the Ledger invariants. -/
theorem ledger_inv_order_map (db : DB) (F : Order → Order)
    (hid : ∀ o, (F o).id = o.id) (hinv : LedgerInv db) :
    LedgerInv { db with orders := db.orders.map F } := by
  obtain ⟨hmin, hGN, hGF, hON, hOF, hFK, hAI, hOA⟩ := hinv
  refine ⟨hmin, hGN, hGF, ?_, ?_, hFK, hAI, hOA⟩
  · show ((db.orders.map F).map Order.id).Nodup
    rw [map_ids_of_id_preserving F hid]
    exact hON
  · intro o ho
    obtain ⟨o0, ho0, rfl⟩ := List.mem_map.mp ho
    show (F o0).id < db.nextOrderId
    rw [hid]
    exact hOF o0 ho0

/-- `process_new_order` preserves the Ledger invariants. -/
theorem ledger_inv_processOrder (db : DB) (oid now : Nat) (db' : DB) (res : ProcessResult)
    (hinv : LedgerInv db)
    (hrun : process_new_order db oid now = Except.ok (db', res)) : LedgerInv db' := by
  unfold process_new_order at hrun
  cases hoid : get_order db oid with
  | none =>
    rw [hoid] at hrun
    simp only [pure, Except.pure] at hrun
    rw [Except.ok.injEq, Prod.mk.injEq] at hrun
    obtain ⟨hdb, -⟩ := hrun
    rw [← hdb]
    exact hinv
  | some order =>
    rw [hoid] at hrun
    simp only [bind, Except.bind, pure, Except.pure] at hrun
    cases hgb : get_group_buy db order.group_buy_id with
    | none =>
      rw [hgb] at hrun
      simp only [throw, throwThe, MonadExceptOf.throw] at hrun
      exact Except.noConfusion hrun
    | some gb =>
      rw [hgb] at hrun
      simp only [] at hrun
      cases hp : get_product db gb.product_id with
      | none =>
        rw [hp] at hrun
        simp only [throw, throwThe, MonadExceptOf.throw] at hrun
        exact Except.noConfusion hrun
      | some p =>
        rw [hp] at hrun
        simp only [] at hrun
        have hgbmem : gb ∈ db.groups := List.mem_of_find?_eq_some hgb
        by_cases hcomp : gb.current_count + 1 ≥ gb.target_count
        · rw [if_pos hcomp] at hrun
          rw [Except.ok.injEq, Prod.mk.injEq] at hrun
          obtain ⟨hdb, -⟩ := hrun
          rw [← hdb]
          have hfin : ((get_orders_by_group
              (setGroup (setGroup db gb.id (fun g =>
                { g with current_count := g.current_count + 1, updated_at := now }))
                gb.id (fun g => { g with is_active := false })) gb.id).map
              Order.id).Nodup := by
            obtain ⟨-, -, -, hON, -, -, -, -⟩ := hinv
            exact List.Nodup.sublist ((List.filter_sublist _).map Order.id) hON
          rw [foldl_setOrder_orders_eq (fun od =>
              { od with
                discount_price := some (od.unit_price
                  * (1 - get_discount_percentage p (gb.current_count + 1) / 100)),
                status := .confirmed }) (fun o2 => rfl) _ hfin _]
          rw [setGroup_eq_map, setGroup_eq_map]
          show LedgerInv { db with
            groups := (db.groups.map (fun g => if g.id == gb.id then
                { g with current_count := g.current_count + 1, updated_at := now }
              else g)).map (fun g => if g.id == gb.id then
                { g with is_active := false } else g),
            orders := db.orders.map (fun o =>
              if o.id ∈ ((setGroup (setGroup db gb.id (fun g =>
                  { g with current_count := g.current_count + 1, updated_at := now }))
                  gb.id (fun g => { g with is_active := false })).orders.filter
                  (fun o2 => o2.group_buy_id == gb.id)).map Order.id
              then { o with
                discount_price := some (o.unit_price
                  * (1 - get_discount_percentage p (gb.current_count + 1) / 100)),
                status := .confirmed } else o) }
          rw [List.map_map]
          exact ledger_inv_order_map
            { db with groups := db.groups.map ((fun g : GroupBuy =>
                if g.id == gb.id then { g with is_active := false } else g)
              ∘ (fun g : GroupBuy => if g.id == gb.id then
                { g with current_count := g.current_count + 1, updated_at := now }
                else g)) }
            (fun o => if o.id ∈ ((setGroup (setGroup db gb.id (fun g =>
                { g with current_count := g.current_count + 1, updated_at := now }))
                gb.id (fun g => { g with is_active := false })).orders.filter
                (fun o2 => o2.group_buy_id == gb.id)).map Order.id
              then { o with
                discount_price := some (o.unit_price
                  * (1 - get_discount_percentage p (gb.current_count + 1) / 100)),
                status := .confirmed } else o)
            (fun o => by
              show ((if o.id ∈ _ then _ else o) : Order).id = o.id
              split <;> rfl)
            (ledger_inv_group_map db
              ((fun g : GroupBuy => if g.id == gb.id then
                  { g with is_active := false } else g)
                ∘ (fun g : GroupBuy => if g.id == gb.id then
                  { g with current_count := g.current_count + 1, updated_at := now }
                  else g))
              (fun g => by
                simp only [Function.comp]
                by_cases hc : (g.id == gb.id) = true <;> simp [hc])
              (fun g => by
                simp only [Function.comp]
                by_cases hc : (g.id == gb.id) = true <;> simp [hc])
              (fun g hg ha => by
                simp only [Function.comp] at ha ⊢
                by_cases hc : (g.id == gb.id) = true
                · simp [hc] at ha
                · left
                  simp [hc])
              hinv)
        · rw [if_neg hcomp] at hrun
          rw [Except.ok.injEq, Prod.mk.injEq] at hrun
          obtain ⟨hdb, -⟩ := hrun
          rw [← hdb]
          rw [setGroup_eq_map]
          apply ledger_inv_group_map db _ (fun g => by split <;> rfl)
            (fun g => by split <;> rfl) ?_ hinv
          intro g hg ha
          by_cases hc : (g.id == gb.id) = true
          · right
            rw [if_pos hc] at ha ⊢
            obtain ⟨-, hGN, -, -, -, -, -, -⟩ := hinv
            have hgeq : g = gb :=
              List.inj_on_of_nodup_map hGN hg hgbmem (beq_iff_eq.mp hc)
            subst hgeq
            exact ⟨by show g.current_count + 1 < g.target_count; omega, ha⟩
          · left
            rw [if_neg hc]

theorem mem_of_length_le_one {α : Type _} (l : List α) (h : l.length ≤ 1) (a b : α)
    (ha : a ∈ l) (hb : b ∈ l) : a = b := by
  cases l with
  | nil => cases ha
  | cons x xs =>
    cases xs with
    | nil =>
      rw [List.mem_singleton] at ha hb
      rw [ha, hb]
    | cons y ys => simp at h

/-- `rearrange_incomplete_groups` preserves the Ledger invariants. -/
theorem ledger_inv_rearrange (db : DB) (now : Nat) (pr : DB × RearrangeResult)
    (hinv : LedgerInv db)
    (hrun : rearrange_incomplete_groups db now = Except.ok pr) : LedgerInv pr.1 := by
  obtain ⟨hmin, hGN, hGF, hON, hOF, hFK, hAI, hOA⟩ := hinv
  by_cases hemp : (get_incomplete_groups db).isEmpty
  · rw [rearrange_incomplete_groups_empty db now hemp] at hrun
    rw [Except.ok.injEq] at hrun
    rw [← hrun]
    exact ⟨hmin, hGN, hGF, hON, hOF, hFK, hAI, hOA⟩
  · have hFK2 : ∀ pid ∈ rearrangePids db, ∃ p, get_product db pid = some p := by
      intro pid hpid
      rw [mem_rearrangePids] at hpid
      obtain ⟨g, hg, rfl⟩ := List.mem_map.mp hpid
      exact hFK g (List.mem_of_mem_filter hg)
    obtain ⟨db', outs, hrun2, hP1, hP2, hP3, hP4, hP5, hFRG, hFRO, hEff, hFO, hNews,
        hGN'⟩ :=
      rearrange_run_spec db now hGN hON hGF hFK2 hmin (Bool.eq_false_iff.mpr hemp)
    rw [hrun] at hrun2
    rw [Except.ok.injEq] at hrun2
    rw [hrun2]
    have hgp : ∀ x, get_product db' x = get_product db x := by
      intro x
      show db'.products.find? _ = db.products.find? _
      rw [hP1]
    obtain ⟨news, hgdec, hn2, hn3⟩ := hNews
    have hmappedActive : ∀ g ∈ db'.groups, g.is_active = true →
        (g ∈ db.groups ∧ g.id ∉ (((rearrangePids db).filter
          (fun q => 0 < productFull db q)).map (fun q => productGids db q)).flatten)
        ∨ g ∈ news := by
      intro g hg ha
      rw [hgdec] at hg
      rcases List.mem_append.mp hg with h1 | h2
      · obtain ⟨g0, hg0, heq⟩ := List.mem_map.mp h1
        left
        by_cases hc : g0.id ∈ (((rearrangePids db).filter
            (fun q => 0 < productFull db q)).map (fun q => productGids db q)).flatten
        · rw [if_pos hc] at heq
          rw [← heq] at ha
          simp at ha
        · rw [if_neg hc] at heq
          rw [← heq]
          exact ⟨hg0, hc⟩
      · right
        exact h2
    refine ⟨?_, hGN', hP4, ?_, ?_, ?_, ?_, ?_⟩
    · intro p hp
      rw [hP1] at hp
      exact hmin p hp
    · rw [hP5]
      exact hON
    · intro o ho
      have h1 : o.id ∈ db'.orders.map Order.id := List.mem_map_of_mem _ ho
      rw [hP5] at h1
      obtain ⟨o0, ho0, hid⟩ := List.mem_map.mp h1
      rw [hP2, ← hid]
      exact hOF o0 ho0
    · intro g hg
      rw [hgdec] at hg
      rcases List.mem_append.mp hg with h1 | h2
      · obtain ⟨g0, hg0, heq⟩ := List.mem_map.mp h1
        obtain ⟨p, hp⟩ := hFK g0 hg0
        refine ⟨p, ?_⟩
        rw [hgp]
        rw [show g.product_id = g0.product_id from by rw [← heq]; split <;> rfl]
        exact hp
      · obtain ⟨-, hb, -, -, -⟩ := hn2 g h2
        obtain ⟨p, hp⟩ := hFK2 g.product_id hb
        exact ⟨p, by rw [hgp]; exact hp⟩
    · intro g hg ha
      rcases hmappedActive g hg ha with ⟨hg0, -⟩ | hnews
      · exact hAI g hg0 ha
      · obtain ⟨-, -, -, hd, -⟩ := hn2 g hnews
        exact hd ha
    · intro g1 hg1 g2 hg2 ha1 ha2 hprod
      have hactFlat : ∀ g0 ∈ db.groups, g0.is_active = true →
          0 < productFull db g0.product_id →
          g0.id ∈ (((rearrangePids db).filter
            (fun q => 0 < productFull db q)).map (fun q => productGids db q)).flatten := by
        intro g0 hg0 ha0 hfull0
        have hinc : g0 ∈ get_incomplete_groups db :=
          List.mem_filter.mpr ⟨hg0, by simp [ha0, hAI g0 hg0 ha0]⟩
        have hpid : g0.product_id ∈ rearrangePids db :=
          (mem_rearrangePids db _).mpr (List.mem_map_of_mem _ hinc)
        refine List.mem_flatten.mpr ⟨productGids db g0.product_id, ?_, ?_⟩
        · exact List.mem_map_of_mem _ (List.mem_filter.mpr ⟨hpid, by simp [hfull0]⟩)
        · exact (productGids_mem db _ _).mpr ⟨g0, hg0, rfl, rfl, ha0, hAI g0 hg0 ha0⟩
      rcases hmappedActive g1 hg1 ha1 with ⟨hm1, hc1⟩ | hn1 <;>
        rcases hmappedActive g2 hg2 ha2 with ⟨hm2, hc2⟩ | hn2'
      · exact hOA g1 hm1 g2 hm2 ha1 ha2 hprod
      · obtain ⟨-, -, hfull2, -, -⟩ := hn2 g2 hn2'
        exact absurd (hactFlat g1 hm1 ha1 (by rw [hprod]; exact hfull2)) hc1
      · obtain ⟨-, -, hfull1, -, -⟩ := hn2 g1 hn1
        exact absurd (hactFlat g2 hm2 ha2 (by rw [← hprod]; exact hfull1)) hc2
      · apply mem_of_length_le_one _ (hn3 g1.product_id)
        · exact List.mem_filter.mpr ⟨hn1, by simp [ha1]⟩
        · exact List.mem_filter.mpr ⟨hn2', by simp [ha2, hprod.symm]⟩

/-- `check_expired_groups` preserves the Ledger invariants. -/
theorem ledger_inv_sweep (db : DB) (now : Nat) (pr : DB × SweepResult)
    (hinv : LedgerInv db)
    (hrun : check_expired_groups db now = Except.ok pr) : LedgerInv pr.1 := by
  unfold check_expired_groups at hrun
  simp only [] at hrun
  by_cases hemp : (get_expired_groups db (now - expirationSeconds)).isEmpty = true
  · rw [if_pos hemp] at hrun
    simp only [pure, Except.pure] at hrun
    rw [Except.ok.injEq] at hrun
    rw [← hrun]
    exact hinv
  · rw [if_neg hemp] at hrun
    have hON : (db.orders.map Order.id).Nodup := hinv.2.2.2.1
    rw [sweepFold_eq now (get_expired_groups db (now - expirationSeconds)) db hON] at hrun
    cases hre : rearrange_incomplete_groups
        { db with
          orders := db.orders.map (fun o =>
            if o.group_buy_id ∈ (get_expired_groups db
                (now - expirationSeconds)).map GroupBuy.id
            then { o with status := .cancelled } else o),
          groups := db.groups.map (fun g2 =>
            if g2.id ∈ (get_expired_groups db (now - expirationSeconds)).map GroupBuy.id
            then { g2 with is_active := false, updated_at := now } else g2) } now with
    | error e =>
      rw [hre] at hrun
      simp only [bind, Except.bind] at hrun
      exact Except.noConfusion hrun
    | ok pr2 =>
      obtain ⟨db2, rr⟩ := pr2
      rw [hre] at hrun
      simp only [bind, Except.bind, pure, Except.pure] at hrun
      rw [Except.ok.injEq] at hrun
      rw [← hrun]
      show LedgerInv db2
      have hinvMapped : LedgerInv
          { db with
            orders := db.orders.map (fun o =>
              if o.group_buy_id ∈ (get_expired_groups db
                  (now - expirationSeconds)).map GroupBuy.id
              then { o with status := .cancelled } else o),
            groups := db.groups.map (fun g2 =>
              if g2.id ∈ (get_expired_groups db (now - expirationSeconds)).map GroupBuy.id
              then { g2 with is_active := false, updated_at := now } else g2) } := by
        exact ledger_inv_order_map
          { db with groups := db.groups.map (fun g2 =>
            if g2.id ∈ (get_expired_groups db (now - expirationSeconds)).map GroupBuy.id
            then { g2 with is_active := false, updated_at := now } else g2) }
          (fun o => if o.group_buy_id ∈ (get_expired_groups db
              (now - expirationSeconds)).map GroupBuy.id
            then { o with status := .cancelled } else o)
          (fun o => by
            show ((if o.group_buy_id ∈ _ then _ else o) : Order).id = o.id
            split <;> rfl)
          (ledger_inv_group_map db
            (fun g2 => if g2.id ∈ (get_expired_groups db
                (now - expirationSeconds)).map GroupBuy.id
              then { g2 with is_active := false, updated_at := now } else g2)
            (fun g => by
              show ((if g.id ∈ _ then _ else g) : GroupBuy).id = g.id
              split <;> rfl)
            (fun g => by
              show ((if g.id ∈ _ then _ else g) : GroupBuy).product_id = g.product_id
              split <;> rfl)
            (fun g hg ha => by
              by_cases hc : g.id ∈ (get_expired_groups db
                  (now - expirationSeconds)).map GroupBuy.id
              · simp [hc] at ha
              · left
                simp [hc])
            hinv)
      exact ledger_inv_rearrange _ now (db2, rr) hinvMapped hre

/-- The join callback (`join_group:` branch) preserves the Ledger
invariants. -/
theorem ledger_inv_join (db : DB) (pid buyer now : Nat) (pr : DB × Nat)
    (hinv : LedgerInv db)
    (hrun : join_group db pid buyer now = Except.ok pr) : LedgerInv pr.1 := by
  unfold join_group at hrun
  simp only [bind, Except.bind, pure, Except.pure] at hrun
  cases hgoc : get_or_create_active_group_buy db pid now with
  | error e =>
    rw [hgoc] at hrun
    exact Except.noConfusion hrun
  | ok pr1 =>
    obtain ⟨db1, g⟩ := pr1
    rw [hgoc] at hrun
    simp only [] at hrun
    cases hp : get_product db1 pid with
    | none =>
      rw [hp] at hrun
      simp only [throw, throwThe, MonadExceptOf.throw] at hrun
      exact Except.noConfusion hrun
    | some p =>
      rw [hp] at hrun
      simp only [] at hrun
      rw [Except.ok.injEq] at hrun
      rw [← hrun]
      exact ledger_inv_createOrder db1
        (fun oid =>
          { id := oid,
            buyer_id := buyer,
            group_buy_id := g.id,
            quantity := 1,
            unit_price := p.price,
            discount_price := none,
            deposit_amount := p.price * (1 / 10),
            status := .pending,
            created_at := now })
        (fun i => rfl)
        (ledger_inv_getOrCreate db pid now db1 g hinv hgoc)

/-- Every successful operation preserves the Ledger invariants. -/
theorem ledger_inv_runOp (db db' : DB) (op : Op) (hinv : LedgerInv db)
    (h : runOp db op = Except.ok db') : LedgerInv db' := by
  cases op with
  | joinCreate pid buyer now =>
    have h2 : (join_group db pid buyer now).map (fun r => r.1) = Except.ok db' := h
    cases hj : join_group db pid buyer now with
    | error e =>
      rw [hj] at h2
      exact Except.noConfusion h2
    | ok pr =>
      rw [hj] at h2
      rw [show (Except.ok pr : Except Err (DB × Nat)).map (fun r => r.1)
        = Except.ok pr.1 from rfl, Except.ok.injEq] at h2
      rw [← h2]
      exact ledger_inv_join db pid buyer now pr hinv hj
  | processOrder oid now =>
    have h2 : (process_new_order db oid now).map (fun r => r.1) = Except.ok db' := h
    cases hj : process_new_order db oid now with
    | error e =>
      rw [hj] at h2
      exact Except.noConfusion h2
    | ok pr =>
      rw [hj] at h2
      rw [show (Except.ok pr : Except Err (DB × ProcessResult)).map (fun r => r.1)
        = Except.ok pr.1 from rfl, Except.ok.injEq] at h2
      rw [← h2]
      exact ledger_inv_processOrder db oid now pr.1 pr.2 hinv (by rw [hj])
  | getOrCreate pid now =>
    have h2 : (get_or_create_active_group_buy db pid now).map (fun r => r.1)
      = Except.ok db' := h
    cases hj : get_or_create_active_group_buy db pid now with
    | error e =>
      rw [hj] at h2
      exact Except.noConfusion h2
    | ok pr =>
      rw [hj] at h2
      rw [show (Except.ok pr : Except Err (DB × GroupBuy)).map (fun r => r.1)
        = Except.ok pr.1 from rfl, Except.ok.injEq] at h2
      rw [← h2]
      exact ledger_inv_getOrCreate db pid now pr.1 pr.2 hinv (by rw [hj])
  | rearrange now =>
    have h2 : (rearrange_incomplete_groups db now).map (fun r => r.1) = Except.ok db' := h
    cases hj : rearrange_incomplete_groups db now with
    | error e =>
      rw [hj] at h2
      exact Except.noConfusion h2
    | ok pr =>
      rw [hj] at h2
      rw [show (Except.ok pr : Except Err (DB × RearrangeResult)).map (fun r => r.1)
        = Except.ok pr.1 from rfl, Except.ok.injEq] at h2
      rw [← h2]
      exact ledger_inv_rearrange db now pr hinv hj
  | sweep now =>
    have h2 : (check_expired_groups db now).map (fun r => r.1) = Except.ok db' := h
    cases hj : check_expired_groups db now with
    | error e =>
      rw [hj] at h2
      exact Except.noConfusion h2
    | ok pr =>
      rw [hj] at h2
      rw [show (Except.ok pr : Except Err (DB × SweepResult)).map (fun r => r.1)
        = Except.ok pr.1 from rfl, Except.ok.injEq] at h2
      rw [← h2]
      exact ledger_inv_sweep db now pr hinv hj

/-- Every reachable store satisfies the Ledger invariants. -/
theorem ledger_inv_reachable (db : DB) (h : Reachable db) : LedgerInv db := by
  induction h with
  | init db0 hi => exact ledger_inv_init db0 hi
  | step db0 db' op hr hop ih => exact ledger_inv_runOp db0 db' op ih hop

/-- C6: in every store reachable by any sequence of successful operations
(joins, deposit processing, bare get-or-creates, rearrangements, sweeps),
at most one active group exists per product; and
`get_or_create_active_group_buy` returns the existing active group
unchanged when one exists, and otherwise inserts exactly one fresh group
with `target_count = min_group_size`, `current_count = 0`,
`is_active = true`. -/
theorem c6_one_active_invariant :
    (∀ db, Reachable db → ∀ g1 ∈ db.groups, ∀ g2 ∈ db.groups,
      g1.is_active = true → g2.is_active = true → g1.product_id = g2.product_id →
      g1 = g2) ∧
    (∀ db pid now g, get_active_group_buy db pid = some g →
      get_or_create_active_group_buy db pid now = Except.ok (db, g)) ∧
    (∀ db pid now p, get_active_group_buy db pid = none →
      get_product db pid = some p →
      get_or_create_active_group_buy db pid now = Except.ok
        ({ db with
            groups := db.groups ++
              [{ id := db.nextGroupId,
                 product_id := pid,
                 current_count := 0,
                 target_count := p.min_group_size,
                 is_active := true,
                 updated_at := now }],
            nextGroupId := db.nextGroupId + 1 },
         { id := db.nextGroupId,
           product_id := pid,
           current_count := 0,
           target_count := p.min_group_size,
           is_active := true,
           updated_at := now })) := by
  refine ⟨?_, ?_, ?_⟩
  · intro db h
    exact (ledger_inv_reachable db h).2.2.2.2.2.2.2
  · intro db pid now g h
    unfold get_or_create_active_group_buy
    rw [h]
  · intro db pid now p hact hp
    unfold get_or_create_active_group_buy
    rw [hact, hp]
    rfl

def c6InitDB : DB :=
  { products := [c2P], groups := [], orders := [], nextGroupId := 1, nextOrderId := 1 }

/-- The C6 statement at concrete stores: the uniqueness holds in an initial
store, and the ledger returns the stored active group of `c8DB`. -/
theorem c6_one_active_invariant_witness :
    (∀ g1 ∈ c6InitDB.groups, ∀ g2 ∈ c6InitDB.groups, g1.is_active = true →
      g2.is_active = true → g1.product_id = g2.product_id → g1 = g2) ∧
    get_or_create_active_group_buy c8DB 1 5 = Except.ok (c8DB,
      { id := 1, product_id := 1, current_count := 1, target_count := 2,
        is_active := true, updated_at := 0 }) :=
  ⟨c6_one_active_invariant.1 c6InitDB
      (Reachable.init c6InitDB ⟨rfl, rfl, by decide, by decide⟩),
    c6_one_active_invariant.2.1 c8DB 1 5
      { id := 1, product_id := 1, current_count := 1, target_count := 2,
        is_active := true, updated_at := 0 } rfl⟩

/-! ## The count invariant (deposit processing atomic with join) -/

def c4DB : DB :=
  { products := [{ id := 1, price := 100, min_group_size := 2, discount_percentage := 20,
                   discount_tiers := [] }],
    groups := [], orders := [], nextGroupId := 1, nextOrderId := 1 }

/-- C4 counterexample: the join callback creates the order but does not
touch `current_count` (`process_new_order` only runs later, at deposit
payment), so right after a join the active group holds one non-cancelled
linked order while its `current_count` is still `0`. -/
theorem c4_counterexample :
    (join_group c4DB 1 7 3).toOption.map (fun r =>
      ((get_group_buy r.1 1).map (fun g => (g.is_active, g.current_count)),
       (r.1.orders.filter (fun o => o.group_buy_id == 1
         && !(o.status == OrderStatus.cancelled))).length))
      = some (some (true, 0), 1) := rfl

/-- The non-cancelled orders linked to a group. -/
def linkedCount (db : DB) (gid : Nat) : Nat :=
  (db.orders.filter (fun o => o.group_buy_id == gid
    && !(o.status == OrderStatus.cancelled))).length

/-- The count invariant bundle: the Ledger invariants, order links below
the group counter, no cancelled order linked to an active group, and every
active group's `current_count` equal to its non-cancelled linked orders. -/
def CountInv (db : DB) : Prop :=
  LedgerInv db ∧
  (∀ o ∈ db.orders, o.group_buy_id < db.nextGroupId) ∧
  (∀ o ∈ db.orders, ∀ g ∈ db.groups, g.id = o.group_buy_id → g.is_active = true →
    o.status ≠ OrderStatus.cancelled) ∧
  (∀ g ∈ db.groups, g.is_active = true → g.current_count = linkedCount db g.id)

theorem count_inv_init (db : DB) (h : InitDB db) : CountInv db := by
  have hL := ledger_inv_init db h
  obtain ⟨hg, ho, -, -⟩ := h
  refine ⟨hL, ?_, ?_, ?_⟩
  · intro o hom
    rw [ho] at hom
    cases hom
  · intro o hom
    rw [ho] at hom
    cases hom
  · intro g hgm
    rw [hg] at hgm
    cases hgm

theorem filter_mem_length {α : Type _} [DecidableEq α] (l s : List α)
    (hl : l.Nodup) (hs : s.Nodup) (hsub : ∀ x ∈ s, x ∈ l) :
    (l.filter (fun x => decide (x ∈ s))).length = s.length := by
  have h1 : (l.filter (fun x => decide (x ∈ s))).Nodup := hl.filter _
  have h2 : (l.filter (fun x => decide (x ∈ s))).Perm s := by
    rw [List.perm_ext_iff_of_nodup h1 hs]
    intro a
    constructor
    · intro ha
      have h3 := List.mem_filter.mp ha
      simpa using h3.2
    · intro ha
      exact List.mem_filter.mpr ⟨hsub a ha, by simpa using ha⟩
  exact h2.length_eq

/-- `get_or_create_active_group_buy` preserves the count invariant. -/
theorem count_inv_getOrCreate (db : DB) (pid now : Nat) (db1 : DB) (g : GroupBuy)
    (hinv : CountInv db)
    (h : get_or_create_active_group_buy db pid now = Except.ok (db1, g)) :
    CountInv db1 := by
  obtain ⟨hL, hLK, hNC, hCNT⟩ := hinv
  have hL1 : LedgerInv db1 := ledger_inv_getOrCreate db pid now db1 g hL h
  unfold get_or_create_active_group_buy at h
  cases hact : get_active_group_buy db pid with
  | some g0 =>
    rw [hact] at h
    rw [Except.ok.injEq, Prod.mk.injEq] at h
    obtain ⟨hdb, -⟩ := h
    rw [← hdb]
    exact ⟨hL, hLK, hNC, hCNT⟩
  | none =>
    rw [hact] at h
    cases hp : get_product db pid with
    | none =>
      rw [hp] at h
      exact Except.noConfusion h
    | some p =>
      rw [hp] at h
      rw [Except.ok.injEq, Prod.mk.injEq] at h
      obtain ⟨hdb, -⟩ := h
      rw [← hdb] at hL1 ⊢
      refine ⟨hL1, ?_, ?_, ?_⟩
      · intro o ho
        exact lt_trans (hLK o ho) (Nat.lt_succ_self _)
      · intro o ho g2 hg2 hid ha
        rcases List.mem_append.mp hg2 with h1 | h2
        · exact hNC o ho g2 h1 hid ha
        · rw [List.mem_singleton] at h2
          subst h2
          have := hLK o ho
          simp at hid
          omega
      · intro g2 hg2 ha
        rcases List.mem_append.mp hg2 with h1 | h2
        · rw [hCNT g2 h1 ha]
          rfl
        · rw [List.mem_singleton] at h2
          subst h2
          show 0 = linkedCount _ db.nextGroupId
          unfold linkedCount
          symm
          rw [List.length_eq_zero, List.filter_eq_nil_iff]
          intro o ho
          have := hLK o ho
          simp only [Bool.and_eq_true, beq_iff_eq, Bool.not_eq_eq_eq_not, Bool.not_true,
            not_and]
          intro he
          omega

/-- The group the ledger hands back is a stored active row. -/
theorem getOrCreate_returns (db : DB) (pid now : Nat) (db1 : DB) (g : GroupBuy)
    (h : get_or_create_active_group_buy db pid now = Except.ok (db1, g)) :
    g ∈ db1.groups ∧ g.is_active = true := by
  unfold get_or_create_active_group_buy at h
  cases hact : get_active_group_buy db pid with
  | some g0 =>
    rw [hact] at h
    rw [Except.ok.injEq, Prod.mk.injEq] at h
    obtain ⟨hdb, hge⟩ := h
    subst hdb
    subst hge
    refine ⟨List.mem_of_find?_eq_some hact, ?_⟩
    have hpred := List.find?_some hact
    exact ((Bool.and_eq_true _ _).mp hpred).2
  | none =>
    rw [hact] at h
    cases hp : get_product db pid with
    | none =>
      rw [hp] at h
      exact Except.noConfusion h
    | some p =>
      rw [hp] at h
      rw [Except.ok.injEq, Prod.mk.injEq] at h
      obtain ⟨hdb, hge⟩ := h
      subst hdb
      subst hge
      exact ⟨List.mem_append.mpr (Or.inr (List.mem_singleton.mpr rfl)), rfl⟩

/-- An atomic join (order creation immediately followed by deposit
processing) preserves the count invariant. -/
theorem count_inv_atomicJoin (db : DB) (pid buyer now oid : Nat) (db1 db' : DB)
    (hinv : CountInv db)
    (hjoin : join_group db pid buyer now = Except.ok (db1, oid))
    (hproc : runOp db1 (Op.processOrder oid now) = Except.ok db') :
    CountInv db' := by
  unfold join_group at hjoin
  simp only [bind, Except.bind, pure, Except.pure] at hjoin
  cases hgoc : get_or_create_active_group_buy db pid now with
  | error e =>
    rw [hgoc] at hjoin
    exact Except.noConfusion hjoin
  | ok pr1 =>
    obtain ⟨dbA, g⟩ := pr1
    rw [hgoc] at hjoin
    simp only [] at hjoin
    cases hp1 : get_product dbA pid with
    | none =>
      rw [hp1] at hjoin
      simp only [throw, throwThe, MonadExceptOf.throw] at hjoin
      exact Except.noConfusion hjoin
    | some p1 =>
      rw [hp1] at hjoin
      simp only [create_order] at hjoin
      rw [Except.ok.injEq, Prod.mk.injEq] at hjoin
      obtain ⟨hdb1, hoid⟩ := hjoin
      subst hdb1
      subst hoid
      have hA : CountInv dbA := count_inv_getOrCreate db pid now dbA g hinv hgoc
      obtain ⟨hLA, hLKA, hNCA, hCNTA⟩ := hA
      obtain ⟨hminA, hGNA, hGFA, hONA, hOFA, hFKA, hAIA, hOAA⟩ := hLA
      obtain ⟨hgmem, hgact⟩ := getOrCreate_returns db pid now dbA g hgoc
      have h2 : (process_new_order
          { dbA with
            orders := dbA.orders ++
              [{ id := dbA.nextOrderId,
                 buyer_id := buyer,
                 group_buy_id := g.id,
                 quantity := 1,
                 unit_price := p1.price,
                 discount_price := none,
                 deposit_amount := p1.price * (1 / 10),
                 status := .pending,
                 created_at := now }],
            nextOrderId := dbA.nextOrderId + 1 } dbA.nextOrderId now).map (fun r => r.1)
          = Except.ok db' := hproc
      cases hpr : process_new_order
          { dbA with
            orders := dbA.orders ++
              [{ id := dbA.nextOrderId,
                 buyer_id := buyer,
                 group_buy_id := g.id,
                 quantity := 1,
                 unit_price := p1.price,
                 discount_price := none,
                 deposit_amount := p1.price * (1 / 10),
                 status := .pending,
                 created_at := now }],
            nextOrderId := dbA.nextOrderId + 1 } dbA.nextOrderId now with
      | error e =>
        rw [hpr] at h2
        exact Except.noConfusion h2
      | ok pr =>
        obtain ⟨dbP, res⟩ := pr
        rw [hpr] at h2
        rw [show (Except.ok ((dbP, res) : DB × ProcessResult)).map (fun r => r.1)
          = Except.ok dbP from rfl, Except.ok.injEq] at h2
        rw [← h2]
        -- facts about the store holding the fresh pending order
        have hON1 : ((dbA.orders ++
            [({ id := dbA.nextOrderId,
                buyer_id := buyer,
                group_buy_id := g.id,
                quantity := 1,
                unit_price := p1.price,
                discount_price := none,
                deposit_amount := p1.price * (1 / 10),
                status := .pending,
                created_at := now } : Order)]).map Order.id).Nodup := by
          rw [List.map_append, List.nodup_append]
          refine ⟨hONA, by simp, ?_⟩
          intro x hx hx2
          obtain ⟨o, ho, rfl⟩ := List.mem_map.mp hx
          have h3 := hOFA o ho
          simp at hx2
          omega
        have hgo : get_order
            { dbA with
              orders := dbA.orders ++
                [{ id := dbA.nextOrderId,
                   buyer_id := buyer,
                   group_buy_id := g.id,
                   quantity := 1,
                   unit_price := p1.price,
                   discount_price := none,
                   deposit_amount := p1.price * (1 / 10),
                   status := .pending,
                   created_at := now }],
              nextOrderId := dbA.nextOrderId + 1 } dbA.nextOrderId
            = some
              { id := dbA.nextOrderId,
                buyer_id := buyer,
                group_buy_id := g.id,
                quantity := 1,
                unit_price := p1.price,
                discount_price := none,
                deposit_amount := p1.price * (1 / 10),
                status := .pending,
                created_at := now } := by
          show (dbA.orders ++ [_]).find? (fun o : Order => o.id == dbA.nextOrderId) = _
          rw [List.find?_append]
          have hleft : dbA.orders.find? (fun o => o.id == dbA.nextOrderId) = none := by
            rw [List.find?_eq_none]
            intro o ho hbe
            have h3 := hOFA o ho
            have h4 := beq_iff_eq.mp hbe
            omega
          rw [hleft, Option.none_or, List.find?_cons]
          have hbe2 : ((
              { id := dbA.nextOrderId,
                buyer_id := buyer,
                group_buy_id := g.id,
                quantity := 1,
                unit_price := p1.price,
                discount_price := none,
                deposit_amount := p1.price * (1 / 10),
                status := .pending,
                created_at := now } : Order).id == dbA.nextOrderId)
              = true := by simp
          rw [hbe2]
        have hggb : get_group_buy
            { dbA with
              orders := dbA.orders ++
                [{ id := dbA.nextOrderId,
                   buyer_id := buyer,
                   group_buy_id := g.id,
                   quantity := 1,
                   unit_price := p1.price,
                   discount_price := none,
                   deposit_amount := p1.price * (1 / 10),
                   status := .pending,
                   created_at := now }],
              nextOrderId := dbA.nextOrderId + 1 }
            (({ id := dbA.nextOrderId,
                buyer_id := buyer,
                group_buy_id := g.id,
                quantity := 1,
                unit_price := p1.price,
                discount_price := none,
                deposit_amount := p1.price * (1 / 10),
                status := .pending,
                created_at := now } : Order).group_buy_id)
            = some g := by
          show dbA.groups.find? (fun g2 => g2.id == g.id) = some g
          exact find?_key_eq_some_of_mem GroupBuy.id dbA.groups hGNA g hgmem
        unfold process_new_order at hpr
        rw [hgo] at hpr
        simp only [bind, Except.bind, pure, Except.pure] at hpr
        rw [hggb] at hpr
        simp only [] at hpr
        cases hp2 : get_product
            { dbA with
              orders := dbA.orders ++
                [{ id := dbA.nextOrderId,
                   buyer_id := buyer,
                   group_buy_id := g.id,
                   quantity := 1,
                   unit_price := p1.price,
                   discount_price := none,
                   deposit_amount := p1.price * (1 / 10),
                   status := .pending,
                   created_at := now }],
              nextOrderId := dbA.nextOrderId + 1 } g.product_id with
        | none =>
          rw [hp2] at hpr
          simp only [throw, throwThe, MonadExceptOf.throw] at hpr
          exact Except.noConfusion hpr
        | some p2 =>
          rw [hp2] at hpr
          simp only [] at hpr
          have hLA2 : LedgerInv dbA := ⟨hminA, hGNA, hGFA, hONA, hOFA, hFKA, hAIA, hOAA⟩
          have hLS : LedgerInv { dbA with
                orders := dbA.orders ++
                  [{ id := dbA.nextOrderId,
                     buyer_id := buyer,
                     group_buy_id := g.id,
                     quantity := 1,
                     unit_price := p1.price,
                     discount_price := none,
                     deposit_amount := p1.price * (1 / 10),
                     status := .pending,
                     created_at := now }],
                nextOrderId := dbA.nextOrderId + 1 } :=
            ledger_inv_createOrder dbA
              (fun oid2 =>
                { id := oid2,
                  buyer_id := buyer,
                  group_buy_id := g.id,
                  quantity := 1,
                  unit_price := p1.price,
                  discount_price := none,
                  deposit_amount := p1.price * (1 / 10),
                  status := .pending,
                  created_at := now })
              (fun i => rfl) hLA2
          by_cases hcomp : g.current_count + 1 ≥ g.target_count
          · rw [if_pos hcomp] at hpr
            rw [Except.ok.injEq, Prod.mk.injEq] at hpr
            obtain ⟨hst, -⟩ := hpr
            rw [← hst]
            have hfin : ((get_orders_by_group
                (setGroup (setGroup { dbA with orders := dbA.orders ++ [({ id := dbA.nextOrderId, buyer_id := buyer, group_buy_id := g.id, quantity := 1, unit_price := p1.price, discount_price := none, deposit_amount := p1.price * (1 / 10), status := OrderStatus.pending, created_at := now } : Order)], nextOrderId := dbA.nextOrderId + 1 } g.id (fun g3 =>
                  { g3 with current_count := g3.current_count + 1, updated_at := now }))
                  g.id (fun g3 => { g3 with is_active := false })) g.id).map
                Order.id).Nodup :=
              List.Nodup.sublist ((List.filter_sublist _).map Order.id) hON1
            rw [foldl_setOrder_orders_eq (fun od =>
                { od with
                  discount_price := some (od.unit_price
                    * (1 - get_discount_percentage p2 (g.current_count + 1) / 100)),
                  status := .confirmed }) (fun o2 => rfl) _ hfin _]
            rw [setGroup_eq_map, setGroup_eq_map]
            show CountInv { dbA with
              groups := (dbA.groups.map (fun g4 => if g4.id == g.id then
                  { g4 with current_count := g4.current_count + 1, updated_at := now }
                else g4)).map (fun g4 => if g4.id == g.id then
                  { g4 with is_active := false } else g4),
              orders := (dbA.orders ++ [({ id := dbA.nextOrderId, buyer_id := buyer, group_buy_id := g.id, quantity := 1, unit_price := p1.price, discount_price := none, deposit_amount := p1.price * (1 / 10), status := OrderStatus.pending, created_at := now } : Order)]).map (fun o => if o.id ∈ ((dbA.orders ++ [({ id := dbA.nextOrderId, buyer_id := buyer, group_buy_id := g.id, quantity := 1, unit_price := p1.price, discount_price := none, deposit_amount := p1.price * (1 / 10), status := OrderStatus.pending, created_at := now } : Order)]).filter (fun o2 => o2.group_buy_id == g.id)).map Order.id then ({ o with discount_price := some (o.unit_price * (1 - get_discount_percentage p2 (g.current_count + 1) / 100)), status := OrderStatus.confirmed } : Order) else o),
              nextOrderId := dbA.nextOrderId + 1 }
            rw [List.map_map]
            have hm12eq : ∀ g3 : GroupBuy, ¬(g3.id == g.id) = true →
                ((fun g4 : GroupBuy => if g4.id == g.id then { g4 with is_active := false } else g4) ∘ (fun g4 : GroupBuy => if g4.id == g.id then { g4 with current_count := g4.current_count + 1, updated_at := now } else g4)) g3 = g3 := by
              intro g3 hc3
              simp only [Function.comp]
              simp [hc3]
            have hm12off : ∀ g3 : GroupBuy, (g3.id == g.id) = true →
                (((fun g4 : GroupBuy => if g4.id == g.id then { g4 with is_active := false } else g4) ∘ (fun g4 : GroupBuy => if g4.id == g.id then { g4 with current_count := g4.current_count + 1, updated_at := now } else g4)) g3).is_active = false := by
              intro g3 hc3
              simp only [Function.comp]
              simp [hc3]
            have hfiltAll : ∀ gid : Nat, gid ≠ g.id →
                (((dbA.orders ++ [({ id := dbA.nextOrderId, buyer_id := buyer, group_buy_id := g.id, quantity := 1, unit_price := p1.price, discount_price := none, deposit_amount := p1.price * (1 / 10), status := OrderStatus.pending, created_at := now } : Order)]).map (fun o => if o.id ∈ ((dbA.orders ++ [({ id := dbA.nextOrderId, buyer_id := buyer, group_buy_id := g.id, quantity := 1, unit_price := p1.price, discount_price := none, deposit_amount := p1.price * (1 / 10), status := OrderStatus.pending, created_at := now } : Order)]).filter (fun o2 => o2.group_buy_id == g.id)).map Order.id then ({ o with discount_price := some (o.unit_price * (1 - get_discount_percentage p2 (g.current_count + 1) / 100)), status := OrderStatus.confirmed } : Order) else o)).filter (fun o => o.group_buy_id == gid && !(o.status == OrderStatus.cancelled)))
                = ((dbA.orders ++ [({ id := dbA.nextOrderId, buyer_id := buyer, group_buy_id := g.id, quantity := 1, unit_price := p1.price, discount_price := none, deposit_amount := p1.price * (1 / 10), status := OrderStatus.pending, created_at := now } : Order)]).filter (fun o => o.group_buy_id == gid && !(o.status == OrderStatus.cancelled))) := by
              intro gid hgid
              refine filter_map_fixed _ _ _ ?_ ?_
              · intro o ho
                by_cases hmem : o.id ∈ ((dbA.orders ++ [({ id := dbA.nextOrderId, buyer_id := buyer, group_buy_id := g.id, quantity := 1, unit_price := p1.price, discount_price := none, deposit_amount := p1.price * (1 / 10), status := OrderStatus.pending, created_at := now } : Order)]).filter (fun o2 => o2.group_buy_id == g.id)).map Order.id
                · rw [if_pos hmem]
                  have hlink := (mem_filter_ids_iff
                    { dbA with orders := dbA.orders ++ [({ id := dbA.nextOrderId, buyer_id := buyer, group_buy_id := g.id, quantity := 1, unit_price := p1.price, discount_price := none, deposit_amount := p1.price * (1 / 10), status := OrderStatus.pending, created_at := now } : Order)], nextOrderId := dbA.nextOrderId + 1 }
                    hON1 (fun o2 => o2.group_buy_id == g.id) o ho).mp hmem
                  have hgb : o.group_buy_id = g.id := beq_iff_eq.mp hlink
                  have hfls : (o.group_buy_id == gid) = false :=
                    beq_eq_false_iff_ne.mpr (by rw [hgb]; exact fun he => hgid he.symm)
                  show (o.group_buy_id == gid
                      && !(OrderStatus.confirmed == OrderStatus.cancelled))
                    = (o.group_buy_id == gid && !(o.status == OrderStatus.cancelled))
                  rw [hfls]
                  rfl
                · rw [if_neg hmem]
              · intro o ho hP
                have hnm : o.id ∉ ((dbA.orders ++ [({ id := dbA.nextOrderId, buyer_id := buyer, group_buy_id := g.id, quantity := 1, unit_price := p1.price, discount_price := none, deposit_amount := p1.price * (1 / 10), status := OrderStatus.pending, created_at := now } : Order)]).filter (fun o2 => o2.group_buy_id == g.id)).map Order.id := by
                  intro hmem
                  have hlink := (mem_filter_ids_iff
                    { dbA with orders := dbA.orders ++ [({ id := dbA.nextOrderId, buyer_id := buyer, group_buy_id := g.id, quantity := 1, unit_price := p1.price, discount_price := none, deposit_amount := p1.price * (1 / 10), status := OrderStatus.pending, created_at := now } : Order)], nextOrderId := dbA.nextOrderId + 1 }
                    hON1 (fun o2 => o2.group_buy_id == g.id) o ho).mp hmem
                  have hgb : o.group_buy_id = g.id := beq_iff_eq.mp hlink
                  have h8 : (o.group_buy_id == gid) = true := by
                    simp only [Bool.and_eq_true] at hP
                    exact hP.1
                  exact hgid ((beq_iff_eq.mp h8).symm.trans hgb)
                rw [if_neg hnm]
            refine ⟨?_, ?_, ?_, ?_⟩
            · exact ledger_inv_order_map
                { dbA with
                    groups := dbA.groups.map ((fun g4 : GroupBuy => if g4.id == g.id then { g4 with is_active := false } else g4) ∘ (fun g4 : GroupBuy => if g4.id == g.id then { g4 with current_count := g4.current_count + 1, updated_at := now } else g4)),
                    orders := dbA.orders ++ [({ id := dbA.nextOrderId, buyer_id := buyer, group_buy_id := g.id, quantity := 1, unit_price := p1.price, discount_price := none, deposit_amount := p1.price * (1 / 10), status := OrderStatus.pending, created_at := now } : Order)],
                    nextOrderId := dbA.nextOrderId + 1 }
                (fun o => if o.id ∈ ((dbA.orders ++ [({ id := dbA.nextOrderId, buyer_id := buyer, group_buy_id := g.id, quantity := 1, unit_price := p1.price, discount_price := none, deposit_amount := p1.price * (1 / 10), status := OrderStatus.pending, created_at := now } : Order)]).filter (fun o2 => o2.group_buy_id == g.id)).map Order.id then ({ o with discount_price := some (o.unit_price * (1 - get_discount_percentage p2 (g.current_count + 1) / 100)), status := OrderStatus.confirmed } : Order) else o)
                (fun o => by
                  show ((if o.id ∈ _ then _ else o) : Order).id = o.id
                  split <;> rfl)
                (ledger_inv_group_map
                  { dbA with orders := dbA.orders ++ [({ id := dbA.nextOrderId, buyer_id := buyer, group_buy_id := g.id, quantity := 1, unit_price := p1.price, discount_price := none, deposit_amount := p1.price * (1 / 10), status := OrderStatus.pending, created_at := now } : Order)], nextOrderId := dbA.nextOrderId + 1 }
                  ((fun g4 : GroupBuy => if g4.id == g.id then { g4 with is_active := false } else g4) ∘ (fun g4 : GroupBuy => if g4.id == g.id then { g4 with current_count := g4.current_count + 1, updated_at := now } else g4))
                  (fun g4 => by
                    simp only [Function.comp]
                    by_cases hc : (g4.id == g.id) = true <;> simp [hc])
                  (fun g4 => by
                    simp only [Function.comp]
                    by_cases hc : (g4.id == g.id) = true <;> simp [hc])
                  (fun g4 hg4 ha4 => by
                    simp only [Function.comp] at ha4 ⊢
                    by_cases hc : (g4.id == g.id) = true
                    · simp [hc] at ha4
                    · left
                      simp [hc])
                  hLS)
            · intro o ho
              obtain ⟨o0, ho0, rfl⟩ := List.mem_map.mp ho
              have hlt : o0.group_buy_id < dbA.nextGroupId := by
                rcases List.mem_append.mp ho0 with h3 | h4
                · exact hLKA o0 h3
                · rw [List.mem_singleton] at h4
                  subst h4
                  show g.id < dbA.nextGroupId
                  exact hGFA g hgmem
              show ((if o0.id ∈ _ then _ else o0) : Order).group_buy_id < dbA.nextGroupId
              split
              · exact hlt
              · exact hlt
            · intro o ho g2 hg2 hid2 ha
              obtain ⟨o0, ho0, rfl⟩ := List.mem_map.mp ho
              obtain ⟨g0, hg0, rfl⟩ := List.mem_map.mp hg2
              by_cases hcg : (g0.id == g.id) = true
              · rw [hm12off g0 hcg] at ha
                exact Bool.noConfusion ha
              · rw [hm12eq g0 hcg] at ha hid2
                by_cases hmem : o0.id ∈ ((dbA.orders ++ [({ id := dbA.nextOrderId, buyer_id := buyer, group_buy_id := g.id, quantity := 1, unit_price := p1.price, discount_price := none, deposit_amount := p1.price * (1 / 10), status := OrderStatus.pending, created_at := now } : Order)]).filter (fun o2 => o2.group_buy_id == g.id)).map Order.id
                · rw [if_pos hmem] at hid2 ⊢
                  intro he
                  exact OrderStatus.noConfusion he
                · rw [if_neg hmem] at hid2 ⊢
                  rcases List.mem_append.mp ho0 with h3 | h4
                  · exact hNCA o0 h3 g0 hg0 hid2 ha
                  · rw [List.mem_singleton] at h4
                    subst h4
                    intro he
                    exact OrderStatus.noConfusion he
            · intro g2 hg2 ha
              obtain ⟨g0, hg0, rfl⟩ := List.mem_map.mp hg2
              by_cases hcg : (g0.id == g.id) = true
              · rw [hm12off g0 hcg] at ha
                exact Bool.noConfusion ha
              · rw [hm12eq g0 hcg] at ha ⊢
                unfold linkedCount
                show g0.current_count = (((dbA.orders ++ [({ id := dbA.nextOrderId, buyer_id := buyer, group_buy_id := g.id, quantity := 1, unit_price := p1.price, discount_price := none, deposit_amount := p1.price * (1 / 10), status := OrderStatus.pending, created_at := now } : Order)]).map (fun o => if o.id ∈ ((dbA.orders ++ [({ id := dbA.nextOrderId, buyer_id := buyer, group_buy_id := g.id, quantity := 1, unit_price := p1.price, discount_price := none, deposit_amount := p1.price * (1 / 10), status := OrderStatus.pending, created_at := now } : Order)]).filter (fun o2 => o2.group_buy_id == g.id)).map Order.id then ({ o with discount_price := some (o.unit_price * (1 - get_discount_percentage p2 (g.current_count + 1) / 100)), status := OrderStatus.confirmed } : Order) else o)).filter
                    (fun o => o.group_buy_id == g0.id
                      && !(o.status == OrderStatus.cancelled))).length
                rw [hfiltAll g0.id (fun he => hcg (beq_iff_eq.mpr he))]
                rw [List.filter_append, List.length_append]
                have h5 := hCNTA g0 hg0 ha
                unfold linkedCount at h5
                rw [← h5]
                have hneq : g.id ≠ g0.id := fun he => hcg (beq_iff_eq.mpr he.symm)
                simp [List.filter, hneq]
                rw [beq_eq_false_iff_ne.mpr hneq]
                rfl
          · rw [if_neg hcomp] at hpr
            rw [Except.ok.injEq, Prod.mk.injEq] at hpr
            obtain ⟨hst, -⟩ := hpr
            rw [← hst]
            rw [setGroup_eq_map]
            refine ⟨?_, ?_, ?_, ?_⟩
            · apply ledger_inv_group_map { dbA with
                  orders := dbA.orders ++
                    [{ id := dbA.nextOrderId,
                       buyer_id := buyer,
                       group_buy_id := g.id,
                       quantity := 1,
                       unit_price := p1.price,
                       discount_price := none,
                       deposit_amount := p1.price * (1 / 10),
                       status := .pending,
                       created_at := now }],
                  nextOrderId := dbA.nextOrderId + 1 } _ (fun g2 => by
                show ((if g2.id == g.id then _ else g2) : GroupBuy).id = g2.id
                split <;> rfl) (fun g2 => by
                show ((if g2.id == g.id then _ else g2) : GroupBuy).product_id
                  = g2.product_id
                split <;> rfl) ?_ hLS
              intro g2 hg2 ha
              by_cases hc : (g2.id == g.id) = true
              · right
                have hg2A : g2 ∈ dbA.groups := hg2
                have hg2e : g2 = g :=
                  List.inj_on_of_nodup_map hGNA hg2A hgmem (beq_iff_eq.mp hc)
                subst hg2e
                rw [if_pos hc] at ha ⊢
                exact ⟨by show g2.current_count + 1 < g2.target_count; omega, ha⟩
              · left
                rw [if_neg (by exact hc)]
            · intro o ho
              show o.group_buy_id < dbA.nextGroupId
              rcases List.mem_append.mp ho with h3 | h4
              · exact hLKA o h3
              · rw [List.mem_singleton] at h4
                subst h4
                show g.id < dbA.nextGroupId
                exact hGFA g hgmem
            · intro o ho g2 hg2 hid2 ha
              obtain ⟨g0, hg0, rfl⟩ := List.mem_map.mp hg2
              have hflag : (if g0.id == g.id then
                  ({ g0 with current_count := g0.current_count + 1, updated_at := now }
                    : GroupBuy) else g0).is_active = g0.is_active := by
                split <;> rfl
              have hidp : (if g0.id == g.id then
                  ({ g0 with current_count := g0.current_count + 1, updated_at := now }
                    : GroupBuy) else g0).id = g0.id := by
                split <;> rfl
              rw [hflag] at ha
              rw [hidp] at hid2
              rcases List.mem_append.mp ho with h3 | h4
              · exact hNCA o h3 g0 hg0 hid2 ha
              · rw [List.mem_singleton] at h4
                subst h4
                intro he
                exact OrderStatus.noConfusion he
            · intro g2 hg2 ha
              obtain ⟨g0, hg0, rfl⟩ := List.mem_map.mp hg2
              have hg0A : g0 ∈ dbA.groups := hg0
              by_cases hc : (g0.id == g.id) = true
              · have hg0e : g0 = g :=
                  List.inj_on_of_nodup_map hGNA hg0A hgmem (beq_iff_eq.mp hc)
                subst hg0e
                rw [if_pos hc] at ha ⊢
                show g0.current_count + 1 = linkedCount _ g0.id
                unfold linkedCount
                show _ = ((dbA.orders ++ [_]).filter _).length
                rw [List.filter_append, List.length_append]
                have h5 := hCNTA g0 hg0A ha
                unfold linkedCount at h5
                rw [← h5]
                simp [List.filter]
                rfl
              · rw [if_neg (by exact hc)] at ha ⊢
                show g0.current_count = linkedCount _ g0.id
                unfold linkedCount
                show _ = ((dbA.orders ++ [_]).filter _).length
                rw [List.filter_append, List.length_append]
                have h5 := hCNTA g0 hg0A ha
                unfold linkedCount at h5
                rw [← h5]
                have hneq : g.id ≠ g0.id := fun he =>
                  hc (beq_iff_eq.mpr he.symm)
                simp [List.filter, hneq]
                rw [beq_eq_false_iff_ne.mpr hneq]
                rfl


/-- The engine's sorted per-product order list carries duplicate-free ids. -/
theorem productL_ids_nodup (db0 : DB) (hG : (db0.groups.map GroupBuy.id).Nodup)
    (hO : (db0.orders.map Order.id).Nodup) (pid : Nat) :
    ((productL db0 pid).map Order.id).Nodup :=
  sortByCreated_ids_nodup _
    (collectOrders_ids_nodup db0 hO _ (productGids_nodup db0 hG pid))

/-- Counting the rows of a duplicate-free-id order table whose id lies in a
duplicate-free id list drawn from the table gives that list's length. -/
theorem filter_idmem_length (l : List Order) (s : List Nat)
    (hl : (l.map Order.id).Nodup) (hs : s.Nodup)
    (hsub : ∀ j ∈ s, j ∈ l.map Order.id) :
    (l.filter (fun o => decide (o.id ∈ s))).length = s.length := by
  have h1 : (l.filter (fun o => decide (o.id ∈ s))).length
      = ((l.filter (fun o => decide (o.id ∈ s))).map Order.id).length :=
    (List.length_map _ _).symm
  have hc : ((fun j => decide (j ∈ s)) ∘ Order.id) = (fun o : Order => decide (o.id ∈ s)) :=
    rfl
  have h2 : ((l.map Order.id).filter (fun j => decide (j ∈ s)))
      = (l.filter (fun o => decide (o.id ∈ s))).map Order.id := by
    rw [List.filter_map, hc]
  rw [h1, ← h2]
  exact filter_mem_length (l.map Order.id) s hl hs hsub

/-- `rearrange_incomplete_groups` preserves the count invariant. -/
theorem count_inv_rearrange (db : DB) (now : Nat) (pr : DB × RearrangeResult)
    (hinv : CountInv db)
    (hrun : rearrange_incomplete_groups db now = Except.ok pr) : CountInv pr.1 := by
  obtain ⟨hL, hLK, hNC, hCNT⟩ := hinv
  by_cases hemp : (get_incomplete_groups db).isEmpty
  · rw [rearrange_incomplete_groups_empty db now hemp] at hrun
    rw [Except.ok.injEq] at hrun
    rw [← hrun]
    exact ⟨hL, hLK, hNC, hCNT⟩
  · have hL' : LedgerInv pr.1 := ledger_inv_rearrange db now pr hL hrun
    obtain ⟨hmin, hGN, hGF, hON, hOF, hFK, hAI, hOA⟩ := hL
    have hprodAll : ∀ pid ∈ rearrangePids db, ∃ p, get_product db pid = some p := by
      intro pid hpid
      rw [mem_rearrangePids] at hpid
      obtain ⟨g, hg, rfl⟩ := List.mem_map.mp hpid
      exact hFK g (List.mem_of_mem_filter hg)
    obtain ⟨db', outs, hrun2, hP1, hP2, hP3, hP4, hP5, hFRG, hFRO, hEff, hFOex, hNews,
        hGN2⟩ :=
      rearrange_run_spec db now hGN hON hGF hprodAll hmin (Bool.eq_false_iff.mpr hemp)
    rw [hrun] at hrun2
    rw [Except.ok.injEq] at hrun2
    rw [hrun2]
    rw [hrun2] at hL'
    have hLd : LedgerInv db' := hL'
    obtain ⟨hmin2, hGN3, hGF2, hON2, hOF2, hFK2, hAI2, hOA2⟩ := hLd
    obtain ⟨FO, hFOid, hFOeq⟩ := hFOex
    obtain ⟨news, hgdec, hnews2, hnews3⟩ := hNews
    -- pointwise order lookups
    have hgetdb : ∀ o ∈ db.orders, get_order db o.id = some o := fun o ho =>
      find?_key_eq_some_of_mem Order.id db.orders hON o ho
    have hgetdb2 : ∀ o ∈ db.orders, get_order db' o.id = some (FO o) := by
      intro o ho
      show db'.orders.find? (fun x => x.id == o.id) = some (FO o)
      rw [hFOeq, find?_oid_map FO hFOid db.orders o.id]
      rw [show db.orders.find? (fun x => x.id == o.id) = some o from hgetdb o ho]
      rfl
    have hFOval : ∀ o ∈ db.orders, ∀ o2, get_order db' o.id = some o2 → FO o = o2 := by
      intro o ho o2 he
      exact Option.some.inj ((hgetdb2 o ho).symm.trans he)
    have hFOfix : ∀ o ∈ db.orders, get_order db' o.id = get_order db o.id → FO o = o := by
      intro o ho he
      exact hFOval o ho o (he.trans (hgetdb o ho))
    -- a fixed base per product
    have hbaseEx : ∀ pid : Nat, ∃ base : Nat,
        pid ∈ rearrangePids db → ∀ p, get_product db pid = some p →
        0 < (productL db pid).length / p.min_group_size →
        (db.nextGroupId ≤ base ∧
         (∀ i < (productL db pid).length / p.min_group_size,
           get_group_buy db' (base + i)
             = some (fullGroupRow pid p.min_group_size now (base + i))) ∧
         (0 < (productL db pid).length % p.min_group_size →
           get_group_buy db' (base + (productL db pid).length / p.min_group_size)
             = some (remGroupRow pid p.min_group_size
                 ((productL db pid).length % p.min_group_size) now
                 (base + (productL db pid).length / p.min_group_size))) ∧
         (∀ gid ∈ productGids db pid, ∀ g, get_group_buy db gid = some g →
           get_group_buy db' gid
             = some { g with is_active := false, updated_at := now }) ∧
         (∀ i < (productL db pid).length / p.min_group_size,
           ∀ o ∈ ((productL db pid).drop (i * p.min_group_size)).take p.min_group_size,
             get_order db' o.id = some (finalizeOrder
               (get_discount_percentage p p.min_group_size) (base + i) o)) ∧
         (∀ o ∈ (productL db pid).drop
             ((productL db pid).length / p.min_group_size * p.min_group_size),
           get_order db' o.id = some { o with group_buy_id :=
             base + (productL db pid).length / p.min_group_size })) := by
      intro pid
      by_cases hp : pid ∈ rearrangePids db
      · obtain ⟨p, hpp⟩ := hprodAll pid hp
        by_cases hfull : 0 < (productL db pid).length / p.min_group_size
        · obtain ⟨base, hb1, hb2, hb3, hb4, hb5, hb6⟩ := (hEff pid hp p hpp).2 hfull
          refine ⟨base, fun hp2 p2 hpp2 hfull2 => ?_⟩
          have hpe : p2 = p := Option.some.inj (hpp2.symm.trans hpp)
          subst hpe
          exact ⟨hb1, hb2, hb3, hb4, hb5, hb6⟩
        · refine ⟨0, fun hp2 p2 hpp2 hfull2 => absurd ?_ hfull⟩
          have hpe : p2 = p := Option.some.inj (hpp2.symm.trans hpp)
          subst hpe
          exact hfull2
      · exact ⟨0, fun hp2 => absurd hp2 hp⟩
    choose baseF hbaseF using hbaseEx
    -- per-row characterization of the rearrangement's order map
    have hchar : ∀ o ∈ db.orders,
        FO o = o ∨
        ∃ pid p, pid ∈ rearrangePids db ∧ get_product db pid = some p ∧
          0 < (productL db pid).length / p.min_group_size ∧
          o.group_buy_id ∈ productGids db pid ∧
          ((∃ i, i < (productL db pid).length / p.min_group_size ∧
              FO o = finalizeOrder (get_discount_percentage p p.min_group_size)
                (baseF pid + i) o) ∨
            (o ∈ (productL db pid).drop
                ((productL db pid).length / p.min_group_size * p.min_group_size) ∧
              FO o = { o with group_buy_id := baseF pid + (productL db pid).length / p.min_group_size })) := by
      intro o ho
      by_cases hcoll : ∃ pid ∈ rearrangePids db, o.id ∈ (productL db pid).map Order.id
      · obtain ⟨pid, hpid, hoid⟩ := hcoll
        obtain ⟨p, hpp⟩ := hprodAll pid hpid
        have hoL : o ∈ productL db pid := by
          obtain ⟨o2, ho2, hid2⟩ := List.mem_map.mp hoid
          have ho2db : o2 ∈ db.orders := ((mem_productL db pid o2).mp ho2).1
          have he : o2 = o := List.inj_on_of_nodup_map hON ho2db ho hid2
          rwa [he] at ho2
        have hgbid : o.group_buy_id ∈ productGids db pid := ((mem_productL db pid o).mp hoL).2
        by_cases hfull : 0 < (productL db pid).length / p.min_group_size
        · right
          obtain ⟨hb1, hb2, hb3, hb4, hb5, hb6⟩ := hbaseF pid hpid p hpp hfull
          refine ⟨pid, p, hpid, hpp, hfull, hgbid, ?_⟩
          by_cases hdrop : o ∈ (productL db pid).drop
              ((productL db pid).length / p.min_group_size * p.min_group_size)
          · right
            exact ⟨hdrop, hFOval o ho _ (hb6 o hdrop)⟩
          · left
            have h12 : o ∈ (productL db pid).take
                  ((productL db pid).length / p.min_group_size * p.min_group_size)
                ++ (productL db pid).drop
                  ((productL db pid).length / p.min_group_size * p.min_group_size) := by
              rw [List.take_append_drop]
              exact hoL
            have htake : o ∈ (productL db pid).take
                ((productL db pid).length / p.min_group_size * p.min_group_size) := by
              rcases List.mem_append.mp h12 with h13 | h13
              · exact h13
              · exact absurd h13 hdrop
            obtain ⟨i, hi, hchunk⟩ := mem_take_chunks (productL db pid) p.min_group_size
              ((productL db pid).length / p.min_group_size)
              (hmin p (List.mem_of_find?_eq_some hpp))
              (Nat.div_mul_le_self _ _) o htake
            exact ⟨i, hi, hFOval o ho _ (hb5 i hi o hchunk)⟩
        · left
          have hE := (hEff pid hpid p hpp).1 (Nat.le_zero.mp (Nat.not_lt.mp hfull))
          exact hFOfix o ho (hE.2 o.id (List.mem_map_of_mem Order.id hoL))
      · left
        push_neg at hcoll
        exact hFOfix o ho (hFRO o.id hcoll)
    refine ⟨hL', ?_, ?_, ?_⟩
    · -- every order still references a key below the group counter
      intro o2 ho2
      show o2.group_buy_id < db'.nextGroupId
      rw [hFOeq] at ho2
      obtain ⟨o, ho, rfl⟩ := List.mem_map.mp ho2
      rcases hchar o ho with h1 | ⟨pid, p, hpid, hpp, hfull, hgb, h2⟩
      · rw [h1]
        exact lt_of_lt_of_le (hLK o ho) hP3
      · obtain ⟨hb1, hb2, hb3, hb4, hb5, hb6⟩ := hbaseF pid hpid p hpp hfull
        rcases h2 with ⟨i, hi, hFOe⟩ | ⟨hdropmem, hFOe⟩
        · rw [hFOe]
          show baseF pid + i < db'.nextGroupId
          exact hP4 _ (List.mem_of_find?_eq_some (hb2 i hi))
        · rw [hFOe]
          show baseF pid + (productL db pid).length / p.min_group_size < db'.nextGroupId
          have hrem : 0 < (productL db pid).length % p.min_group_size := by
            have hlen : 0 < ((productL db pid).drop
                ((productL db pid).length / p.min_group_size * p.min_group_size)).length :=
              List.length_pos.mpr (List.ne_nil_of_mem hdropmem)
            rw [List.length_drop] at hlen
            rcases Nat.eq_zero_or_pos ((productL db pid).length % p.min_group_size)
              with h0 | hpos
            · exfalso
              have hdvd := Nat.dvd_of_mod_eq_zero h0
              have hmul := Nat.div_mul_cancel hdvd
              omega
            · exact hpos
          exact hP4 _ (List.mem_of_find?_eq_some (hb3 hrem))
    · -- no cancelled order is linked to an active group
      intro o2 ho2 g2 hg2 hid2 ha2
      rw [hFOeq] at ho2
      obtain ⟨o, ho, rfl⟩ := List.mem_map.mp ho2
      rcases hchar o ho with h1 | ⟨pid, p, hpid, hpp, hfull, hgb, h2⟩
      · rw [h1] at hid2 ⊢
        rw [hgdec] at hg2
        rcases List.mem_append.mp hg2 with hmap | hnw
        · obtain ⟨g0, hg0, rfl⟩ := List.mem_map.mp hmap
          by_cases hcnd : g0.id ∈ (((rearrangePids db).filter
              (fun q => 0 < productFull db q)).map (fun q => productGids db q)).flatten
          · rw [if_pos hcnd] at ha2
            simp at ha2
          · rw [if_neg hcnd] at ha2 hid2
            exact hNC o ho g0 hg0 hid2 ha2
        · have h3 := (hnews2 g2 hnw).1
          have h4 := hLK o ho
          omega
      · rcases h2 with ⟨i, hi, hFOe⟩ | ⟨hdropmem, hFOe⟩
        · rw [hFOe]
          intro he
          exact OrderStatus.noConfusion he
        · rw [hFOe]
          show o.status ≠ OrderStatus.cancelled
          obtain ⟨gact, hgact, hgid3, -, hact3, -⟩ :=
            (productGids_mem db pid o.group_buy_id).mp hgb
          exact hNC o ho gact hgact hgid3 hact3
    · -- every active group's count equals its non-cancelled linked orders
      intro g2 hg2 ha2
      rw [hgdec] at hg2
      rcases List.mem_append.mp hg2 with hmap | hnw
      · obtain ⟨g0, hg0, rfl⟩ := List.mem_map.mp hmap
        by_cases hcnd : g0.id ∈ (((rearrangePids db).filter
            (fun q => 0 < productFull db q)).map (fun q => productGids db q)).flatten
        · rw [if_pos hcnd] at ha2
          simp at ha2
        · rw [if_neg hcnd] at ha2 ⊢
          have hnotin : ∀ pid ∈ rearrangePids db, 0 < productFull db pid →
              g0.id ∉ productGids db pid := by
            intro pid hpid hfl hin
            exact hcnd (List.mem_flatten.mpr ⟨productGids db pid,
              List.mem_map_of_mem _ (List.mem_filter.mpr ⟨hpid, by simp [hfl]⟩), hin⟩)
          have hPF : ∀ o ∈ db.orders,
              ((FO o).group_buy_id == g0.id && !((FO o).status == OrderStatus.cancelled))
              = (o.group_buy_id == g0.id && !(o.status == OrderStatus.cancelled)) := by
            intro o ho
            rcases hchar o ho with h1 | ⟨pid, p, hpid, hpp, hfull, hgb, h2⟩
            · rw [h1]
            · have hfullP : 0 < productFull db pid := by
                unfold productFull
                rw [hpp]
                exact hfull
              have hne1 : (o.group_buy_id == g0.id) = false :=
                beq_eq_false_iff_ne.mpr (fun he => hnotin pid hpid hfullP (he ▸ hgb))
              have hge : db.nextGroupId ≤ (FO o).group_buy_id := by
                obtain ⟨hb1, -, -, -, -, -⟩ := hbaseF pid hpid p hpp hfull
                rcases h2 with ⟨i, hi, hFOe⟩ | ⟨hdropmem, hFOe⟩
                · rw [hFOe]
                  show db.nextGroupId ≤ baseF pid + i
                  omega
                · rw [hFOe]
                  show db.nextGroupId ≤ baseF pid + (productL db pid).length / p.min_group_size
                  omega
              have hne2 : ((FO o).group_buy_id == g0.id) = false :=
                beq_eq_false_iff_ne.mpr (by have h4 := hGF g0 hg0; omega)
              rw [hne1, hne2]
              rfl
          have hfix : ∀ o ∈ db.orders,
              (o.group_buy_id == g0.id && !(o.status == OrderStatus.cancelled)) = true →
              FO o = o := by
            intro o ho hP
            rcases hchar o ho with h1 | ⟨pid, p, hpid, hpp, hfull, hgb, h2⟩
            · exact h1
            · exfalso
              have h8 : (o.group_buy_id == g0.id) = true := by
                simp only [Bool.and_eq_true] at hP
                exact hP.1
              have hfullP : 0 < productFull db pid := by
                unfold productFull
                rw [hpp]
                exact hfull
              exact hnotin pid hpid hfullP ((beq_iff_eq.mp h8) ▸ hgb)
          rw [hCNT g0 hg0 ha2]
          unfold linkedCount
          rw [hFOeq]
          rw [filter_map_fixed (fun o => o.group_buy_id == g0.id
            && !(o.status == OrderStatus.cancelled)) FO db.orders hPF hfix]
      · obtain ⟨hb0, hpidmem, hfullpos, -, hrem3⟩ := hnews2 g2 hnw
        obtain ⟨p, hpp⟩ := hprodAll g2.product_id hpidmem
        obtain ⟨hrempos, hcntrem, htgt⟩ := hrem3 ha2 p hpp
        have hfullraw : 0 < (productL db g2.product_id).length / p.min_group_size := by
          unfold productFull at hfullpos
          rw [hpp] at hfullpos
          exact hfullpos
        obtain ⟨hb1, hb2, hb3, hb4, hb5, hb6⟩ := hbaseF g2.product_id hpidmem p hpp hfullraw
        have hgrem := hb3 hrempos
        have hremmem : remGroupRow g2.product_id p.min_group_size ((productL db g2.product_id).length % p.min_group_size) now (baseF g2.product_id + (productL db g2.product_id).length / p.min_group_size) ∈ db'.groups := List.mem_of_find?_eq_some hgrem
        have hg2mem : g2 ∈ db'.groups := by
          rw [hgdec]
          exact List.mem_append.mpr (Or.inr hnw)
        have heqrow : g2 = remGroupRow g2.product_id p.min_group_size ((productL db g2.product_id).length % p.min_group_size) now (baseF g2.product_id + (productL db g2.product_id).length / p.min_group_size) := hOA2 g2 hg2mem _ hremmem ha2 rfl rfl
        have hgid : g2.id = baseF g2.product_id + (productL db g2.product_id).length / p.min_group_size :=
          congrArg GroupBuy.id heqrow
        rw [hcntrem]
        unfold linkedCount
        rw [hFOeq]
        have hq : ∀ a ∈ db.orders.map FO,
            (a.group_buy_id == g2.id && !(a.status == OrderStatus.cancelled))
            = decide (a.id ∈ ((productL db g2.product_id).drop ((productL db g2.product_id).length / p.min_group_size * p.min_group_size)).map Order.id) := by
          intro a hamem
          obtain ⟨o, ho, rfl⟩ := List.mem_map.mp hamem
          rw [hFOid o]
          rcases hchar o ho with h1 | ⟨pid, p2, hpid2, hpp2, hfull2, hgb2, h2⟩
          · rw [h1]
            have hne3 : (o.group_buy_id == g2.id) = false :=
              beq_eq_false_iff_ne.mpr (by have h4 := hLK o ho; omega)
            have hnm : o.id ∉ ((productL db g2.product_id).drop ((productL db g2.product_id).length / p.min_group_size * p.min_group_size)).map Order.id := by
              intro hmem2
              obtain ⟨o2, ho2, hid2⟩ := List.mem_map.mp hmem2
              have ho2db : o2 ∈ db.orders :=
                ((mem_productL db _ o2).mp (List.mem_of_mem_drop ho2)).1
              have he2 : o2 = o := List.inj_on_of_nodup_map hON ho2db ho hid2
              subst he2
              have h10 := hb6 o2 ho2
              have h11 := hFOval o2 ho _ h10
              rw [h1] at h11
              have h12 : o2.group_buy_id = baseF g2.product_id + (productL db g2.product_id).length / p.min_group_size :=
                congrArg Order.group_buy_id h11
              have h13 := hLK o2 ho
              omega
            rw [hne3, decide_eq_false hnm]
            rfl
          · by_cases hpideq : pid = g2.product_id
            · subst hpideq
              have hpe : p2 = p := Option.some.inj (hpp2.symm.trans hpp)
              subst hpe
              rcases h2 with ⟨i, hi, hFOe⟩ | ⟨hdropmem, hFOe⟩
              · rw [hFOe]
                have hne4 : ((finalizeOrder (get_discount_percentage p2 p2.min_group_size)
                    (baseF g2.product_id + i) o).group_buy_id == g2.id) = false := by
                  refine beq_eq_false_iff_ne.mpr ?_
                  show baseF g2.product_id + i ≠ g2.id
                  omega
                have hnm2 : o.id ∉ ((productL db g2.product_id).drop ((productL db g2.product_id).length / p2.min_group_size * p2.min_group_size)).map Order.id := by
                  intro hmem2
                  obtain ⟨o2, ho2, hid2⟩ := List.mem_map.mp hmem2
                  have ho2db : o2 ∈ db.orders :=
                    ((mem_productL db _ o2).mp (List.mem_of_mem_drop ho2)).1
                  have he2 : o2 = o := List.inj_on_of_nodup_map hON ho2db ho hid2
                  subst he2
                  have h10 := hb6 o2 ho2
                  have h11 := hFOval o2 ho _ h10
                  rw [hFOe] at h11
                  have h12 : baseF g2.product_id + i
                      = baseF g2.product_id + (productL db g2.product_id).length / p2.min_group_size :=
                    congrArg Order.group_buy_id h11
                  omega
                rw [hne4, decide_eq_false hnm2]
                rfl
              · rw [hFOe]
                have hbeq : (({ o with group_buy_id := baseF g2.product_id + (productL db g2.product_id).length / p2.min_group_size } : Order).group_buy_id == g2.id) = true := by
                  refine beq_iff_eq.mpr ?_
                  show baseF g2.product_id + (productL db g2.product_id).length / p2.min_group_size = g2.id
                  omega
                have hncan : o.status ≠ OrderStatus.cancelled := by
                  obtain ⟨gact, hgact, hgid4, -, hact4, -⟩ :=
                    (productGids_mem db g2.product_id o.group_buy_id).mp hgb2
                  exact hNC o ho gact hgact hgid4 hact4
                have hst : (({ o with group_buy_id := baseF g2.product_id + (productL db g2.product_id).length / p2.min_group_size } : Order).status == OrderStatus.cancelled) = false :=
                  beq_eq_false_iff_ne.mpr hncan
                rw [hbeq, hst, decide_eq_true (List.mem_map_of_mem Order.id hdropmem)]
                rfl
            · obtain ⟨hc1, hc2, hc3, -, -, hc6⟩ := hbaseF pid hpid2 p2 hpp2 hfull2
              have hne5 : ((FO o).group_buy_id == g2.id) = false := by
                refine beq_eq_false_iff_ne.mpr ?_
                rcases h2 with ⟨i, hi, hFOe⟩ | ⟨hdropmem2, hFOe⟩
                · rw [hFOe]
                  show baseF pid + i ≠ g2.id
                  intro he
                  have h14 := hc2 i hi
                  rw [he, hgid] at h14
                  have h15 := Option.some.inj (h14.symm.trans hgrem)
                  have h16 : false = true := congrArg GroupBuy.is_active h15
                  exact Bool.noConfusion h16
                · rw [hFOe]
                  show baseF pid + (productL db pid).length / p2.min_group_size ≠ g2.id
                  intro he
                  have hrem2 : 0 < (productL db pid).length % p2.min_group_size := by
                    have hlen : 0 < ((productL db pid).drop
                        ((productL db pid).length / p2.min_group_size * p2.min_group_size)).length :=
                      List.length_pos.mpr (List.ne_nil_of_mem hdropmem2)
                    rw [List.length_drop] at hlen
                    rcases Nat.eq_zero_or_pos ((productL db pid).length % p2.min_group_size)
                      with h0 | hpos
                    · exfalso
                      have hdvd := Nat.dvd_of_mod_eq_zero h0
                      have hmul := Nat.div_mul_cancel hdvd
                      omega
                    · exact hpos
                  have h14 := hc3 hrem2
                  rw [he, hgid] at h14
                  have h15 := Option.some.inj (h14.symm.trans hgrem)
                  have h17 : pid = g2.product_id := congrArg GroupBuy.product_id h15
                  exact hpideq h17
              have hnm3 : o.id ∉ ((productL db g2.product_id).drop ((productL db g2.product_id).length / p.min_group_size * p.min_group_size)).map Order.id := by
                intro hmem2
                obtain ⟨o2, ho2, hid2⟩ := List.mem_map.mp hmem2
                have ho2db : o2 ∈ db.orders :=
                  ((mem_productL db _ o2).mp (List.mem_of_mem_drop ho2)).1
                have he2 : o2 = o := List.inj_on_of_nodup_map hON ho2db ho hid2
                subst he2
                have hgb3 : o2.group_buy_id ∈ productGids db g2.product_id :=
                  ((mem_productL db _ o2).mp (List.mem_of_mem_drop ho2)).2
                exact productGids_disjoint db hGN pid g2.product_id hpideq
                  o2.group_buy_id hgb2 hgb3
              rw [hne5, decide_eq_false hnm3]
              rfl
        rw [List.filter_congr hq]
        have hidnodup : ((db.orders.map FO).map Order.id).Nodup := by
          rw [map_ids_of_id_preserving FO hFOid]
          exact hON
        have hdnodup : (((productL db g2.product_id).drop ((productL db g2.product_id).length / p.min_group_size * p.min_group_size)).map Order.id).Nodup :=
          List.Nodup.sublist ((List.drop_sublist _ _).map Order.id)
            (productL_ids_nodup db hGN hON g2.product_id)
        have hdsub : ∀ j ∈ ((productL db g2.product_id).drop ((productL db g2.product_id).length / p.min_group_size * p.min_group_size)).map Order.id, j ∈ (db.orders.map FO).map Order.id := by
          intro j hj
          rw [map_ids_of_id_preserving FO hFOid]
          obtain ⟨o2, ho2, rfl⟩ := List.mem_map.mp hj
          exact List.mem_map_of_mem Order.id
            ((mem_productL db _ o2).mp (List.mem_of_mem_drop ho2)).1
        rw [filter_idmem_length (db.orders.map FO) (((productL db g2.product_id).drop ((productL db g2.product_id).length / p.min_group_size * p.min_group_size)).map Order.id) hidnodup hdnodup hdsub]
        rw [List.length_map, List.length_drop]
        have h9 := Nat.div_add_mod (productL db g2.product_id).length p.min_group_size
        rw [Nat.mul_comm] at h9
        omega


/-- `check_expired_groups` preserves the count invariant. -/
theorem count_inv_sweep (db : DB) (now : Nat) (pr : DB × SweepResult)
    (hinv : CountInv db)
    (hrun : check_expired_groups db now = Except.ok pr) : CountInv pr.1 := by
  obtain ⟨hL, hLK, hNC, hCNT⟩ := hinv
  unfold check_expired_groups at hrun
  simp only [] at hrun
  by_cases hemp : (get_expired_groups db (now - expirationSeconds)).isEmpty = true
  · rw [if_pos hemp] at hrun
    simp only [pure, Except.pure] at hrun
    rw [Except.ok.injEq] at hrun
    rw [← hrun]
    exact ⟨hL, hLK, hNC, hCNT⟩
  · rw [if_neg hemp] at hrun
    have hON : (db.orders.map Order.id).Nodup := hL.2.2.2.1
    rw [sweepFold_eq now (get_expired_groups db (now - expirationSeconds)) db hON] at hrun
    cases hre : rearrange_incomplete_groups
        { db with
          orders := db.orders.map (fun o =>
            if o.group_buy_id ∈ (get_expired_groups db
                (now - expirationSeconds)).map GroupBuy.id
            then { o with status := .cancelled } else o),
          groups := db.groups.map (fun g2 =>
            if g2.id ∈ (get_expired_groups db (now - expirationSeconds)).map GroupBuy.id
            then { g2 with is_active := false, updated_at := now } else g2) } now with
    | error e =>
      rw [hre] at hrun
      simp only [bind, Except.bind] at hrun
      exact Except.noConfusion hrun
    | ok pr2 =>
      obtain ⟨db2, rr⟩ := pr2
      rw [hre] at hrun
      simp only [bind, Except.bind, pure, Except.pure] at hrun
      rw [Except.ok.injEq] at hrun
      rw [← hrun]
      show CountInv db2
      have hinvMapped : CountInv
          { db with
          orders := db.orders.map (fun o =>
            if o.group_buy_id ∈ (get_expired_groups db
                (now - expirationSeconds)).map GroupBuy.id
            then { o with status := .cancelled } else o),
          groups := db.groups.map (fun g2 =>
            if g2.id ∈ (get_expired_groups db (now - expirationSeconds)).map GroupBuy.id
            then { g2 with is_active := false, updated_at := now } else g2) } := by
        refine ⟨?_, ?_, ?_, ?_⟩
        · exact ledger_inv_order_map
            { db with groups := db.groups.map (fun g2 =>
              if g2.id ∈ (get_expired_groups db (now - expirationSeconds)).map GroupBuy.id
              then { g2 with is_active := false, updated_at := now } else g2) }
            (fun o => if o.group_buy_id ∈ (get_expired_groups db
                (now - expirationSeconds)).map GroupBuy.id
              then { o with status := .cancelled } else o)
            (fun o => by
              show ((if o.group_buy_id ∈ _ then _ else o) : Order).id = o.id
              split <;> rfl)
            (ledger_inv_group_map db
              (fun g2 => if g2.id ∈ (get_expired_groups db
                  (now - expirationSeconds)).map GroupBuy.id
                then { g2 with is_active := false, updated_at := now } else g2)
              (fun g => by
                show ((if g.id ∈ _ then _ else g) : GroupBuy).id = g.id
                split <;> rfl)
              (fun g => by
                show ((if g.id ∈ _ then _ else g) : GroupBuy).product_id = g.product_id
                split <;> rfl)
              (fun g hg ha => by
                by_cases hc : g.id ∈ (get_expired_groups db
                    (now - expirationSeconds)).map GroupBuy.id
                · simp [hc] at ha
                · left
                  simp [hc])
              hL)
        · intro o2 ho2
          obtain ⟨o, ho, rfl⟩ := List.mem_map.mp ho2
          show ((if o.group_buy_id ∈ _ then _ else o) : Order).group_buy_id
            < db.nextGroupId
          have h4 := hLK o ho
          split
          · exact h4
          · exact h4
        · intro o2 ho2 g2 hg2 hid2 ha2
          obtain ⟨o, ho, rfl⟩ := List.mem_map.mp ho2
          obtain ⟨g0, hg0, rfl⟩ := List.mem_map.mp hg2
          by_cases hcg : g0.id ∈ (get_expired_groups db (now - expirationSeconds)).map GroupBuy.id
          · rw [if_pos hcg] at ha2
            simp at ha2
          · rw [if_neg hcg] at ha2 hid2
            by_cases hco : o.group_buy_id ∈ (get_expired_groups db (now - expirationSeconds)).map GroupBuy.id
            · exfalso
              rw [if_pos hco] at hid2
              have hid3 : g0.id = o.group_buy_id := hid2
              exact hcg (hid3 ▸ hco)
            · rw [if_neg hco] at hid2 ⊢
              exact hNC o ho g0 hg0 hid2 ha2
        · intro g2 hg2 ha2
          obtain ⟨g0, hg0, rfl⟩ := List.mem_map.mp hg2
          by_cases hcg : g0.id ∈ (get_expired_groups db (now - expirationSeconds)).map GroupBuy.id
          · rw [if_pos hcg] at ha2
            simp at ha2
          · rw [if_neg hcg] at ha2 ⊢
            have hPF : ∀ o ∈ db.orders,
                ((if o.group_buy_id ∈ (get_expired_groups db (now - expirationSeconds)).map GroupBuy.id then ({ o with status := .cancelled } : Order) else o).group_buy_id == g0.id
                  && !((if o.group_buy_id ∈ (get_expired_groups db (now - expirationSeconds)).map GroupBuy.id then ({ o with status := .cancelled } : Order) else o).status == OrderStatus.cancelled))
                = (o.group_buy_id == g0.id && !(o.status == OrderStatus.cancelled)) := by
              intro o ho
              by_cases hco : o.group_buy_id ∈ (get_expired_groups db (now - expirationSeconds)).map GroupBuy.id
              · rw [if_pos hco]
                have hne : (o.group_buy_id == g0.id) = false :=
                  beq_eq_false_iff_ne.mpr (fun he => hcg (he ▸ hco))
                show (o.group_buy_id == g0.id
                    && !(OrderStatus.cancelled == OrderStatus.cancelled))
                  = (o.group_buy_id == g0.id && !(o.status == OrderStatus.cancelled))
                rw [hne]
                rfl
              · rw [if_neg hco]
            have hfix : ∀ o ∈ db.orders,
                (o.group_buy_id == g0.id && !(o.status == OrderStatus.cancelled)) = true →
                (if o.group_buy_id ∈ (get_expired_groups db (now - expirationSeconds)).map GroupBuy.id then ({ o with status := .cancelled } : Order) else o) = o := by
              intro o ho hP
              have h8 : (o.group_buy_id == g0.id) = true := by
                simp only [Bool.and_eq_true] at hP
                exact hP.1
              have hco : o.group_buy_id ∉ (get_expired_groups db (now - expirationSeconds)).map GroupBuy.id :=
                fun hmem => hcg ((beq_iff_eq.mp h8) ▸ hmem)
              rw [if_neg hco]
            rw [hCNT g0 hg0 ha2]
            unfold linkedCount
            show _ = ((db.orders.map (fun o => if o.group_buy_id ∈ (get_expired_groups db (now - expirationSeconds)).map GroupBuy.id then { o with status := .cancelled } else o)).filter (fun o =>
              o.group_buy_id == g0.id && !(o.status == OrderStatus.cancelled))).length
            rw [filter_map_fixed (fun o => o.group_buy_id == g0.id
              && !(o.status == OrderStatus.cancelled)) (fun o => if o.group_buy_id ∈ (get_expired_groups db (now - expirationSeconds)).map GroupBuy.id then { o with status := .cancelled } else o) db.orders hPF hfix]
      exact count_inv_rearrange
        { db with
          orders := db.orders.map (fun o =>
            if o.group_buy_id ∈ (get_expired_groups db
                (now - expirationSeconds)).map GroupBuy.id
            then { o with status := .cancelled } else o),
          groups := db.groups.map (fun g2 =>
            if g2.id ∈ (get_expired_groups db (now - expirationSeconds)).map GroupBuy.id
            then { g2 with is_active := false, updated_at := now } else g2) } now (db2, rr) hinvMapped hre


/-- One atomic operation (join with its deposit processed in the same
critical section, bare get-or-create, rearrangement, sweep) preserves the
count invariant. -/
theorem count_inv_atomicStep (db db' : DB) (hinv : CountInv db)
    (h : AtomicStep db db') : CountInv db' := by
  cases h with
  | join dbx db1 pid buyer now oid hj hp =>
    exact count_inv_atomicJoin db pid buyer now oid dbx db' hinv hj hp
  | getOrCreate dbx pid now hj =>
    have h2 : (get_or_create_active_group_buy db pid now).map (fun r => r.1)
      = Except.ok db' := hj
    cases hg : get_or_create_active_group_buy db pid now with
    | error e =>
      rw [hg] at h2
      exact Except.noConfusion h2
    | ok pr =>
      rw [hg] at h2
      rw [show (Except.ok pr : Except Err (DB × GroupBuy)).map (fun r => r.1)
        = Except.ok pr.1 from rfl, Except.ok.injEq] at h2
      rw [← h2]
      exact count_inv_getOrCreate db pid now pr.1 pr.2 hinv (by rw [hg])
  | rearrange dbx now hj =>
    have h2 : (rearrange_incomplete_groups db now).map (fun r => r.1)
      = Except.ok db' := hj
    cases hg : rearrange_incomplete_groups db now with
    | error e =>
      rw [hg] at h2
      exact Except.noConfusion h2
    | ok pr =>
      rw [hg] at h2
      rw [show (Except.ok pr : Except Err (DB × RearrangeResult)).map (fun r => r.1)
        = Except.ok pr.1 from rfl, Except.ok.injEq] at h2
      rw [← h2]
      exact count_inv_rearrange db now pr hinv hg
  | sweep dbx now hj =>
    have h2 : (check_expired_groups db now).map (fun r => r.1) = Except.ok db' := hj
    cases hg : check_expired_groups db now with
    | error e =>
      rw [hg] at h2
      exact Except.noConfusion h2
    | ok pr =>
      rw [hg] at h2
      rw [show (Except.ok pr : Except Err (DB × SweepResult)).map (fun r => r.1)
        = Except.ok pr.1 from rfl, Except.ok.injEq] at h2
      rw [← h2]
      exact count_inv_sweep db now pr hinv hg

/-- Every store reachable under atomic-join semantics satisfies the count
invariant. -/
theorem count_inv_atomicReachable (db : DB) (h : AtomicReachable db) : CountInv db := by
  induction h with
  | init db0 hi => exact count_inv_init db0 hi
  | step db0 db1 hr hs ih => exact count_inv_atomicStep db0 db1 ih hs

/-- The store after the atomic join's order creation, before its deposit is
processed (product `min_group_size = 2`, price `100`, buyer `7`). -/
def c4AtomicMid : DB :=
  { products := [{ id := 1, price := 100, min_group_size := 2, discount_percentage := 20,
                   discount_tiers := [] }],
    groups := [{ id := 1, product_id := 1, current_count := 0, target_count := 2,
                 is_active := true, updated_at := 0 }],
    orders := [{ id := 1, buyer_id := 7, group_buy_id := 1, quantity := 1,
                 unit_price := 100, discount_price := none,
                 deposit_amount := (100 : ℚ) * (1 / 10), status := .pending,
                 created_at := 0 }],
    nextGroupId := 2, nextOrderId := 2 }

/-- The store after one complete atomic join: the deposit processing has
incremented the active group's count to `1`, matching its one linked
non-cancelled order. -/
def c4AtomicDB : DB :=
  { products := [{ id := 1, price := 100, min_group_size := 2, discount_percentage := 20,
                   discount_tiers := [] }],
    groups := [{ id := 1, product_id := 1, current_count := 1, target_count := 2,
                 is_active := true, updated_at := 0 }],
    orders := [{ id := 1, buyer_id := 7, group_buy_id := 1, quantity := 1,
                 unit_price := 100, discount_price := none,
                 deposit_amount := (100 : ℚ) * (1 / 10), status := .pending,
                 created_at := 0 }],
    nextGroupId := 2, nextOrderId := 2 }

/-- C4 (corrected): the count invariant does not hold at every point of the
source's own operation sequence — `c4_counterexample` exhibits an active
group with `current_count = 0` but one linked non-cancelled order right
after a bare `join_group` callback, because the callback creates the PENDING
order without incrementing the count (the increment happens only when the
deposit is processed). The invariant does hold for every *active* group in
every store reachable when each order's deposit processing is atomic with
its creation (and for joins, rearrangements, get-or-create and sweeps
alike): the group's `current_count` equals the number of orders currently
pointing at it whose status is not CANCELLED. Deactivated groups do not
satisfy it (rearrangement moves orders away from contributing groups
without resetting their counts), so the per-group claim is restricted to
active rows. -/
theorem c4_count_invariant (db : DB) (g : GroupBuy) (h : AtomicReachable db)
    (hg : g ∈ db.groups) (ha : g.is_active = true) :
    g.current_count = (db.orders.filter (fun o =>
      o.group_buy_id == g.id && !(o.status == OrderStatus.cancelled))).length :=
  (count_inv_atomicReachable db h).2.2.2 g hg ha

/-- Witness: after one atomic join on a fresh store the active group has
`current_count = 1` and exactly one linked non-cancelled order. -/
theorem c4_count_invariant_witness :
    ({ id := 1, product_id := 1, current_count := 1, target_count := 2, is_active := true, updated_at := 0 } : GroupBuy).current_count
      = (c4AtomicDB.orders.filter (fun o =>
          o.group_buy_id == ({ id := 1, product_id := 1, current_count := 1, target_count := 2, is_active := true, updated_at := 0 } : GroupBuy).id
          && !(o.status == OrderStatus.cancelled))).length :=
  c4_count_invariant c4AtomicDB
    { id := 1, product_id := 1, current_count := 1, target_count := 2,
      is_active := true, updated_at := 0 }
    (AtomicReachable.step c3DB c4AtomicDB
      (AtomicReachable.init c3DB
        ⟨rfl, rfl, by decide, by decide⟩)
      (AtomicStep.join c3DB c4AtomicMid c4AtomicDB 1 7 0 1 (by rfl) (by rfl)))
    (List.mem_singleton.mpr rfl) rfl
